import Mathlib

/-!
DXBC front end of dxmt: control-flow reconstruction and resource declarations.

A shallow embedding of `src/airconv/dxbc_converter.cpp`:

* `readControlFlow`, the recursive lambda of `SM50Initialize` that walks the
  decoded instruction stream once, builds the basic-block graph and records
  the declarations in `ShaderInfo`;
* `SM50Initialize`, which allocates the entry and return blocks, runs the walk
  and fills `args_reflection`;
* the binding-table part of `convertDXBC`.

Conventions of the embedding.

* `std::shared_ptr<BasicBlock>` is an `Option Nat`: `none` is the null pointer,
  `some i` is the `i`-th block object ever created with `std::make_shared`
  (the arena `PassState.blocks` lists them in creation order).  The same holds
  for `std::shared_ptr<BasicBlockSwitch>` and `PassState.switches`.
* The token cursor `CodeParser` is the list of instructions not yet parsed.
* `assert(...)` and `DXASSERT_DXBC(...)` are active: a failing assertion aborts
  the pass with a `DecodeError`; so does dereferencing a null pointer.
* `uint32_t` values are natural numbers, reduced modulo `2 ^ 32` where the
  source computes with them.
* The recursion of `readControlFlow` is structural on a fuel argument;
  `SM50Initialize` supplies one more unit of fuel than there are tokens.
-/

namespace Dxmt

/-! ## Machine integers -/

/-- The constant `UINT_MAX` of a 32-bit `unsigned`. -/
def UINT_MAX : Nat := 4294967295

/-- Reduction of a natural number to a `uint32_t`. -/
def u32 (n : Nat) : Nat := n % 4294967296

/-- Subtraction `a - b` of two `uint32_t` values, wrapping around. -/
def u32sub (a b : Nat) : Nat := (u32 a + 4294967296 - u32 b) % 4294967296

/-! ## Ordered maps

`ShaderInfo` and `BasicBlockSwitch` are declared in `dxbc_converter.hpp`, which
is not part of the sources at hand. -/

/-- Modelled from the spec: the declaration of the maps of `ShaderInfo` and of
`BasicBlockSwitch::cases` is missing; the spec describes them as maps keyed by a
unique range id (an "ordered map" for the switch table).  They are modelled as
`std::map<uint32_t, V>`: an association list kept in strictly ascending key
order, iterated front to back. -/
abbrev Map (V : Type) := List (Nat × V)

/-- Assignment `m[k] = v` of `std::map`: overwrite the entry of `k` or insert a
new one at its place in key order. -/
def Map.assign {V : Type} : Map V → Nat → V → Map V
  | [], k, v => [(k, v)]
  | (k', v') :: m, k, v =>
    if k < k' then (k, v) :: (k', v') :: m
    else if k = k' then (k, v) :: m
    else (k', v') :: Map.assign m k v

/-- Member `m.insert(std::make_pair(k, v))` of `std::map`: insert the pair
unless the key is already present, in which case the map is left unchanged. -/
def Map.insert {V : Type} : Map V → Nat → V → Map V
  | [], k, v => [(k, v)]
  | (k', v') :: m, k, v =>
    if k < k' then (k, v) :: (k', v') :: m
    else if k = k' then (k', v') :: m
    else (k', v') :: Map.insert m k v

/-- Lookup of a key. -/
def Map.find? {V : Type} : Map V → Nat → Option V
  | [], _ => none
  | (k', v') :: m, k => if k = k' then some v' else Map.find? m k

/-- The keys in iteration order. -/
def Map.keys {V : Type} (m : Map V) : List Nat := m.map Prod.fst

/-! ## Basic blocks -/

/-- The variant `Instruction` stored in a block: `InstPixelDiscard` is pushed
by the walk itself, every other alternative comes out of `readInstruction`
and is kept as the opaque value that function returned. -/
inductive Instruction where
  | InstPixelDiscard
  | lowered (value : Nat)
  deriving DecidableEq, Repr

/-- The variant `BasicBlock::target`.  A freshly made block holds `undefined`
("open"); the other alternatives are `BasicBlockUnconditionalBranch`,
`BasicBlockConditionalBranch`, `BasicBlockSwitch` and `BasicBlockReturn`. -/
inductive BasicBlockTarget where
  | undefined
  | unconditional (target : Option Nat)
  | conditional (cond : Nat) (true_branch : Option Nat) (false_branch : Option Nat)
  | switch (cases : Map (Option Nat)) (case_default : Option Nat)
  | ret
  deriving DecidableEq, Repr

/-- Block names given to `std::make_shared<BasicBlock>(name)`. -/
inductive BlockName where
  | entrybb | returnbb
  | if_true | if_alternative | endif
  | loop_entrance | endloop
  | after_break | after_breakc | after_continue | after_continuec
  | endswitch | switch_empty | switch_case | switch_default
  | after_ret | after_retc
  | discard_fulfilled | discard_otherwise
  deriving DecidableEq, Repr

/-- A `BasicBlock`: debug name, instruction list and terminator. -/
structure BasicBlock where
  debug_name : BlockName
  instructions : List Instruction
  target : BasicBlockTarget
  deriving DecidableEq, Repr

/-- The accumulator `BasicBlockSwitch` of an open SWITCH. -/
structure BasicBlockSwitch where
  cases : Map (Option Nat)
  case_default : Option Nat
  deriving DecidableEq, Repr

/-! ## Shader information -/

/-- The range of a binding: `range_id`, `lower_bound`, `size`, `space`. -/
structure ResourceRange where
  range_id : Nat
  lower_bound : Nat
  size : Nat
  space : Nat
  deriving DecidableEq, Repr

/-- Entry of `cbufferMap`. -/
structure ConstantBufferInfo where
  range : ResourceRange
  size_in_vec4 : Nat
  deriving DecidableEq, Repr

/-- Entry of `samplerMap`. -/
structure SamplerInfo where
  range : ResourceRange
  deriving DecidableEq, Repr

/-- Entry of `srvMap`.  Fields the walk does not assign keep the value of the
aggregate initialisation (zero, `false`); `sampled`, `read` and `compared` are
only ever changed by `readInstruction`.  The stride `-1` of a typed view is
kept as the `uint32_t` value `0xFFFFFFFF`. -/
structure ShaderResourceViewInfo where
  range : ResourceRange
  resource_type : Nat
  scaler_type : Nat
  strucure_stride : Nat
  read : Bool
  sampled : Bool
  compared : Bool
  deriving DecidableEq, Repr

/-- Entry of `uavMap`. -/
structure UnorderedAccessViewInfo where
  range : ResourceRange
  resource_type : Nat
  scaler_type : Nat
  strucure_stride : Nat
  read : Bool
  written : Bool
  global_coherent : Bool
  rasterizer_order : Bool
  with_counter : Bool
  deriving DecidableEq, Repr

/-- Entry of `tgsmMap`. -/
structure ThreadgroupBufferInfo where
  size_in_uint : Nat
  size : Nat
  stride : Nat
  structured : Bool
  deriving DecidableEq, Repr

/-- The record `ShaderInfo` filled by the walk. -/
structure ShaderInfo where
  immConstantBufferData : List (Nat × Nat × Nat × Nat)
  srvMap : Map ShaderResourceViewInfo
  uavMap : Map UnorderedAccessViewInfo
  cbufferMap : Map ConstantBufferInfo
  samplerMap : Map SamplerInfo
  tgsmMap : Map ThreadgroupBufferInfo
  tempRegisterCount : Nat
  indexableTempRegisterCounts : Map (Nat × Nat)
  deriving DecidableEq, Repr

/-- A default-constructed `ShaderInfo`. -/
def ShaderInfo.empty : ShaderInfo :=
  { immConstantBufferData := [], srvMap := [], uavMap := [], cbufferMap := [],
    samplerMap := [], tgsmMap := [], tempRegisterCount := 0,
    indexableTempRegisterCounts := [] }

/-! ## The decoded instruction stream -/

/-- Operand types `D3D10_SB_OPERAND_TYPE` the walk distinguishes. -/
inductive OperandType where
  | IMMEDIATE32 | INPUT
  | INPUT_COVERAGE_MASK | INNER_COVERAGE | CYCLE_COUNTER
  | INPUT_THREAD_ID | INPUT_THREAD_GROUP_ID | INPUT_THREAD_ID_IN_GROUP
  | INPUT_THREAD_ID_IN_GROUP_FLATTENED
  | INPUT_DOMAIN_POINT | OUTPUT_CONTROL_POINT_ID | INPUT_PRIMITIVEID
  | INPUT_FORK_INSTANCE_ID | INPUT_JOIN_INSTANCE_ID | INPUT_GS_INSTANCE_ID
  | OUTPUT_DEPTH | OUTPUT_DEPTH_GREATER_EQUAL | OUTPUT_DEPTH_LESS_EQUAL
  | OUTPUT_STENCIL_REF | OUTPUT_COVERAGE_MASK
  | other (code : Nat)
  deriving DecidableEq, Repr

/-- The index dimension `D3D10_SB_OPERAND_INDEX_nD` of an operand. -/
inductive IndexDimension where
  | INDEX_0D | INDEX_1D | INDEX_2D | INDEX_3D
  deriving DecidableEq, Repr

/-- The component count `D3D10_SB_OPERAND_n_COMPONENT` of an operand. -/
inductive NumComponents where
  | COMPONENT_0 | COMPONENT_1 | COMPONENT_4 | COMPONENT_N
  deriving DecidableEq, Repr

/-- The fields of `COperandBase` the walk reads: `m_Index0`, `m_Index1`,
`m_Index2` are `m_Index[0..2].m_RegIndex`, `m_Value0` is `m_Value[0]`. -/
structure COperandBase where
  m_Type : OperandType
  m_IndexDimension : IndexDimension
  m_Index0 : Nat
  m_Index1 : Nat
  m_Index2 : Nat
  m_WriteMask : Nat
  m_NumComponents : NumComponents
  m_Value0 : Nat
  deriving DecidableEq, Repr

/-- System-value names `D3D10_SB_NAME` the walk distinguishes. -/
inductive SystemName where
  | VERTEX_ID | INSTANCE_ID | SAMPLE_INDEX | PRIMITIVE_ID | IS_FRONT_FACE
  | POSITION | RENDER_TARGET_ARRAY_INDEX | VIEWPORT_ARRAY_INDEX
  | CLIP_DISTANCE | CULL_DISTANCE
  | other (code : Nat)
  deriving DecidableEq, Repr

/-- The kind of `CUSTOMDATA` block. -/
inductive CustomDataType where
  | DCL_IMMEDIATE_CONSTANT_BUFFER
  | other (code : Nat)
  deriving DecidableEq, Repr

/-- Opcodes the walk skips without any effect ("ignore atm"). -/
inductive IgnoredOpcode where
  | DCL_INDEX_RANGE
  | DCL_GS_INPUT_PRIMITIVE | DCL_GS_OUTPUT_PRIMITIVE_TOPOLOGY
  | DCL_MAX_OUTPUT_VERTEX_COUNT | DCL_GS_INSTANCE_COUNT | DCL_STREAM
  | DCL_INTERFACE | DCL_FUNCTION_TABLE | DCL_FUNCTION_BODY | LABEL
  | DCL_TESS_PARTITIONING | DCL_TESS_OUTPUT_PRIMITIVE | DCL_TESS_DOMAIN
  | DCL_INPUT_CONTROL_POINT_COUNT | DCL_OUTPUT_CONTROL_POINT_COUNT
  | DCL_HS_FORK_PHASE_INSTANCE_COUNT | DCL_HS_JOIN_PHASE_INSTANCE_COUNT
  | DCL_HS_MAX_TESSFACTOR
  deriving DecidableEq, Repr

/-- The opcodes of the region "declaration" of `readControlFlow`, each with
the fields of `CInstruction` its case reads (`op0` is `m_Operands[0]`). -/
inductive Declaration where
  | DCL_CONSTANT_BUFFER (op0 : COperandBase) (Size : Nat) (Space : Nat)
  | DCL_SAMPLER (op0 : COperandBase) (Space : Nat)
  | DCL_RESOURCE (op0 : COperandBase) (Space : Nat) (Dimension : Nat) (ReturnType0 : Nat)
  | DCL_RESOURCE_RAW (op0 : COperandBase) (Space : Nat)
  | DCL_RESOURCE_STRUCTURED (op0 : COperandBase) (Space : Nat) (ByteStride : Nat)
  | DCL_UNORDERED_ACCESS_VIEW_TYPED (op0 : COperandBase) (Space : Nat) (Flags : Nat)
      (Dimension : Nat) (ReturnType0 : Nat)
  | DCL_UNORDERED_ACCESS_VIEW_RAW (op0 : COperandBase) (Space : Nat) (Flags : Nat)
  | DCL_UNORDERED_ACCESS_VIEW_STRUCTURED (op0 : COperandBase) (Space : Nat) (Flags : Nat)
      (ByteStride : Nat)
  | DCL_TEMPS (NumTemps : Nat)
  | DCL_INDEXABLE_TEMP (IndexableTempNumber : Nat) (NumRegisters : Nat) (Mask : Nat)
  | DCL_THREAD_GROUP (x : Nat) (y : Nat) (z : Nat)
  | DCL_THREAD_GROUP_SHARED_MEMORY_RAW (op0 : COperandBase) (ByteCount : Nat)
  | DCL_THREAD_GROUP_SHARED_MEMORY_STRUCTURED (op0 : COperandBase) (StructByteStride : Nat)
      (StructCount : Nat)
  | DCL_GLOBAL_FLAGS
  | DCL_INPUT_SIV
  | DCL_INPUT_SGV (op0 : COperandBase) (Name : SystemName)
  | DCL_INPUT (op0 : COperandBase)
  | DCL_INPUT_PS_SIV (op0 : COperandBase) (Name : SystemName) (InterpolationMode : Nat)
  | DCL_INPUT_PS_SGV (op0 : COperandBase) (Name : SystemName) (InterpolationMode : Nat)
  | DCL_INPUT_PS (op0 : COperandBase) (InterpolationMode : Nat)
  | DCL_OUTPUT_SGV
  | DCL_OUTPUT_SIV (op0 : COperandBase) (Name : SystemName)
  | DCL_OUTPUT (op0 : COperandBase)
  | CUSTOMDATA (DataType : CustomDataType) (DataSizeInBytes : Nat) (pData : List Nat)
  | ignored (opcode : IgnoredOpcode)
  deriving DecidableEq, Repr

/-- A decoded instruction `CInstruction`, by the three regions of the opcode
switch of `readControlFlow`: control flow, declarations, and every other
opcode (the `default` case).  `inst` stands for the content of the
instruction that `readCondition` and `readInstruction` decode. -/
inductive CInstruction where
  | IF (inst : Nat)
  | ELSE
  | ENDIF
  | LOOP
  | BREAK
  | BREAKC (inst : Nat)
  | CONTINUE
  | CONTINUEC (inst : Nat)
  | ENDLOOP
  | SWITCH
  | CASE (O : COperandBase)
  | DEFAULT
  | ENDSWITCH
  | RET
  | RETC (inst : Nat)
  | DISCARD (inst : Nat)
  | dcl (d : Declaration)
  | other (inst : Nat)
  deriving DecidableEq, Repr

/-- Program types `D3D10_SB_TOKENIZED_PROGRAM_TYPE`. -/
inductive ProgramType where
  | PIXEL_SHADER | VERTEX_SHADER | GEOMETRY_SHADER | HULL_SHADER | DOMAIN_SHADER
  | COMPUTE_SHADER
  deriving DecidableEq, Repr

/-! ## Function signature and effects -/

/-- Interpolation qualifiers of the target, the result of
`to_air_interpolation`. -/
inductive Interpolation where
  | center_perspective | center_no_perspective
  | centroid_perspective | centroid_no_perspective
  | sample_perspective | sample_no_perspective
  | flat
  deriving DecidableEq, Repr

/-- Target value types used for stage inputs and outputs. -/
inductive MSLType where
  | msl_float4 | msl_int4 | msl_uint4
  deriving DecidableEq, Repr

/-- Argument of `depth_argument` of `OutputDepth`. -/
inductive DepthArgument where
  | any | greater | less
  deriving DecidableEq, Repr

/-- The inputs handed to `FunctionSignatureBuilder::DefineInput`. -/
inductive FunctionInput where
  | InputVertexID | InputBaseVertex | InputInstanceID | InputBaseInstance
  | InputSampleIndex | InputPrimitiveID | InputFrontFacing
  | InputThreadPositionInGrid | InputThreadgroupPositionInGrid
  | InputThreadPositionInThreadgroup | InputThreadIndexInThreadgroup
  | InputVertexStageIn (attr : Nat) (type : MSLType) (name : String)
  | InputPosition (interpolation : Interpolation)
  | InputRenderTargetArrayIndex | InputViewportArrayIndex
  | InputFragmentStageIn (user : String) (type : MSLType) (interpolation : Interpolation)
  | ArgumentBindingIndirectBuffer (location_index : Nat) (array_size : Nat)
      (arg_name : String)
  deriving DecidableEq, Repr

/-- The outputs handed to `FunctionSignatureBuilder::DefineOutput`. -/
inductive FunctionOutput where
  | OutputPosition (type : MSLType)
  | OutputDepth (depth_argument : DepthArgument)
  | OutputRenderTarget (index : Nat) (type : MSLType)
  | OutputVertex (user : String) (type : MSLType)
  deriving DecidableEq, Repr

/-- The state of the `FunctionSignatureBuilder`: the inputs and outputs
defined so far. -/
structure FunctionSignatureBuilder where
  inputs : List FunctionInput
  outputs : List FunctionOutput
  deriving DecidableEq, Repr

/-- An element pushed on `prelogue_`: a closure of the source, by the case that
creates it and the values it captures. -/
inductive PrelogueEffect where
  | vertex_id (assigned_index : Nat) (assigned_index_base : Nat) (reg : Nat) (mask : Nat)
  | instance_id (assigned_index : Nat) (assigned_index_base : Nat) (reg : Nat) (mask : Nat)
  | init_input_reg (assigned_index : Nat) (reg : Nat) (mask : Nat)
  | thread_id_arg (assigned_index : Nat)
  | thread_group_id_arg (assigned_index : Nat)
  | thread_id_in_group_arg (assigned_index : Nat)
  | thread_id_in_group_flat_arg (assigned_index : Nat)
  | depth_output_reg
  deriving DecidableEq, Repr

/-- An element pushed on `epilogue_`. -/
inductive EpilogueEffect where
  | pop_output_reg (reg : Nat) (mask : Nat) (assigned_index : Nat)
  | depth_output (assigned_index : Nat)
  deriving DecidableEq, Repr

/-- Component type of a signature element. -/
inductive RegisterComponentType where
  | Unknown | Uint | Int | Float
  deriving DecidableEq, Repr

/-- A signature element, by what the accessors of `Signature` return. -/
structure Signature where
  reg : Nat
  mask : Nat
  componentType : RegisterComponentType
  fullSemanticString : String
  deriving DecidableEq, Repr

/-- The resource kinds `SM50BindingType` of the argument list. -/
inductive SM50BindingType where
  | ConstantBuffer | Sampler | SRV | UAV
  deriving DecidableEq, Repr

/-- An element `MTL_SM50_SHADER_ARGUMENT` of `args_reflection`, written
`{type, range_id}` in the source. -/
structure MTL_SM50_SHADER_ARGUMENT where
  BindingType : SM50BindingType
  SM50BindingSlot : Nat
  deriving DecidableEq, Repr

/-! ## Collaborators outside the sources at hand -/

/-- The functions and constants `readControlFlow` uses whose definitions are in
headers not at hand (`dxbc_converter_inc.hpp`,
`dxbc_converter_instruction_inc.hpp`, `air_signature.hpp`,
`d3d12tokenizedprogramformat.hpp`).  They are parameters of the embedding.
`readInstruction` receives `ShaderInfo` by reference and may change it. -/
structure External where
  readCondition : Nat → Nat
  readInstruction : Nat → ShaderInfo → Instruction × ShaderInfo
  to_shader_resource_type : Nat → Nat
  to_shader_scaler_type : Nat → Nat
  ScalerDataType_Uint : Nat
  to_air_interpolation : Nat → Interpolation
  DefineInput : FunctionSignatureBuilder → FunctionInput → Nat × FunctionSignatureBuilder
  DefineOutput : FunctionSignatureBuilder → FunctionOutput → Nat × FunctionSignatureBuilder
  GLOBALLY_COHERENT_ACCESS : Nat
  UAV_HAS_ORDER_PRESERVING_COUNTER : Nat
  RASTERIZER_ORDERED_ACCESS : Nat
  GetArgumentIndex : MTL_SM50_SHADER_ARGUMENT → Nat

/-- What the code parser and the signature parsers expose of the shader
besides the instruction stream. -/
structure ShaderEnv where
  ShaderType : ProgramType
  ShaderMajorVersion : Nat
  ShaderMinorVersion : Nat
  inputParameters : List Signature
  outputParameters : List Signature
  deriving DecidableEq, Repr

/-- The flag `sm_ver_5_1_`. -/
def ShaderEnv.sm_ver_5_1_ (P : ShaderEnv) : Bool :=
  P.ShaderMajorVersion == 5 && decide (P.ShaderMinorVersion ≥ 1)

/-! ## State of the pass -/

/-- Ways the pass aborts. -/
inductive DecodeError where
  | unexpectedEndOfShader
  | assertionFailed
  | nullPointer
  | outOfFuel
  deriving DecidableEq, Repr

/-- Everything the walk mutates: the block and switch objects made so far, and
the fields of `SM50ShaderInternal` it fills. -/
structure PassState where
  blocks : List BasicBlock
  switches : List BasicBlockSwitch
  shader_info : ShaderInfo
  func_signature : FunctionSignatureBuilder
  prelogue_ : List PrelogueEffect
  epilogue_ : List EpilogueEffect
  max_input_register : Nat
  max_output_register : Nat
  threadgroup_size : Nat × Nat × Nat
  deriving DecidableEq, Repr

/-- Apply `f` to the `i`-th element of a list. -/
def updateAt {α : Type} (f : α → α) : List α → Nat → List α
  | [], _ => []
  | a :: l, 0 => f a :: l
  | a :: l, i + 1 => a :: updateAt f l i

/-- Statement `std::make_shared<BasicBlock>(name)`: a new open block without
instructions; returns the pointer to it. -/
def PassState.newBlock (st : PassState) (name : BlockName) : Option Nat × PassState :=
  (some st.blocks.length,
   { st with blocks := st.blocks ++ [{ debug_name := name, instructions := [],
                                       target := .undefined }] })

/-- Statement `std::make_shared<BasicBlockSwitch>()`. -/
def PassState.newSwitch (st : PassState) : Option Nat × PassState :=
  (some st.switches.length,
   { st with switches := st.switches ++ [{ cases := [], case_default := none }] })

/-- The block `b` with its terminator replaced by `t`. -/
def BasicBlock.setTarget (t : BasicBlockTarget) (b : BasicBlock) : BasicBlock :=
  { b with target := t }

/-- The block `b` with the instructions `xs` appended. -/
def BasicBlock.push (xs : List Instruction) (b : BasicBlock) : BasicBlock :=
  { b with instructions := b.instructions ++ xs }

/-- Assignment `ctx->target = t`. -/
def PassState.setTarget (st : PassState) (ctx : Option Nat) (t : BasicBlockTarget) :
    Except DecodeError PassState :=
  match ctx with
  | none => .error .nullPointer
  | some i => .ok { st with blocks := updateAt (BasicBlock.setTarget t) st.blocks i }

/-- Statement `ctx->instructions.push_back(x)`. -/
def PassState.pushInstruction (st : PassState) (ctx : Option Nat) (x : Instruction) :
    Except DecodeError PassState :=
  match ctx with
  | none => .error .nullPointer
  | some i => .ok { st with blocks := updateAt (BasicBlock.push [x]) st.blocks i }

/-- Statement `switch_context->cases.insert(std::make_pair(case_value, case_body))`. -/
def PassState.insertCase (st : PassState) (switch_context : Option Nat) (case_value : Nat)
    (case_body : Option Nat) : Except DecodeError PassState :=
  match switch_context with
  | none => .error .nullPointer
  | some s =>
    let add := fun (c : BasicBlockSwitch) =>
      { c with cases := Map.insert c.cases case_value case_body }
    .ok { st with switches := updateAt add st.switches s }

/-- Assignment `switch_context->case_default = case_body`. -/
def PassState.setDefault (st : PassState) (switch_context : Option Nat)
    (case_body : Option Nat) : Except DecodeError PassState :=
  match switch_context with
  | none => .error .nullPointer
  | some s =>
    .ok { st with
          switches := updateAt (fun c => { c with case_default := case_body }) st.switches s }

/-- The value `*local_switch_context` as a block terminator. -/
def PassState.switchTarget (st : PassState) (local_switch_context : Option Nat) :
    Except DecodeError BasicBlockTarget :=
  match local_switch_context with
  | none => .error .nullPointer
  | some s =>
    match st.switches.get? s with
    | none => .error .nullPointer
    | some c => .ok (.switch c.cases c.case_default)

/-- Macro `assert(c)` / `DXASSERT_DXBC(c)`. -/
def DXASSERT_DXBC (c : Bool) : Except DecodeError Unit :=
  if c then .ok () else .error .assertionFailed

/-! ## Declarations -/

/-- The expression
`Index[2] != UINT_MAX ? Index[2] - LB + 1 : UINT_MAX` giving `RangeSize` in
the 3-D (SM 5.1) form of a binding declaration. -/
def RangeSize3D (Index2 LB : Nat) : Nat :=
  if Index2 ≠ UINT_MAX then u32 (u32sub Index2 LB + 1) else UINT_MAX

/-- The lambda `findInputElement`: the first input signature element the
matcher accepts; none is an assertion failure. -/
def findInputElement (P : ShaderEnv) (matcher : Signature → Bool) :
    Except DecodeError Signature :=
  match P.inputParameters.find? matcher with
  | some sig => .ok sig
  | none => .error .assertionFailed

/-- The lambda `findOutputElement`. -/
def findOutputElement (P : ShaderEnv) (matcher : Signature → Bool) :
    Except DecodeError Signature :=
  match P.outputParameters.find? matcher with
  | some sig => .ok sig
  | none => .error .assertionFailed

/-- The matcher `(sig.reg() == reg) && ((sig.mask() & mask) != 0)`. -/
def sigMatches (reg mask : Nat) (sig : Signature) : Bool :=
  sig.reg == reg && (Nat.land sig.mask mask != 0)

/-- The type chosen for a stage input or output from its component type. -/
def sigType (sig : Signature) : MSLType :=
  if sig.componentType = .Float then .msl_float4 else .msl_int4

/-- Call `func_signature.DefineInput(x)`: the assigned index and the state
with the builder updated. -/
def PassState.DefineInput (E : External) (st : PassState) (x : FunctionInput) :
    Nat × PassState :=
  ((E.DefineInput st.func_signature x).1,
   { st with func_signature := (E.DefineInput st.func_signature x).2 })

/-- Call `func_signature.DefineOutput(x)`. -/
def PassState.DefineOutput (E : External) (st : PassState) (x : FunctionOutput) :
    Nat × PassState :=
  ((E.DefineOutput st.func_signature x).1,
   { st with func_signature := (E.DefineOutput st.func_signature x).2 })

/-- Statement `prelogue_.push_back(e)`. -/
def PassState.pushPrelogue (st : PassState) (e : PrelogueEffect) : PassState :=
  { st with prelogue_ := st.prelogue_ ++ [e] }

/-- Statement `epilogue_.push_back(e)`. -/
def PassState.pushEpilogue (st : PassState) (e : EpilogueEffect) : PassState :=
  { st with epilogue_ := st.epilogue_ ++ [e] }

/-- The first `n` 4-tuples of 32-bit words of a custom-data payload. -/
def readVec4 (pData : List Nat) (n : Nat) : List (Nat × Nat × Nat × Nat) :=
  (List.range n).map fun i =>
    (pData.getD (4 * i) 0, pData.getD (4 * i + 1) 0, pData.getD (4 * i + 2) 0,
     pData.getD (4 * i + 3) 0)

/-- Case `D3D10_SB_OPCODE_DCL_CONSTANT_BUFFER`. -/
def dclConstantBuffer (op0 : COperandBase) (Size Space : Nat) (st : PassState) :
    Except DecodeError PassState :=
  let RangeID := op0.m_Index0
  let record := fun (LB RangeSize : Nat) =>
    { st with shader_info := { st.shader_info with
        cbufferMap := Map.assign st.shader_info.cbufferMap RangeID
          { range := { range_id := RangeID, lower_bound := LB, size := RangeSize,
                       space := Space },
            size_in_vec4 := Size } } }
  match op0.m_IndexDimension with
  | .INDEX_2D => .ok (record RangeID 1)
  | .INDEX_3D => .ok (record op0.m_Index1 (RangeSize3D op0.m_Index2 op0.m_Index1))
  | _ => .error .assertionFailed

/-- Case `D3D10_SB_OPCODE_DCL_SAMPLER`. -/
def dclSampler (op0 : COperandBase) (Space : Nat) (st : PassState) :
    Except DecodeError PassState :=
  let RangeID := op0.m_Index0
  let record := fun (LB RangeSize : Nat) =>
    { st with shader_info := { st.shader_info with
        samplerMap := Map.assign st.shader_info.samplerMap RangeID
          { range := { range_id := RangeID, lower_bound := LB, size := RangeSize,
                       space := Space } } } }
  match op0.m_IndexDimension with
  | .INDEX_1D => .ok (record RangeID 1)
  | .INDEX_3D => .ok (record op0.m_Index1 (RangeSize3D op0.m_Index2 op0.m_Index1))
  | _ => .error .assertionFailed

/-- The range `{range_id, lower_bound, size}` of a shader-resource or
unordered-access view declaration, chosen by `sm_ver_5_1_`; `space` is
assigned afterwards by the opcode. -/
def viewRange (P : ShaderEnv) (op0 : COperandBase) (Space : Nat) : ResourceRange :=
  if P.sm_ver_5_1_ then
    { range_id := op0.m_Index0, lower_bound := op0.m_Index1,
      size := RangeSize3D op0.m_Index2 op0.m_Index1, space := Space }
  else
    { range_id := op0.m_Index0, lower_bound := op0.m_Index0, size := 1, space := Space }

/-- Statement `shader_info->srvMap[RangeID] = srv`. -/
def PassState.setSrv (st : PassState) (RangeID : Nat) (srv : ShaderResourceViewInfo) :
    PassState :=
  { st with shader_info := { st.shader_info with
      srvMap := Map.assign st.shader_info.srvMap RangeID srv } }

/-- Statement `shader_info->uavMap[RangeID] = uav`. -/
def PassState.setUav (st : PassState) (RangeID : Nat) (uav : UnorderedAccessViewInfo) :
    PassState :=
  { st with shader_info := { st.shader_info with
      uavMap := Map.assign st.shader_info.uavMap RangeID uav } }

/-- An `UnorderedAccessViewInfo` with the three flag bits decoded from `Flags`. -/
def makeUav (E : External) (range : ResourceRange) (resource_type scaler_type
    strucure_stride Flags : Nat) : UnorderedAccessViewInfo :=
  { range := range, resource_type := resource_type, scaler_type := scaler_type,
    strucure_stride := strucure_stride, read := false, written := false,
    global_coherent := Nat.land Flags E.GLOBALLY_COHERENT_ACCESS != 0,
    rasterizer_order := Nat.land Flags E.RASTERIZER_ORDERED_ACCESS != 0,
    with_counter := Nat.land Flags E.UAV_HAS_ORDER_PRESERVING_COUNTER != 0 }

/-- Cases `D3D11_SB_OPCODE_DCL_THREAD_GROUP_SHARED_MEMORY_RAW` and
`..._STRUCTURED`; `raw` tells which. -/
def dclThreadGroupSharedMemory (op0 : COperandBase) (raw : Bool) (a b : Nat)
    (st : PassState) : Except DecodeError PassState :=
  let record := fun (tgsm : ThreadgroupBufferInfo) =>
    { st with shader_info := { st.shader_info with
        tgsmMap := Map.assign st.shader_info.tgsmMap op0.m_Index0 tgsm } }
  if raw then
    -- `a` is `ByteCount`
    if Nat.land a 3 = 0 then
      .ok (record { stride := 1, size := a, size_in_uint := a / 4, structured := false })
    else .error .assertionFailed
  else
    -- `a` is `StructByteStride`, `b` is `StructCount`
    if Nat.land a 3 = 0 then
      .ok (record { stride := a, size := b, size_in_uint := u32 (a * b) / 4,
                    structured := true })
    else .error .assertionFailed

/-- Case `D3D10_SB_OPCODE_DCL_INPUT_SGV`. -/
def dclInputSGV (E : External) (op0 : COperandBase) (Name : SystemName) (st : PassState) :
    Except DecodeError PassState :=
  let reg := op0.m_Index0
  let mask := op0.m_WriteMask >>> 4
  match Name with
  | .VERTEX_ID =>
    let (assigned_index, st) := st.DefineInput E .InputVertexID
    let (assigned_index_base, st) := st.DefineInput E .InputBaseVertex
    .ok (st.pushPrelogue (.vertex_id assigned_index assigned_index_base reg mask))
  | .INSTANCE_ID =>
    let (assigned_index, st) := st.DefineInput E .InputInstanceID
    let (assigned_index_base, st) := st.DefineInput E .InputBaseInstance
    .ok (st.pushPrelogue (.instance_id assigned_index assigned_index_base reg mask))
  | .SAMPLE_INDEX =>
    let (assigned_index, st) := st.DefineInput E .InputSampleIndex
    .ok (st.pushPrelogue (.init_input_reg assigned_index reg mask))
  | .PRIMITIVE_ID =>
    let (assigned_index, st) := st.DefineInput E .InputPrimitiveID
    .ok (st.pushPrelogue (.init_input_reg assigned_index reg mask))
  | .IS_FRONT_FACE =>
    let (assigned_index, st) := st.DefineInput E .InputFrontFacing
    .ok (st.pushPrelogue (.init_input_reg assigned_index reg mask))
  | _ => .error .assertionFailed

/-- A thread-position input of `D3D10_SB_OPCODE_DCL_INPUT`: define the input
and push the effect that stores the argument. -/
def dclInputThread (E : External) (x : FunctionInput) (eff : Nat → PrelogueEffect)
    (st : PassState) : PassState :=
  let (assigned_index, st) := st.DefineInput E x
  st.pushPrelogue (eff assigned_index)

/-- Case `D3D10_SB_OPCODE_DCL_INPUT`. -/
def dclInput (E : External) (P : ShaderEnv) (op0 : COperandBase) (st : PassState) :
    Except DecodeError PassState :=
  match op0.m_Type with
  | .INPUT_COVERAGE_MASK => .error .assertionFailed
  | .INNER_COVERAGE => .error .assertionFailed
  | .CYCLE_COUNTER => .ok st
  | .INPUT_THREAD_ID =>
    .ok (dclInputThread E .InputThreadPositionInGrid .thread_id_arg st)
  | .INPUT_THREAD_GROUP_ID =>
    .ok (dclInputThread E .InputThreadgroupPositionInGrid .thread_group_id_arg st)
  | .INPUT_THREAD_ID_IN_GROUP =>
    .ok (dclInputThread E .InputThreadPositionInThreadgroup .thread_id_in_group_arg st)
  | .INPUT_THREAD_ID_IN_GROUP_FLATTENED =>
    .ok (dclInputThread E .InputThreadIndexInThreadgroup .thread_id_in_group_flat_arg st)
  | .INPUT_DOMAIN_POINT => .error .assertionFailed
  | .OUTPUT_CONTROL_POINT_ID => .error .assertionFailed
  | .INPUT_PRIMITIVEID => .error .assertionFailed
  | .INPUT_FORK_INSTANCE_ID => .error .assertionFailed
  | .INPUT_JOIN_INSTANCE_ID => .error .assertionFailed
  | .INPUT_GS_INSTANCE_ID => .error .assertionFailed
  | RegType =>
    match op0.m_IndexDimension with
    | .INDEX_1D =>
      let reg := op0.m_Index0
      if RegType = .INPUT then
        let mask := op0.m_WriteMask >>> 4
        match findInputElement P (sigMatches reg mask) with
        | .error e => .error e
        | .ok sig =>
          let (assigned_index, st) :=
            st.DefineInput E (.InputVertexStageIn reg (sigType sig) sig.fullSemanticString)
          let st := st.pushPrelogue (.init_input_reg assigned_index reg mask)
          .ok { st with max_input_register := max (u32 (reg + 1)) st.max_input_register }
      else .error .assertionFailed
    | _ => .error .assertionFailed

/-- Case `D3D10_SB_OPCODE_DCL_INPUT_PS_SIV`. -/
def dclInputPSSIV (E : External) (op0 : COperandBase) (Name : SystemName)
    (InterpolationMode : Nat) (st : PassState) : Except DecodeError PassState :=
  let reg := op0.m_Index0
  let mask := op0.m_WriteMask >>> 4
  let interpolation := E.to_air_interpolation InterpolationMode
  let finish := fun (r : Nat × PassState) =>
    r.2.pushPrelogue (.init_input_reg r.1 reg mask)
  match Name with
  | .POSITION =>
    if interpolation = .center_no_perspective then
      .ok (finish (st.DefineInput E (.InputPosition interpolation)))
    else .error .assertionFailed
  | .RENDER_TARGET_ARRAY_INDEX =>
    if interpolation = .flat then
      .ok (finish (st.DefineInput E .InputRenderTargetArrayIndex))
    else .error .assertionFailed
  | .VIEWPORT_ARRAY_INDEX =>
    if interpolation = .flat then
      .ok (finish (st.DefineInput E .InputViewportArrayIndex))
    else .error .assertionFailed
  | _ => .error .assertionFailed

/-- Case `D3D10_SB_OPCODE_DCL_INPUT_PS_SGV`. -/
def dclInputPSSGV (E : External) (op0 : COperandBase) (Name : SystemName)
    (InterpolationMode : Nat) (st : PassState) : Except DecodeError PassState :=
  let reg := op0.m_Index0
  let mask := op0.m_WriteMask >>> 4
  let interpolation := E.to_air_interpolation InterpolationMode
  let finish := fun (r : Nat × PassState) =>
    r.2.pushPrelogue (.init_input_reg r.1 reg mask)
  match Name with
  | .IS_FRONT_FACE =>
    if interpolation = .flat then .ok (finish (st.DefineInput E .InputFrontFacing))
    else .error .assertionFailed
  | .SAMPLE_INDEX =>
    if interpolation = .flat then .ok (finish (st.DefineInput E .InputSampleIndex))
    else .error .assertionFailed
  | _ => .error .assertionFailed

/-- Case `D3D10_SB_OPCODE_DCL_INPUT_PS`. -/
def dclInputPS (E : External) (P : ShaderEnv) (op0 : COperandBase) (InterpolationMode : Nat)
    (st : PassState) : Except DecodeError PassState :=
  let reg := op0.m_Index0
  let mask := op0.m_WriteMask >>> 4
  let interpolation := E.to_air_interpolation InterpolationMode
  match findInputElement P (sigMatches reg mask) with
  | .error e => .error e
  | .ok sig =>
    let (assigned_index, st) :=
      st.DefineInput E (.InputFragmentStageIn sig.fullSemanticString (sigType sig) interpolation)
    let st := st.pushPrelogue (.init_input_reg assigned_index reg mask)
    .ok { st with max_input_register := max (u32 (reg + 1)) st.max_input_register }

/-- Case `D3D10_SB_OPCODE_DCL_OUTPUT_SIV`. -/
def dclOutputSIV (E : External) (op0 : COperandBase) (Name : SystemName) (st : PassState) :
    Except DecodeError PassState :=
  let reg := op0.m_Index0
  let mask := op0.m_WriteMask >>> 4
  match Name with
  | .POSITION =>
    let (assigned_index, st) := st.DefineOutput E (.OutputPosition .msl_float4)
    let st := { st with max_output_register := max (u32 (reg + 1)) st.max_output_register }
    .ok (st.pushEpilogue (.pop_output_reg reg mask assigned_index))
  | _ => .error .assertionFailed

/-- Case `D3D10_SB_OPCODE_DCL_OUTPUT`. -/
def dclOutput (E : External) (P : ShaderEnv) (op0 : COperandBase) (st : PassState) :
    Except DecodeError PassState :=
  let depth := fun (a : DepthArgument) =>
    let st := st.pushPrelogue .depth_output_reg
    let (assigned_index, st) := st.DefineOutput E (.OutputDepth a)
    st.pushEpilogue (.depth_output assigned_index)
  match op0.m_Type with
  | .OUTPUT_DEPTH => .ok (depth .any)
  | .OUTPUT_DEPTH_GREATER_EQUAL => .ok (depth .greater)
  | .OUTPUT_DEPTH_LESS_EQUAL => .ok (depth .less)
  | .OUTPUT_STENCIL_REF => .error .assertionFailed
  | .OUTPUT_COVERAGE_MASK => .error .assertionFailed
  | _ =>
    let reg := op0.m_Index0
    let mask := op0.m_WriteMask >>> 4
    match findOutputElement P (sigMatches reg mask) with
    | .error e => .error e
    | .ok sig =>
      let (assigned_index, st) :=
        if P.ShaderType = .PIXEL_SHADER then
          st.DefineOutput E (.OutputRenderTarget reg (sigType sig))
        else
          st.DefineOutput E (.OutputVertex sig.fullSemanticString (sigType sig))
      let st := st.pushEpilogue (.pop_output_reg reg mask assigned_index)
      .ok { st with max_output_register := max (u32 (reg + 1)) st.max_output_register }

/-- Case `D3D10_SB_OPCODE_CUSTOMDATA`. -/
def customData (DataType : CustomDataType) (DataSizeInBytes : Nat) (pData : List Nat)
    (st : PassState) : Except DecodeError PassState :=
  if DataType = .DCL_IMMEDIATE_CONSTANT_BUFFER then
    let size_in_vec4 := DataSizeInBytes >>> 4
    if DataSizeInBytes = u32 (size_in_vec4 * 16) then
      .ok { st with shader_info := { st.shader_info with
              immConstantBufferData := readVec4 pData size_in_vec4 } }
    else .error .assertionFailed
  else .ok st

/-- The region "declaration" of the opcode switch of `readControlFlow`: the
effect of one declaration on the state of the pass.  Every case ends with
`break`, so the walk goes on with the next token and the same context. -/
def readDeclaration (E : External) (P : ShaderEnv) (d : Declaration) (st : PassState) :
    Except DecodeError PassState :=
  match d with
  | .DCL_CONSTANT_BUFFER op0 Size Space => dclConstantBuffer op0 Size Space st
  | .DCL_SAMPLER op0 Space => dclSampler op0 Space st
  | .DCL_RESOURCE op0 Space Dimension ReturnType0 =>
    .ok (st.setSrv op0.m_Index0
      { range := viewRange P op0 Space,
        resource_type := E.to_shader_resource_type Dimension,
        scaler_type := E.to_shader_scaler_type ReturnType0,
        strucure_stride := UINT_MAX, read := false, sampled := false, compared := false })
  | .DCL_RESOURCE_RAW op0 Space =>
    .ok (st.setSrv op0.m_Index0
      { range := viewRange P op0 Space, resource_type := 0,
        scaler_type := E.ScalerDataType_Uint,
        strucure_stride := 0, read := false, sampled := false, compared := false })
  | .DCL_RESOURCE_STRUCTURED op0 Space ByteStride =>
    .ok (st.setSrv op0.m_Index0
      { range := viewRange P op0 Space, resource_type := 0,
        scaler_type := E.ScalerDataType_Uint,
        strucure_stride := ByteStride, read := false, sampled := false, compared := false })
  | .DCL_UNORDERED_ACCESS_VIEW_TYPED op0 Space Flags Dimension ReturnType0 =>
    .ok (st.setUav op0.m_Index0
      (makeUav E (viewRange P op0 Space) (E.to_shader_resource_type Dimension)
        (E.to_shader_scaler_type ReturnType0) UINT_MAX Flags))
  | .DCL_UNORDERED_ACCESS_VIEW_RAW op0 Space Flags =>
    .ok (st.setUav op0.m_Index0
      (makeUav E (viewRange P op0 Space) 0 E.ScalerDataType_Uint 0 Flags))
  | .DCL_UNORDERED_ACCESS_VIEW_STRUCTURED op0 Space Flags ByteStride =>
    .ok (st.setUav op0.m_Index0
      (makeUav E (viewRange P op0 Space) 0 E.ScalerDataType_Uint ByteStride Flags))
  | .DCL_TEMPS NumTemps =>
    .ok { st with shader_info := { st.shader_info with tempRegisterCount := NumTemps } }
  | .DCL_INDEXABLE_TEMP IndexableTempNumber NumRegisters Mask =>
    .ok { st with shader_info := { st.shader_info with
            indexableTempRegisterCounts :=
              Map.assign st.shader_info.indexableTempRegisterCounts IndexableTempNumber
                (NumRegisters, Mask >>> 4) } }
  | .DCL_THREAD_GROUP x y z => .ok { st with threadgroup_size := (x, y, z) }
  | .DCL_THREAD_GROUP_SHARED_MEMORY_RAW op0 ByteCount =>
    dclThreadGroupSharedMemory op0 true ByteCount 0 st
  | .DCL_THREAD_GROUP_SHARED_MEMORY_STRUCTURED op0 StructByteStride StructCount =>
    dclThreadGroupSharedMemory op0 false StructByteStride StructCount st
  | .DCL_GLOBAL_FLAGS => .ok st
  | .DCL_INPUT_SIV => .error .assertionFailed
  | .DCL_INPUT_SGV op0 Name => dclInputSGV E op0 Name st
  | .DCL_INPUT op0 => dclInput E P op0 st
  | .DCL_INPUT_PS_SIV op0 Name InterpolationMode =>
    dclInputPSSIV E op0 Name InterpolationMode st
  | .DCL_INPUT_PS_SGV op0 Name InterpolationMode =>
    dclInputPSSGV E op0 Name InterpolationMode st
  | .DCL_INPUT_PS op0 InterpolationMode => dclInputPS E P op0 InterpolationMode st
  | .DCL_OUTPUT_SGV => .error .assertionFailed
  | .DCL_OUTPUT_SIV op0 Name => dclOutputSIV E op0 Name st
  | .DCL_OUTPUT op0 => dclOutput E P op0 st
  | .CUSTOMDATA DataType DataSizeInBytes pData => customData DataType DataSizeInBytes pData st
  | .ignored _ => .ok st

/-- The `default` case of the opcode switch:
`ctx->instructions.push_back(readInstruction(Inst, *shader_info))`. -/
def readOther (E : External) (inst : Nat) (ctx : Option Nat) (st : PassState) :
    Except DecodeError PassState :=
  let r := E.readInstruction inst st.shader_info
  PassState.pushInstruction { st with shader_info := r.2 } ctx r.1

/-! ## The walk -/

/-- The result of a call of `readControlFlow`: the block it returns, the
tokens left in the stream, and the state. -/
abbrev WalkResult := Except DecodeError (Option Nat × List CInstruction × PassState)

/-- The recursive lambda `readControlFlow` of `SM50Initialize`.  Arguments after
the fuel: the tokens not yet parsed, the state, then the parameters of the
lambda `ctx`, `block_after_endif`, `continue_point`, `break_point`,
`return_point` and `switch_context`.  One unit of fuel is spent per token; a
case that ends with `break` goes round the `while` loop, here a call with the
same parameters. -/
def readControlFlow (E : External) (P : ShaderEnv) :
    Nat → List CInstruction → PassState → Option Nat → Option Nat → Option Nat →
    Option Nat → Option Nat → Option Nat → WalkResult
  | 0, _, _, _, _, _, _, _, _ => .error .outOfFuel
  | _ + 1, [], _, _, _, _, _, _, _ => .error .unexpectedEndOfShader
  | fuel + 1, Inst :: code, st, ctx, block_after_endif, continue_point, break_point,
      return_point, switch_context =>
    match Inst with
    | .IF inst => do
      let (true_, st) := st.newBlock .if_true
      let (alternative_, st) := st.newBlock .if_alternative
      let st ← st.setTarget ctx (.conditional (E.readCondition inst) true_ alternative_)
      let (after_endif, code, st) ←
        readControlFlow E P fuel code st true_ alternative_ continue_point break_point
          return_point none
      readControlFlow E P fuel code st after_endif block_after_endif continue_point
        break_point return_point switch_context
    | .ELSE => do
      DXASSERT_DXBC block_after_endif.isSome
      let (real_exit, st) := st.newBlock .endif
      let st ← st.setTarget ctx (.unconditional real_exit)
      readControlFlow E P fuel code st block_after_endif real_exit continue_point
        break_point return_point switch_context
    | .ENDIF => do
      DXASSERT_DXBC block_after_endif.isSome
      let st ← st.setTarget ctx (.unconditional block_after_endif)
      pure (block_after_endif, code, st)
    | .LOOP => do
      let (loop_entrance, st) := st.newBlock .loop_entrance
      let (after_endloop, st) := st.newBlock .endloop
      let st ← st.setTarget ctx (.unconditional loop_entrance)
      let (r, code, st) ←
        readControlFlow E P fuel code st loop_entrance none loop_entrance after_endloop
          return_point none
      DXASSERT_DXBC (r == after_endloop)
      readControlFlow E P fuel code st after_endloop block_after_endif continue_point
        break_point return_point switch_context
    | .BREAK => do
      let st ← st.setTarget ctx (.unconditional break_point)
      let (after_break, st) := st.newBlock .after_break
      readControlFlow E P fuel code st after_break block_after_endif continue_point
        break_point return_point switch_context
    | .BREAKC inst => do
      let (after_break, st) := st.newBlock .after_breakc
      let st ← st.setTarget ctx (.conditional (E.readCondition inst) break_point after_break)
      readControlFlow E P fuel code st after_break block_after_endif continue_point
        break_point return_point switch_context
    | .CONTINUE => do
      let st ← st.setTarget ctx (.unconditional continue_point)
      let (after_continue, st) := st.newBlock .after_continue
      readControlFlow E P fuel code st after_continue block_after_endif continue_point
        break_point return_point switch_context
    | .CONTINUEC inst => do
      let (after_continue, st) := st.newBlock .after_continuec
      let st ←
        st.setTarget ctx (.conditional (E.readCondition inst) continue_point after_continue)
      readControlFlow E P fuel code st after_continue block_after_endif continue_point
        break_point return_point switch_context
    | .ENDLOOP => do
      let st ← st.setTarget ctx (.unconditional continue_point)
      pure (break_point, code, st)
    | .SWITCH => do
      let (after_endswitch, st) := st.newBlock .endswitch
      let (local_switch_context, st) := st.newSwitch
      let (empty_body, st) := st.newBlock .switch_empty
      let (r, code, st) ←
        readControlFlow E P fuel code st empty_body none continue_point after_endswitch
          return_point local_switch_context
      DXASSERT_DXBC (r == after_endswitch)
      let t ← st.switchTarget local_switch_context
      let st ← st.setTarget ctx t
      readControlFlow E P fuel code st after_endswitch block_after_endif continue_point
        break_point return_point switch_context
    | .CASE O => do
      let (case_body, st) := st.newBlock .switch_case
      let st ← st.setTarget ctx (.unconditional case_body)
      DXASSERT_DXBC (O.m_Type == .IMMEDIATE32 && O.m_NumComponents == .COMPONENT_1)
      let case_value := O.m_Value0
      let st ← st.insertCase switch_context case_value case_body
      readControlFlow E P fuel code st case_body block_after_endif continue_point
        break_point return_point switch_context
    | .DEFAULT => do
      let st ← st.setTarget ctx (.unconditional break_point)
      let (case_body, st) := st.newBlock .switch_default
      let st ← st.setDefault switch_context case_body
      readControlFlow E P fuel code st case_body block_after_endif continue_point
        break_point return_point switch_context
    | .ENDSWITCH => do
      let st ← st.setTarget ctx (.unconditional break_point)
      pure (break_point, code, st)
    | .RET => do
      let st ← st.setTarget ctx (.unconditional return_point)
      if break_point.isNone && block_after_endif.isNone then
        pure (return_point, code, st)
      else
        let (after_ret, st) := st.newBlock .after_ret
        readControlFlow E P fuel code st after_ret block_after_endif continue_point
          break_point return_point switch_context
    | .RETC inst => do
      let (after_retc, st) := st.newBlock .after_retc
      let st ← st.setTarget ctx (.conditional (E.readCondition inst) return_point after_retc)
      readControlFlow E P fuel code st after_retc block_after_endif continue_point
        break_point return_point switch_context
    | .DISCARD inst => do
      let (fulfilled_, st) := st.newBlock .discard_fulfilled
      let (otherwise_, st) := st.newBlock .discard_otherwise
      let st ← st.setTarget ctx (.conditional (E.readCondition inst) fulfilled_ otherwise_)
      let st ← st.setTarget fulfilled_ (.unconditional otherwise_)
      let st ← st.pushInstruction fulfilled_ .InstPixelDiscard
      readControlFlow E P fuel code st otherwise_ block_after_endif continue_point
        break_point return_point switch_context
    | .dcl d => do
      let st ← readDeclaration E P d st
      readControlFlow E P fuel code st ctx block_after_endif continue_point break_point
        return_point switch_context
    | .other inst => do
      let st ← readOther E inst ctx st
      readControlFlow E P fuel code st ctx block_after_endif continue_point break_point
        return_point switch_context

/-! ## `SM50Initialize` -/

/-- The object `SM50ShaderInternal` returned by `SM50Initialize`, together with
the block objects its `entry` pointer reaches (`blocks`) and the pointer to
the shared return block. -/
structure SM50ShaderInternal where
  shader_info : ShaderInfo
  func_signature : FunctionSignatureBuilder
  entry : Option Nat
  return_point : Option Nat
  blocks : List BasicBlock
  prelogue_ : List PrelogueEffect
  epilogue_ : List EpilogueEffect
  shader_type : ProgramType
  max_input_register : Nat
  max_output_register : Nat
  args_reflection : List MTL_SM50_SHADER_ARGUMENT
  threadgroup_size : Nat × Nat × Nat
  deriving DecidableEq, Repr

/-- The state in which `SM50Initialize` starts the walk: the blocks `entrybb`
(index 0, open) and `returnbb` (index 1, terminator `BasicBlockReturn`), and a
fresh `SM50ShaderInternal`. -/
def PassState.initial : PassState :=
  { blocks := [{ debug_name := .entrybb, instructions := [], target := .undefined },
               { debug_name := .returnbb, instructions := [], target := .ret }],
    switches := [],
    shader_info := ShaderInfo.empty,
    func_signature := { inputs := [], outputs := [] },
    prelogue_ := [], epilogue_ := [],
    max_input_register := 0, max_output_register := 0,
    threadgroup_size := (0, 0, 0) }

/-- The four loops of `SM50Initialize` that fill `args_reflection` from the
maps of `ShaderInfo`. -/
def args_reflection (shader_info : ShaderInfo) : List MTL_SM50_SHADER_ARGUMENT :=
  shader_info.cbufferMap.keys.map (fun range_id => ⟨.ConstantBuffer, range_id⟩)
  ++ shader_info.samplerMap.keys.map (fun range_id => ⟨.Sampler, range_id⟩)
  ++ shader_info.srvMap.keys.map (fun range_id => ⟨.SRV, range_id⟩)
  ++ shader_info.uavMap.keys.map (fun range_id => ⟨.UAV, range_id⟩)

/-- The function `SM50Initialize`, from the decoded shader on: make the entry
and return blocks, walk the stream, check that the walk returned the return
block, and fill `args_reflection`. -/
def SM50Initialize (E : External) (P : ShaderEnv) (code : List CInstruction) :
    Except DecodeError SM50ShaderInternal := do
  let entry : Option Nat := some 0
  let return_point : Option Nat := some 1
  let (r, _, st) ←
    readControlFlow E P (code.length + 1) code PassState.initial entry none none none
      return_point none
  DXASSERT_DXBC (r == return_point)
  pure { shader_info := st.shader_info
         func_signature := st.func_signature
         entry := entry
         return_point := return_point
         blocks := st.blocks
         prelogue_ := st.prelogue_
         epilogue_ := st.epilogue_
         shader_type := P.ShaderType
         max_input_register := st.max_input_register
         max_output_register := st.max_output_register
         args_reflection := args_reflection st.shader_info
         threadgroup_size := st.threadgroup_size }

/-- The fields of `MTL_SHADER_REFLECTION` written through `pRefl`;
`ThreadgroupSize` is written for compute shaders only. -/
structure MTL_SHADER_REFLECTION where
  ArgumentBufferBindIndex : Nat
  NumArguments : Nat
  Arguments : List MTL_SM50_SHADER_ARGUMENT
  ThreadgroupSize : Option (Nat × Nat × Nat)
  deriving DecidableEq, Repr

/-- The block `if (pRefl) { ... }` of `SM50Initialize`; `~0u` is `UINT_MAX`. -/
def SM50ShaderInternal.reflection (sm50_shader : SM50ShaderInternal) : MTL_SHADER_REFLECTION :=
  { ArgumentBufferBindIndex := if sm50_shader.args_reflection.length > 0 then 30 else UINT_MAX
    NumArguments := sm50_shader.args_reflection.length
    Arguments := sm50_shader.args_reflection
    ThreadgroupSize :=
      if sm50_shader.shader_type = .COMPUTE_SHADER then some sm50_shader.threadgroup_size
      else none }

/-! ## The binding table of `convertDXBC` -/

/-- Memory access `air::MemoryAccess`. -/
inductive MemoryAccess where
  | read | write | read_write | sample
  deriving DecidableEq, Repr

/-- One call on the `ArgumentBufferBuilder binding_table`, with the arguments
`convertDXBC` computes itself: the name (prefix and range id), the access mode
and the result of `GetArgumentIndex`. -/
inductive ArgumentBufferDefinition where
  | DefineBuffer (name : String × Nat) (access : MemoryAccess) (argument_index : Nat)
  | DefineSampler (name : String × Nat) (argument_index : Nat)
  | DefineTexture (name : String × Nat) (access : MemoryAccess) (argument_index : Nat)
  deriving DecidableEq, Repr

/-- The four loops of `convertDXBC` ("post convert") that define the entries
of the binding table, in the order of the calls. -/
def binding_table (E : External) (shader_info : ShaderInfo) : List ArgumentBufferDefinition :=
  shader_info.cbufferMap.map (fun e =>
    .DefineBuffer ("cb", e.1) .read (E.GetArgumentIndex ⟨.ConstantBuffer, e.1⟩))
  ++ shader_info.samplerMap.map (fun e =>
    .DefineSampler ("s", e.1) (E.GetArgumentIndex ⟨.Sampler, e.1⟩))
  ++ shader_info.srvMap.map (fun e =>
    .DefineTexture ("t", e.1) (if e.2.sampled then .sample else .read)
      (E.GetArgumentIndex ⟨.SRV, e.1⟩))
  ++ shader_info.uavMap.map (fun e =>
    .DefineTexture ("u", e.1)
      (if e.2.written then (if e.2.read then .read_write else .write) else .read)
      (E.GetArgumentIndex ⟨.UAV, e.1⟩))

/-- The statement `if (!binding_table.empty()) { ... }` of `convertDXBC`: the
binding table is added to the function signature as an indirect-buffer input
at location 30, and `binding_table_index` is the index `DefineInput` assigns;
otherwise `binding_table_index` stays `~0u` and the signature is unchanged. -/
def defineBindingTable (E : External) (sm50_shader : SM50ShaderInternal) :
    Nat × FunctionSignatureBuilder :=
  if binding_table E sm50_shader.shader_info ≠ [] then
    E.DefineInput sm50_shader.func_signature
      (.ArgumentBindingIndirectBuffer 30 1 "binding_table")
  else (UINT_MAX, sm50_shader.func_signature)

/-- The prelogue and epilogue of `convertDXBC`: the two `for` loops apply the
elements of `prelogue_` and `epilogue_` front to back, each appending its
effect to the chain built so far. -/
def composeEffects (sm50_shader : SM50ShaderInternal) :
    List PrelogueEffect × List EpilogueEffect :=
  (sm50_shader.prelogue_.foldl (fun prelogue p => prelogue ++ [p]) [],
   sm50_shader.epilogue_.foldl (fun epilogue e => epilogue ++ [e]) [])

/-! ## A concrete instance of the collaborators

Used to evaluate the walk on concrete streams. -/

/-- A sample `External`: conditions and instructions are kept as decoded,
`readInstruction` leaves `ShaderInfo` alone, the signature builder appends and
returns the position, the flag masks are those of the D3D11 token format. -/
def sampleExternal : External :=
  { readCondition := fun inst => inst
    readInstruction := fun inst shader_info => (.lowered inst, shader_info)
    to_shader_resource_type := fun d => d
    to_shader_scaler_type := fun t => t
    ScalerDataType_Uint := 1
    to_air_interpolation := fun _ => .flat
    DefineInput := fun b x => (b.inputs.length, { b with inputs := b.inputs ++ [x] })
    DefineOutput := fun b x => (b.outputs.length, { b with outputs := b.outputs ++ [x] })
    GLOBALLY_COHERENT_ACCESS := 65536
    UAV_HAS_ORDER_PRESERVING_COUNTER := 8388608
    RASTERIZER_ORDERED_ACCESS := 131072
    GetArgumentIndex := fun a => a.SM50BindingSlot }

/-- A sample vertex shader of model 5.0 without signature elements. -/
def sampleEnv : ShaderEnv :=
  { ShaderType := .VERTEX_SHADER, ShaderMajorVersion := 5, ShaderMinorVersion := 0,
    inputParameters := [], outputParameters := [] }

/-- An immediate operand holding `v`, as a CASE label carries it. -/
def immediate32 (v : Nat) : COperandBase :=
  { m_Type := .IMMEDIATE32, m_IndexDimension := .INDEX_0D, m_Index0 := 0, m_Index1 := 0,
    m_Index2 := 0, m_WriteMask := 0, m_NumComponents := .COMPONENT_1, m_Value0 := v }

/-- A resource operand with the given index dimension and the three indices. -/
def resourceOperand (dim : IndexDimension) (i0 i1 i2 : Nat) : COperandBase :=
  { m_Type := .other 0, m_IndexDimension := dim, m_Index0 := i0, m_Index1 := i1,
    m_Index2 := i2, m_WriteMask := 0, m_NumComponents := .COMPONENT_0, m_Value0 := 0 }

/-! ## Well-nested instruction sequences

Statements about "every well-nested LOOP ... ENDLOOP" or "every SWITCH ...
ENDSWITCH" range over token sequences in which every scope-opening opcode
is closed by its own closing opcode.  `Prog` is the grammar of such sequences,
`flatten` gives the tokens, and `run` is what `readControlFlow` does on them
(theorem `readControlFlow_flatten`). -/

/-- The opcodes that neither open nor close a scope: the walk handles the
token and goes on in the same activation context. -/
inductive Flat where
  | other (inst : Nat)
  | dcl (d : Declaration)
  | BREAK
  | BREAKC (inst : Nat)
  | CONTINUE
  | CONTINUEC (inst : Nat)
  | RET
  | RETC (inst : Nat)
  | DISCARD (inst : Nat)
  | CASE (O : COperandBase)
  | DEFAULT
  deriving DecidableEq, Repr

/-- The token of a `Flat` opcode. -/
def Flat.token : Flat → CInstruction
  | .other inst => .other inst
  | .dcl d => .dcl d
  | .BREAK => .BREAK
  | .BREAKC inst => .BREAKC inst
  | .CONTINUE => .CONTINUE
  | .CONTINUEC inst => .CONTINUEC inst
  | .RET => .RET
  | .RETC inst => .RETC inst
  | .DISCARD inst => .DISCARD inst
  | .CASE O => .CASE O
  | .DEFAULT => .DEFAULT

/-- A well-nested token sequence: empty, or a first statement followed by the
rest `k`.  A statement is a `Flat` token, `IF a ENDIF`, `IF a ELSE b ENDIF`,
`LOOP body ENDLOOP` or `SWITCH body ENDSWITCH`. -/
inductive Prog where
  | done
  | flat (t : Flat) (k : Prog)
  | ifThen (inst : Nat) (a : Prog) (k : Prog)
  | ifElse (inst : Nat) (a : Prog) (b : Prog) (k : Prog)
  | loop (body : Prog) (k : Prog)
  | switch (body : Prog) (k : Prog)
  deriving DecidableEq, Repr

/-- The tokens of a well-nested sequence. -/
def flatten : Prog → List CInstruction
  | .done => []
  | .flat t k => t.token :: flatten k
  | .ifThen inst a k => .IF inst :: (flatten a ++ .ENDIF :: flatten k)
  | .ifElse inst a b k =>
    .IF inst :: (flatten a ++ .ELSE :: (flatten b ++ .ENDIF :: flatten k))
  | .loop body k => .LOOP :: (flatten body ++ .ENDLOOP :: flatten k)
  | .switch body k => .SWITCH :: (flatten body ++ .ENDSWITCH :: flatten k)

/-- Number of statements of a sequence at its own nesting level. -/
def Prog.ntop : Prog → Nat
  | .done => 0
  | .flat _ k => k.ntop + 1
  | .ifThen _ _ k => k.ntop + 1
  | .ifElse _ _ _ k => k.ntop + 1
  | .loop _ k => k.ntop + 1
  | .switch _ k => k.ntop + 1

/-- Sequencing of two well-nested sequences. -/
def Prog.append : Prog → Prog → Prog
  | .done, q => q
  | .flat t k, q => .flat t (k.append q)
  | .ifThen inst a k, q => .ifThen inst a (k.append q)
  | .ifElse inst a b k, q => .ifElse inst a b (k.append q)
  | .loop body k, q => .loop body (k.append q)
  | .switch body k, q => .switch body (k.append q)

/-- No RET at the nesting level of the sequence itself. -/
def Prog.noTopRet : Prog → Bool
  | .done => true
  | .flat t k => t != .RET && k.noTopRet
  | .ifThen _ _ k => k.noTopRet
  | .ifElse _ _ _ k => k.noTopRet
  | .loop _ k => k.noTopRet
  | .switch _ k => k.noTopRet

/-- The values of the CASE labels at the nesting level of the sequence itself,
in stream order. -/
def Prog.topCases : Prog → List Nat
  | .done => []
  | .flat (.CASE O) k => O.m_Value0 :: k.topCases
  | .flat _ k => k.topCases
  | .ifThen _ _ k => k.topCases
  | .ifElse _ _ _ k => k.topCases
  | .loop _ k => k.topCases
  | .switch _ k => k.topCases

/-- Number of DEFAULT labels at the nesting level of the sequence itself. -/
def Prog.topDefaults : Prog → Nat
  | .done => 0
  | .flat .DEFAULT k => k.topDefaults + 1
  | .flat _ k => k.topDefaults
  | .ifThen _ _ k => k.topDefaults
  | .ifElse _ _ _ k => k.topDefaults
  | .loop _ k => k.topDefaults
  | .switch _ k => k.topDefaults

/-- What the walk does on one `Flat` token met in scope: the block it goes on
appending to, and the state.  (For RET this is the branch taken when a scope
is open.) -/
def flatStep (E : External) (P : ShaderEnv) (t : Flat) (st : PassState)
    (ctx continue_point break_point return_point switch_context : Option Nat) :
    Except DecodeError (Option Nat × PassState) :=
  match t with
  | .other inst => do
    let st ← readOther E inst ctx st
    pure (ctx, st)
  | .dcl d => do
    let st ← readDeclaration E P d st
    pure (ctx, st)
  | .BREAK => do
    let st ← st.setTarget ctx (.unconditional break_point)
    pure (st.newBlock .after_break)
  | .BREAKC inst => do
    let (after_break, st) := st.newBlock .after_breakc
    let st ← st.setTarget ctx (.conditional (E.readCondition inst) break_point after_break)
    pure (after_break, st)
  | .CONTINUE => do
    let st ← st.setTarget ctx (.unconditional continue_point)
    pure (st.newBlock .after_continue)
  | .CONTINUEC inst => do
    let (after_continue, st) := st.newBlock .after_continuec
    let st ←
      st.setTarget ctx (.conditional (E.readCondition inst) continue_point after_continue)
    pure (after_continue, st)
  | .RET => do
    let st ← st.setTarget ctx (.unconditional return_point)
    pure (st.newBlock .after_ret)
  | .RETC inst => do
    let (after_retc, st) := st.newBlock .after_retc
    let st ← st.setTarget ctx (.conditional (E.readCondition inst) return_point after_retc)
    pure (after_retc, st)
  | .DISCARD inst => do
    let (fulfilled_, st) := st.newBlock .discard_fulfilled
    let (otherwise_, st) := st.newBlock .discard_otherwise
    let st ← st.setTarget ctx (.conditional (E.readCondition inst) fulfilled_ otherwise_)
    let st ← st.setTarget fulfilled_ (.unconditional otherwise_)
    let st ← st.pushInstruction fulfilled_ .InstPixelDiscard
    pure (otherwise_, st)
  | .CASE O => do
    let (case_body, st) := st.newBlock .switch_case
    let st ← st.setTarget ctx (.unconditional case_body)
    DXASSERT_DXBC (O.m_Type == .IMMEDIATE32 && O.m_NumComponents == .COMPONENT_1)
    let st ← st.insertCase switch_context O.m_Value0 case_body
    pure (case_body, st)
  | .DEFAULT => do
    let st ← st.setTarget ctx (.unconditional break_point)
    let (case_body, st) := st.newBlock .switch_default
    let st ← st.setDefault switch_context case_body
    pure (case_body, st)

/-- What the walk does on a well-nested sequence met in scope: the block it is
appending to after the last token of the sequence, and the state then. -/
def run (E : External) (P : ShaderEnv) :
    Prog → PassState → Option Nat → Option Nat → Option Nat → Option Nat → Option Nat →
    Option Nat → Except DecodeError (Option Nat × PassState)
  | .done, st, ctx, _, _, _, _, _ => .ok (ctx, st)
  | .flat t k, st, ctx, block_after_endif, continue_point, break_point, return_point,
      switch_context => do
    let (ctx, st) ← flatStep E P t st ctx continue_point break_point return_point switch_context
    run E P k st ctx block_after_endif continue_point break_point return_point switch_context
  | .ifThen inst a k, st, ctx, block_after_endif, continue_point, break_point, return_point,
      switch_context => do
    let (true_, st) := st.newBlock .if_true
    let (alternative_, st) := st.newBlock .if_alternative
    let st ← st.setTarget ctx (.conditional (E.readCondition inst) true_ alternative_)
    let (c1, st) ← run E P a st true_ alternative_ continue_point break_point return_point none
    let st ← st.setTarget c1 (.unconditional alternative_)
    run E P k st alternative_ block_after_endif continue_point break_point return_point
      switch_context
  | .ifElse inst a b k, st, ctx, block_after_endif, continue_point, break_point, return_point,
      switch_context => do
    let (true_, st) := st.newBlock .if_true
    let (alternative_, st) := st.newBlock .if_alternative
    let st ← st.setTarget ctx (.conditional (E.readCondition inst) true_ alternative_)
    let (c1, st) ← run E P a st true_ alternative_ continue_point break_point return_point none
    let (real_exit, st) := st.newBlock .endif
    let st ← st.setTarget c1 (.unconditional real_exit)
    let (c2, st) ← run E P b st alternative_ real_exit continue_point break_point return_point none
    let st ← st.setTarget c2 (.unconditional real_exit)
    run E P k st real_exit block_after_endif continue_point break_point return_point
      switch_context
  | .loop body k, st, ctx, block_after_endif, continue_point, break_point, return_point,
      switch_context => do
    let (loop_entrance, st) := st.newBlock .loop_entrance
    let (after_endloop, st) := st.newBlock .endloop
    let st ← st.setTarget ctx (.unconditional loop_entrance)
    let (c1, st) ← run E P body st loop_entrance none loop_entrance after_endloop return_point none
    let st ← st.setTarget c1 (.unconditional loop_entrance)
    run E P k st after_endloop block_after_endif continue_point break_point return_point
      switch_context
  | .switch body k, st, ctx, block_after_endif, continue_point, break_point, return_point,
      switch_context => do
    let (after_endswitch, st) := st.newBlock .endswitch
    let (local_switch_context, st) := st.newSwitch
    let (empty_body, st) := st.newBlock .switch_empty
    let (c1, st) ←
      run E P body st empty_body none continue_point after_endswitch return_point
        local_switch_context
    let st ← st.setTarget c1 (.unconditional after_endswitch)
    let t ← st.switchTarget local_switch_context
    let st ← st.setTarget ctx t
    run E P k st after_endswitch block_after_endif continue_point break_point return_point
      switch_context

/-- The instructions `readInstruction` returns for a run of ordinary
instructions, in stream order, and the `ShaderInfo` after them. -/
def lowerAll (E : External) : List Nat → ShaderInfo → List Instruction × ShaderInfo
  | [], shader_info => ([], shader_info)
  | inst :: insts, shader_info =>
    let r := E.readInstruction inst shader_info
    let rs := lowerAll E insts r.2
    (r.1 :: rs.1, rs.2)

/-- A `Flat` token the walk accepts in scope: labels only directly inside a
SWITCH body and with an immediate scalar operand, declarations only when their
assertions hold. -/
def Flat.wf (E : External) (P : ShaderEnv) (inSwitch : Bool) : Flat → Bool
  | .CASE O => inSwitch && O.m_Type == .IMMEDIATE32 && O.m_NumComponents == .COMPONENT_1
  | .DEFAULT => inSwitch
  | .dcl d => (readDeclaration E P d PassState.initial).toBool
  | _ => true

/-- A well-nested sequence whose labels and declarations are accepted;
`inSwitch` tells whether the sequence is the body of a SWITCH. -/
def Prog.wf (E : External) (P : ShaderEnv) : Bool → Prog → Bool
  | _, .done => true
  | s, .flat t k => t.wf E P s && k.wf E P s
  | s, .ifThen _ a k => a.wf E P false && k.wf E P s
  | s, .ifElse _ a b k => a.wf E P false && b.wf E P false && k.wf E P s
  | s, .loop body k => body.wf E P false && k.wf E P s
  | s, .switch body k => body.wf E P true && k.wf E P s

/-- The state `st'` extends `st`: no object was dropped, and of the block and
switch objects of `st` only block `b` and switch `sw` may differ. -/
def Only (b : Nat) (sw : Option Nat) (st st' : PassState) : Prop :=
  st.blocks.length ≤ st'.blocks.length ∧ st.switches.length ≤ st'.switches.length ∧
  (∀ i, i < st.blocks.length → i ≠ b → st'.blocks[i]? = st.blocks[i]?) ∧
  (∀ j, j < st.switches.length → sw ≠ some j → st'.switches[j]? = st.switches[j]?)


/-- The walk got from block `b` of `st` to an existing block `b'` of a state
`st'` that extends `st`; `b'` is `b` or a block made on the way. -/
def Reach (st : PassState) (b : Nat) (sw : Option Nat)
    (r : Except DecodeError (Option Nat × PassState)) : Prop :=
  ∃ b' st', r = .ok (some b', st') ∧ b' < st'.blocks.length ∧
    (b' = b ∨ st.blocks.length ≤ b') ∧ Only b sw st st'

/-- Repeated `insert` of a list of pairs, front to back. -/
def Map.insertAll {V : Type} (m : Map V) (es : List (Nat × V)) : Map V :=
  es.foldl (fun m e => Map.insert m e.1 e.2) m


/-- What a `Flat` token does to the accumulator of the innermost SWITCH, when
the token makes its block as block number `n`. -/
def Flat.acc (t : Flat) (n : Nat) (c : BasicBlockSwitch) : BasicBlockSwitch :=
  match t with
  | .CASE O => { c with cases := Map.insert c.cases O.m_Value0 (some n) }
  | .DEFAULT => { c with case_default := some n }
  | _ => c



/-- The walk succeeded and the accumulator of switch `s`, which held `c`, now
holds `c` with one table entry inserted per value of `vals`, in order; the
default target is untouched when `nd = 0`. -/
def Accum (s : Nat) (c : BasicBlockSwitch) (vals : List Nat) (nd : Nat)
    (r : Except DecodeError (Option Nat × PassState)) : Prop :=
  ∃ (b' : Nat) (st' : PassState) (bs : List (Option Nat)) (c' : BasicBlockSwitch),
    r = .ok (some b', st') ∧ bs.length = vals.length ∧ st'.switches[s]? = some c' ∧
    c'.cases = Map.insertAll c.cases (vals.zip bs) ∧ (nd = 0 → c'.case_default = c.case_default)

/-- The body `CASE 4; 1; BREAK; CASE 2; BREAK; DEFAULT; BREAK` of a sample
SWITCH. -/
def sampleSwitchBody : Prog :=
  .flat (.CASE (immediate32 4)) (.flat (.other 1) (.flat .BREAK
    (.flat (.CASE (immediate32 2)) (.flat .BREAK (.flat .DEFAULT (.flat .BREAK .done))))))

/-- The three shader-resource-view declarations (typed, raw, structured) with
operand `op0`. -/
def Declaration.isSRV (d : Declaration) (op0 : COperandBase) : Prop :=
  (∃ Space Dimension ReturnType0, d = .DCL_RESOURCE op0 Space Dimension ReturnType0) ∨
  (∃ Space, d = .DCL_RESOURCE_RAW op0 Space) ∨
  (∃ Space ByteStride, d = .DCL_RESOURCE_STRUCTURED op0 Space ByteStride)

/-- A sample shader of model 5.1. -/
def sampleEnv51 : ShaderEnv :=
  { ShaderType := .PIXEL_SHADER, ShaderMajorVersion := 5, ShaderMinorVersion := 1,
    inputParameters := [], outputParameters := [] }



/-- Position of a resource kind in the order in which `SM50Initialize` and
`convertDXBC` go through the four maps: constant buffers, samplers,
shader-resource views, unordered-access views. -/
def SM50BindingType.rank : SM50BindingType → Nat
  | .ConstantBuffer => 0
  | .Sampler => 1
  | .SRV => 2
  | .UAV => 3

/-- The name prefix `convertDXBC` gives the binding-table entries of a kind. -/
def SM50BindingType.namePrefix : SM50BindingType → String
  | .ConstantBuffer => "cb"
  | .Sampler => "s"
  | .SRV => "t"
  | .UAV => "u"

/-- The name given to a binding-table entry. -/
def ArgumentBufferDefinition.name : ArgumentBufferDefinition → String × Nat
  | .DefineBuffer name _ _ => name
  | .DefineSampler name _ => name
  | .DefineTexture name _ _ => name

/-- The argument index given to a binding-table entry. -/
def ArgumentBufferDefinition.argument_index : ArgumentBufferDefinition → Nat
  | .DefineBuffer _ _ i => i
  | .DefineSampler _ i => i
  | .DefineTexture _ _ i => i

/-- Number of entries of the four maps of `ShaderInfo` that `SM50Initialize`
and `convertDXBC` iterate: constant buffers, samplers, shader-resource views
and unordered-access views. -/
def ShaderInfo.numBindings (shader_info : ShaderInfo) : Nat :=
  shader_info.cbufferMap.length + shader_info.samplerMap.length +
    shader_info.srvMap.length + shader_info.uavMap.length

/-- The declarations of a constant buffer, a sampler, a shader-resource view
or an unordered-access view. -/
def Declaration.isBinding : Declaration → Bool
  | .DCL_CONSTANT_BUFFER _ _ _ => true
  | .DCL_SAMPLER _ _ => true
  | .DCL_RESOURCE _ _ _ _ => true
  | .DCL_RESOURCE_RAW _ _ => true
  | .DCL_RESOURCE_STRUCTURED _ _ _ => true
  | .DCL_UNORDERED_ACCESS_VIEW_TYPED _ _ _ _ _ => true
  | .DCL_UNORDERED_ACCESS_VIEW_RAW _ _ _ => true
  | .DCL_UNORDERED_ACCESS_VIEW_STRUCTURED _ _ _ _ => true
  | _ => false

/-- A token sequence that ends while scopes are still open, or at top level
without a closing RET: a well-nested sequence `p` followed by nothing (`here`),
or by an opening `IF`, `IF a ELSE`, `LOOP` or `SWITCH` whose body is again such
a sequence. -/
inductive Unfinished where
  | here (p : Prog)
  | inIf (p : Prog) (inst : Nat) (u : Unfinished)
  | inElse (p : Prog) (inst : Nat) (a : Prog) (u : Unfinished)
  | inLoop (p : Prog) (u : Unfinished)
  | inSwitch (p : Prog) (u : Unfinished)
  deriving DecidableEq, Repr

/-- The tokens of an unfinished sequence. -/
def Unfinished.tokens : Unfinished → List CInstruction
  | .here p => flatten p
  | .inIf p inst u => flatten p ++ .IF inst :: u.tokens
  | .inElse p inst a u => flatten p ++ .IF inst :: (flatten a ++ .ELSE :: u.tokens)
  | .inLoop p u => flatten p ++ .LOOP :: u.tokens
  | .inSwitch p u => flatten p ++ .SWITCH :: u.tokens

/-- An unfinished sequence on which the walk gets to the end of the stream:
its well-nested parts are accepted, and the part at top level (`scope` false)
has no RET of its own, which would end the walk before.  `inSwitch` tells
whether the sequence starts directly inside a SWITCH body. -/
def Unfinished.wf (E : External) (P : ShaderEnv) : Bool → Bool → Unfinished → Bool
  | scope, s, .here p => p.wf E P s && (scope || p.noTopRet)
  | scope, s, .inIf p _ u => p.wf E P s && (scope || p.noTopRet) && u.wf E P true false
  | scope, s, .inElse p _ a u =>
    p.wf E P s && (scope || p.noTopRet) && a.wf E P false && u.wf E P true false
  | scope, s, .inLoop p u => p.wf E P s && (scope || p.noTopRet) && u.wf E P true false
  | scope, s, .inSwitch p u => p.wf E P s && (scope || p.noTopRet) && u.wf E P true true

/-- The state without its block and switch objects: the part of the state
that declarations and `readInstruction` work on. -/
def PassState.side (st : PassState) : PassState :=
  { st with blocks := [], switches := [] }

/-- What one token does to the part of the state outside the block graph: a
declaration has its effect, an ordinary instruction lets `readInstruction`
update `ShaderInfo`, a control-flow token does nothing. -/
def sideStep (E : External) (P : ShaderEnv) (tok : CInstruction) (st : PassState) :
    Except DecodeError PassState :=
  match tok with
  | .dcl d => readDeclaration E P d st
  | .other inst => .ok { st with shader_info := (E.readInstruction inst st.shader_info).2 }
  | _ => .ok st

/-- The tokens of a list handled one after the other, front to back, by
`sideStep`. -/
def sideFold (E : External) (P : ShaderEnv) : List CInstruction → PassState →
    Except DecodeError PassState
  | [], st => .ok st
  | tok :: toks, st => sideStep E P tok st >>= sideFold E P toks

/-- What a successful call of `readControlFlow` on `code` from state `st`
tells: the call consumed a prefix `done` of the tokens, one after the other;
outside the block graph the state is what `sideFold` makes of `done`; no block
was dropped; and the block returned is the merge target or the break target of
the call, or a block made during the call, or else the return block, and then
no scope was open and a RET was among the tokens consumed. -/
def WalkFacts (E : External) (P : ShaderEnv) (code : List CInstruction) (st : PassState)
    (bae bp rp : Option Nat) (res : WalkResult) : Prop :=
  ∀ r code1 st1, res = .ok (r, code1, st1) →
    ∃ done, code = done ++ code1 ∧ sideFold E P done st.side = .ok st1.side ∧
      st.blocks.length ≤ st1.blocks.length ∧
      (r = bae ∨ r = bp ∨ (∃ j, r = some j ∧ st.blocks.length ≤ j) ∨
        (r = rp ∧ bae = none ∧ bp = none ∧ CInstruction.RET ∈ done))

/-- The effects a declaration appends to `prelogue_` and to `epilogue_` when
it is handled in state `st`: what the lists hold afterwards beyond what they
held before. -/
def Declaration.pushed (E : External) (P : ShaderEnv) (d : Declaration) (st : PassState) :
    List PrelogueEffect × List EpilogueEffect :=
  match readDeclaration E P d st with
  | .ok st1 => (st1.prelogue_.drop st.prelogue_.length, st1.epilogue_.drop st.epilogue_.length)
  | .error _ => ([], [])

/-- The effects each token of a list appends to `prelogue_` and `epilogue_`,
token by token in stream order, the tokens being handled from state `st` on;
a token that is not a declaration appends nothing. -/
def effectLog (E : External) (P : ShaderEnv) :
    List CInstruction → PassState → List (List PrelogueEffect × List EpilogueEffect)
  | [], _ => []
  | tok :: toks, st =>
    match sideStep E P tok st with
    | .ok st1 =>
      (match tok with
       | .dcl d => d.pushed E P st
       | _ => ([], [])) :: effectLog E P toks st1
    | .error _ => []

/-- The keys of the map of `ShaderInfo` that holds the resources of a kind. -/
def ShaderInfo.keysOf (shader_info : ShaderInfo) : SM50BindingType → List Nat
  | .ConstantBuffer => shader_info.cbufferMap.keys
  | .Sampler => shader_info.samplerMap.keys
  | .SRV => shader_info.srvMap.keys
  | .UAV => shader_info.uavMap.keys

/-- The four binding maps of `ShaderInfo` are in strictly ascending key order,
as a `std::map` always is. -/
def ShaderInfo.ordered (shader_info : ShaderInfo) : Prop :=
  shader_info.cbufferMap.keys.Pairwise (fun a b => a < b) ∧
  shader_info.samplerMap.keys.Pairwise (fun a b => a < b) ∧
  shader_info.srvMap.keys.Pairwise (fun a b => a < b) ∧
  shader_info.uavMap.keys.Pairwise (fun a b => a < b)

/-- The collaborator `readInstruction` hands back maps that are in key order
whenever it was given such maps. -/
def External.keepsOrder (E : External) : Prop :=
  ∀ inst shader_info, shader_info.ordered → (E.readInstruction inst shader_info).2.ordered

/-- The resource kind and range id a binding declaration declares: the map its
case assigns to and the key `RangeID` it assigns at. -/
def Declaration.binding : Declaration → Option (SM50BindingType × Nat)
  | .DCL_CONSTANT_BUFFER op0 _ _ => some (.ConstantBuffer, op0.m_Index0)
  | .DCL_SAMPLER op0 _ => some (.Sampler, op0.m_Index0)
  | .DCL_RESOURCE op0 _ _ _ => some (.SRV, op0.m_Index0)
  | .DCL_RESOURCE_RAW op0 _ => some (.SRV, op0.m_Index0)
  | .DCL_RESOURCE_STRUCTURED op0 _ _ => some (.SRV, op0.m_Index0)
  | .DCL_UNORDERED_ACCESS_VIEW_TYPED op0 _ _ _ _ => some (.UAV, op0.m_Index0)
  | .DCL_UNORDERED_ACCESS_VIEW_RAW op0 _ _ => some (.UAV, op0.m_Index0)
  | .DCL_UNORDERED_ACCESS_VIEW_STRUCTURED op0 _ _ _ => some (.UAV, op0.m_Index0)
  | _ => none

/-! ## The CPU heap of a command chunk (`dxmt_command_queue.hpp`) -/

/-- Reduction of a natural number to a 64-bit `std::size_t` / `std::uintptr_t`. -/
def u64 (n : Nat) : Nat := n % 18446744073709551616

/-- The function `align_forward_adjustment(ptr, alignment)`:
`aligned = (iptr - 1u + alignment) & -alignment; return aligned - iptr`, in
64-bit unsigned arithmetic. -/
def align_forward_adjustment (ptr alignment : Nat) : Nat :=
  let iptr := u64 ptr
  let aligned :=
    Nat.land (u64 (u64 (iptr + 18446744073709551616 - 1) + alignment))
      (u64 (18446744073709551616 - u64 alignment))
  u64 (aligned + 18446744073709551616 - iptr)

/-- The function `ptr_add(p, amount)`. -/
def ptr_add (p amount : Nat) : Nat := u64 (u64 p + amount)

/-- The fields of `CommandChunk` that `allocateCPUHeap` uses: the base address
of the CPU heap and the 32-bit offset of its free part. -/
structure CommandChunk where
  cpu_argument_heap : Nat
  cpu_arugment_heap_offset : Nat
  deriving DecidableEq, Repr

/-- The member `CommandChunk::allocateCPUHeap(size, alignment)`: the address
returned and the chunk afterwards. -/
def CommandChunk.allocateCPUHeap (chunk : CommandChunk) (size alignment : Nat) :
    Nat × CommandChunk :=
  let adjustment := align_forward_adjustment chunk.cpu_argument_heap alignment
  let aligned := u64 (chunk.cpu_arugment_heap_offset + adjustment)
  (ptr_add chunk.cpu_argument_heap aligned,
   { chunk with cpu_arugment_heap_offset := u32 (u64 (aligned + size)) })

/-- A successful call on `code` leaves strictly fewer tokens than it was
given: it has consumed at least one. -/
def Consumes (code : List CInstruction) (res : WalkResult) : Prop :=
  ∀ r code1 st1, res = .ok (r, code1, st1) → code1.length < code.length

/-- The result `res` of a call is not the exhaustion of the fuel, and the call
with another amount of fuel has the same result `res2`. -/
def Settled (res res2 : WalkResult) : Prop :=
  res ≠ .error .outOfFuel ∧ res2 = res

/-- The token list `code2` is the list `code` with the declaration `d`
inserted at one position. -/
inductive Inserted (d : Declaration) : List CInstruction → List CInstruction → Prop where
  | here (code : List CInstruction) : Inserted d code (.dcl d :: code)
  | later (tok : CInstruction) (code code2 : List CInstruction) :
    Inserted d code code2 → Inserted d (tok :: code) (tok :: code2)

/-- Two state-producing steps agree on the graph: both fail with the same
error, or both succeed with the same block and switch objects. -/
def PrimRel (x x2 : Except DecodeError PassState) : Prop :=
  match x, x2 with
  | .ok s, .ok s2 => s2.blocks = s.blocks ∧ s2.switches = s.switches
  | .error e, .error e2 => e2 = e
  | _, _ => False

/-- Two results of `flatStep` agree on the graph and on the block the walk
goes on with. -/
def StepRel (y y2 : Except DecodeError (Option Nat × PassState)) : Prop :=
  match y, y2 with
  | .ok (c, s), .ok (c2, s2) => c2 = c ∧ s2.blocks = s.blocks ∧ s2.switches = s.switches
  | .error e, .error e2 => e2 = e
  | _, _ => False

/-- Two calls of `readControlFlow` agree on the graph: both fail with the same
error, or both return the same block with the same block and switch objects,
and the tokens the second leaves are those the first leaves, with the
declaration `d` still to come in them or not. -/
def SameGraph (d : Declaration) (res res2 : WalkResult) : Prop :=
  match res, res2 with
  | .ok (r, code, st), .ok (r2, code2, st2) =>
    r2 = r ∧ st2.blocks = st.blocks ∧ st2.switches = st.switches ∧
      (code2 = code ∨ Inserted d code code2)
  | .error e, .error e2 => e2 = e
  | _, _ => False

/-- The instruction `readInstruction` returns does not depend on the
`ShaderInfo` it is given. -/
def External.lowersAlike (E : External) : Prop :=
  ∀ inst shader_info shader_info2,
    (E.readInstruction inst shader_info).1 = (E.readInstruction inst shader_info2).1

/-- For token lists of at most `n` tokens: inserting the declaration `d`, or
not, and starting from another state with the same block and switch objects,
with any sufficient fuel, gives a call that agrees on the graph. -/
def InsertionHolds (E : External) (P : ShaderEnv) (d : Declaration) (n : Nat) : Prop :=
  ∀ (code code2 : List CInstruction) (st st2 : PassState) (ctx bae cp bp rp sw : Option Nat)
    (f f2 : Nat),
    code.length ≤ n → (code2 = code ∨ Inserted d code code2) →
    st2.blocks = st.blocks → st2.switches = st.switches →
    code.length < f → code2.length < f2 →
    SameGraph d (readControlFlow E P f code st ctx bae cp bp rp sw)
      (readControlFlow E P f2 code2 st2 ctx bae cp bp rp sw)

/-! # Theorems -/

/-! ## Lists and maps -/

theorem updateAt_length {α : Type} (f : α → α) (l : List α) (i : Nat) :
    (updateAt f l i).length = l.length := by
  induction l generalizing i with
  | nil => rfl
  | cons a l ih => cases i <;> simp [updateAt, ih]

/-! ## The walk on well-nested sequences -/

section Walk
variable (E : External) (P : ShaderEnv)

theorem ok_bind {α β : Type} (a : α) (f : α → Except DecodeError β) :
    (Except.ok a >>= f) = f a := rfl

theorem error_bind {α β : Type} (e : DecodeError) (f : α → Except DecodeError β) :
    (Except.error e >>= f) = Except.error e := rfl

theorem readControlFlow_flat (t : Flat) (fuel : Nat) (code : List CInstruction)
    (st : PassState) (ctx bae cp bp rp sw : Option Nat)
    (h : t = .RET → (bp.isSome ∨ bae.isSome)) :
    readControlFlow E P (fuel + 1) (t.token :: code) st ctx bae cp bp rp sw =
      (flatStep E P t st ctx cp bp rp sw >>= fun r =>
        readControlFlow E P fuel code r.2 r.1 bae cp bp rp sw) := by
  cases t <;> simp only [Flat.token, readControlFlow, flatStep, bind_assoc, pure_bind]
  case RET =>
    have h' := h rfl
    have : (bp.isNone && bae.isNone) = false := by
      cases bp <;> cases bae <;> simp_all
    simp [this]

theorem readControlFlow_ENDIF (fuel : Nat) (code : List CInstruction) (st : PassState)
    (ctx cp bp rp sw : Option Nat) (x : Nat) (h : 1 ≤ fuel) :
    readControlFlow E P fuel (.ENDIF :: code) st ctx (some x) cp bp rp sw =
      (st.setTarget ctx (.unconditional (some x)) >>= fun st' => pure (some x, code, st')) := by
  obtain ⟨f, rfl⟩ : ∃ f, fuel = f + 1 := ⟨fuel - 1, by omega⟩
  simp only [readControlFlow, DXASSERT_DXBC, Option.isSome_some, if_true, ok_bind]

theorem readControlFlow_ENDLOOP (fuel : Nat) (code : List CInstruction) (st : PassState)
    (ctx bae cp bp rp sw : Option Nat) (h : 1 ≤ fuel) :
    readControlFlow E P fuel (.ENDLOOP :: code) st ctx bae cp bp rp sw =
      (st.setTarget ctx (.unconditional cp) >>= fun st' => pure (bp, code, st')) := by
  obtain ⟨f, rfl⟩ : ∃ f, fuel = f + 1 := ⟨fuel - 1, by omega⟩
  simp [readControlFlow]

theorem readControlFlow_ENDSWITCH (fuel : Nat) (code : List CInstruction) (st : PassState)
    (ctx bae cp bp rp sw : Option Nat) (h : 1 ≤ fuel) :
    readControlFlow E P fuel (.ENDSWITCH :: code) st ctx bae cp bp rp sw =
      (st.setTarget ctx (.unconditional bp) >>= fun st' => pure (bp, code, st')) := by
  obtain ⟨f, rfl⟩ : ∃ f, fuel = f + 1 := ⟨fuel - 1, by omega⟩
  simp [readControlFlow]

theorem readControlFlow_ELSE (fuel : Nat) (code : List CInstruction) (st : PassState)
    (ctx cp bp rp sw : Option Nat) (x : Nat) (h : 1 ≤ fuel) :
    readControlFlow E P fuel (.ELSE :: code) st ctx (some x) cp bp rp sw =
      ((st.newBlock .endif).2.setTarget ctx (.unconditional (st.newBlock .endif).1) >>=
        fun st' =>
          readControlFlow E P (fuel - 1) code st' (some x) (st.newBlock .endif).1 cp bp rp sw) := by
  obtain ⟨f, rfl⟩ : ∃ f, fuel = f + 1 := ⟨fuel - 1, by omega⟩
  simp only [readControlFlow, DXASSERT_DXBC, Option.isSome_some, if_true, ok_bind,
    Nat.add_sub_cancel]

theorem ntop_le_length (p : Prog) : p.ntop ≤ (flatten p).length := by
  induction p <;> simp [Prog.ntop, flatten] <;> omega

theorem readControlFlow_flatten (p : Prog) :
    ∀ (fuel : Nat) (rest : List CInstruction) (st : PassState)
      (ctx bae cp bp rp sw : Option Nat),
      (flatten p).length ≤ fuel →
      (bp.isSome ∨ bae.isSome ∨ p.noTopRet = true) →
      readControlFlow E P fuel (flatten p ++ rest) st ctx bae cp bp rp sw =
        (run E P p st ctx bae cp bp rp sw >>= fun r =>
          readControlFlow E P (fuel - p.ntop) rest r.2 r.1 bae cp bp rp sw) := by
  induction p with
  | done => intro fuel rest st ctx bae cp bp rp sw _ _; simp [flatten, run, Prog.ntop]; rfl
  | flat t k ih =>
    intro fuel rest st ctx bae cp bp rp sw hf hs
    obtain ⟨f, rfl⟩ : ∃ f, fuel = f + 1 := ⟨fuel - 1, by simp [flatten] at hf; omega⟩
    simp only [flatten, List.cons_append, run, Prog.ntop, bind_assoc]
    rw [readControlFlow_flat]
    · congr 1
      funext r
      rw [ih]
      · simp
      · simp [flatten] at hf; omega
      · rcases hs with h | h | h
        · exact Or.inl h
        · exact Or.inr (Or.inl h)
        · simp [Prog.noTopRet] at h; exact Or.inr (Or.inr h.2)
    · intro ht
      rcases hs with h | h | h
      · exact Or.inl h
      · exact Or.inr h
      · simp [Prog.noTopRet, ht] at h
  | ifThen inst a k iha ihk =>
    intro fuel rest st ctx bae cp bp rp sw hf hs
    simp only [flatten, List.length_cons, List.length_append] at hf
    obtain ⟨f, rfl⟩ : ∃ f, fuel = f + 1 := ⟨fuel - 1, by omega⟩
    have hna := ntop_le_length a
    simp only [flatten, List.cons_append, List.append_assoc, run, Prog.ntop, bind_assoc]
    simp only [readControlFlow, PassState.newBlock]
    congr 1
    funext st1
    rw [iha f _ _ _ _ _ _ _ _ (by omega) (Or.inr (Or.inl (by simp)))]
    simp only [bind_assoc]
    congr 1
    funext r
    rw [readControlFlow_ENDIF _ _ _ _ _ _ _ _ _ _ _ (by omega)]
    simp only [bind_assoc, pure_bind]
    congr 1
    funext st2
    rw [ihk _ _ _ _ _ _ _ _ _ (by omega) (by simpa [Prog.noTopRet] using hs)]
    simp
  | ifElse inst a b k iha ihb ihk =>
    intro fuel rest st ctx bae cp bp rp sw hf hs
    simp only [flatten, List.length_cons, List.length_append] at hf
    obtain ⟨f, rfl⟩ : ∃ f, fuel = f + 1 := ⟨fuel - 1, by omega⟩
    have hna := ntop_le_length a
    have hnb := ntop_le_length b
    simp only [flatten, List.cons_append, List.append_assoc, run, Prog.ntop, bind_assoc]
    simp only [readControlFlow, PassState.newBlock]
    congr 1
    funext st1
    rw [iha f _ _ _ _ _ _ _ _ (by omega) (Or.inr (Or.inl (by simp)))]
    simp only [bind_assoc]
    congr 1
    funext r
    rw [readControlFlow_ELSE _ _ _ _ _ _ _ _ _ _ _ (by omega)]
    simp only [bind_assoc, pure_bind, PassState.newBlock]
    congr 1
    funext st2
    rw [ihb _ _ _ _ _ _ _ _ _ (by omega) (Or.inr (Or.inl (by simp)))]
    simp only [bind_assoc]
    congr 1
    funext r2
    rw [readControlFlow_ENDIF _ _ _ _ _ _ _ _ _ _ _ (by omega)]
    simp only [bind_assoc, pure_bind]
    congr 1
    funext st3
    rw [ihk _ _ _ _ _ _ _ _ _ (by omega) (by simpa [Prog.noTopRet] using hs)]
    simp
  | loop body k ihb ihk =>
    intro fuel rest st ctx bae cp bp rp sw hf hs
    simp only [flatten, List.length_cons, List.length_append] at hf
    obtain ⟨f, rfl⟩ : ∃ f, fuel = f + 1 := ⟨fuel - 1, by omega⟩
    have hnb := ntop_le_length body
    simp only [flatten, List.cons_append, List.append_assoc, run, Prog.ntop, bind_assoc]
    simp only [readControlFlow, PassState.newBlock]
    congr 1
    funext st1
    rw [ihb f _ _ _ _ _ _ _ _ (by omega) (Or.inl (by simp))]
    simp only [bind_assoc]
    congr 1
    funext r
    rw [readControlFlow_ENDLOOP _ _ _ _ _ _ _ _ _ _ _ (by omega)]
    simp only [bind_assoc, pure_bind, beq_self_eq_true, DXASSERT_DXBC, if_true, ok_bind]
    congr 1
    funext st2
    rw [ihk _ _ _ _ _ _ _ _ _ (by omega) (by simpa [Prog.noTopRet] using hs)]
    simp
  | switch body k ihb ihk =>
    intro fuel rest st ctx bae cp bp rp sw hf hs
    simp only [flatten, List.length_cons, List.length_append] at hf
    obtain ⟨f, rfl⟩ : ∃ f, fuel = f + 1 := ⟨fuel - 1, by omega⟩
    have hnb := ntop_le_length body
    simp only [flatten, List.cons_append, List.append_assoc, run, Prog.ntop, bind_assoc]
    simp only [readControlFlow, PassState.newBlock, PassState.newSwitch]
    rw [ihb f _ _ _ _ _ _ _ _ (by omega) (Or.inl (by simp))]
    simp only [bind_assoc]
    congr 1
    funext r
    rw [readControlFlow_ENDSWITCH _ _ _ _ _ _ _ _ _ _ _ (by omega)]
    simp only [bind_assoc, pure_bind, beq_self_eq_true, DXASSERT_DXBC, if_true, ok_bind]
    congr 1
    funext st2
    congr 1
    funext t
    congr 1
    funext st3
    rw [ihk _ _ _ _ _ _ _ _ _ (by omega) (by simpa [Prog.noTopRet] using hs)]
    simp

theorem updateAt_getElem?_ne {α : Type} (f : α → α) (l : List α) (i j : Nat) (h : i ≠ j) :
    (updateAt f l j)[i]? = l[i]? := by
  induction l generalizing i j with
  | nil => rfl
  | cons a l ih =>
    cases j with
    | zero => cases i with
      | zero => exact absurd rfl h
      | succ i => simp [updateAt]
    | succ j => cases i with
      | zero => simp [updateAt]
      | succ i => simp [updateAt]; exact ih i j (by omega)

theorem updateAt_getElem?_eq {α : Type} (f : α → α) (l : List α) (i : Nat) :
    (updateAt f l i)[i]? = l[i]?.map f := by
  induction l generalizing i with
  | nil => rfl
  | cons a l ih =>
    cases i with
    | zero => simp [updateAt]
    | succ i => simp [updateAt]; exact ih i

theorem Only.refl (b : Nat) (sw : Option Nat) (st : PassState) : Only b sw st st :=
  ⟨Nat.le_refl _, Nat.le_refl _, fun _ _ _ => rfl, fun _ _ _ => rfl⟩

theorem Only.trans {b c : Nat} {sw sw' : Option Nat} {st st1 st2 : PassState}
    (h1 : Only b sw st st1) (h2 : Only c sw' st1 st2)
    (hc : c = b ∨ st.blocks.length ≤ c)
    (hs : sw' = sw ∨ ∀ j, sw' = some j → st.switches.length ≤ j) :
    Only b sw st st2 := by
  obtain ⟨a1, a2, a3, a4⟩ := h1
  obtain ⟨b1, b2, b3, b4⟩ := h2
  refine ⟨by omega, by omega, ?_, ?_⟩
  · intro i hi hib
    rw [b3 i (by omega) (by rcases hc with rfl | hc <;> omega), a3 i hi hib]
  · intro j hj hjs
    rw [b4 j (by omega) ?_, a4 j hj hjs]
    rcases hs with rfl | hs
    · exact hjs
    · intro h
      have := hs j h
      omega

theorem Only.newBlock (b : Nat) (sw : Option Nat) (st : PassState) (n : BlockName) :
    Only b sw st (st.newBlock n).2 := by
  refine ⟨by simp [PassState.newBlock], by simp [PassState.newBlock], ?_, fun _ _ _ => rfl⟩
  intro i hi _
  simp [PassState.newBlock, List.getElem?_append_left hi]

theorem Only.newSwitch (b : Nat) (sw : Option Nat) (st : PassState) :
    Only b sw st st.newSwitch.2 := by
  refine ⟨by simp [PassState.newSwitch], by simp [PassState.newSwitch], fun _ _ _ => rfl, ?_⟩
  intro i hi _
  simp [PassState.newSwitch, List.getElem?_append_left hi]

theorem Only.setTarget (c : Nat) (sw : Option Nat) (st : PassState) (t : BasicBlockTarget) :
    ∃ st', st.setTarget (some c) t = .ok st' ∧ Only c sw st st' ∧
      st'.blocks.length = st.blocks.length ∧
      st'.blocks[c]? = st.blocks[c]?.map (BasicBlock.setTarget t) ∧
      st'.switches = st.switches ∧ st'.shader_info = st.shader_info := by
  refine ⟨_, rfl, ⟨by simp [updateAt_length], Nat.le_refl _, ?_, fun _ _ _ => rfl⟩,
    by simp [updateAt_length], by simp [updateAt_getElem?_eq], rfl, rfl⟩
  intro i _ hic
  exact updateAt_getElem?_ne _ _ _ _ hic

theorem readDeclaration_frame (d : Declaration) (st st' : PassState)
    (h : readDeclaration E P d st = .ok st') :
    st'.blocks = st.blocks ∧ st'.switches = st.switches := by
  cases d <;>
    simp only [readDeclaration, dclConstantBuffer, dclSampler, PassState.setSrv,
      PassState.setUav, dclThreadGroupSharedMemory, dclInputSGV, dclInput, dclInputThread,
      dclInputPSSIV, dclInputPSSGV, dclInputPS, dclOutputSIV, dclOutput, customData,
      PassState.DefineInput, PassState.DefineOutput, PassState.pushPrelogue,
      PassState.pushEpilogue, findInputElement, findOutputElement] at h <;>
    (repeat' split at h) <;>
    first
      | (cases h; exact ⟨rfl, rfl⟩)
      | (simp at h)

theorem readDeclaration_toBool (d : Declaration) (st st0 : PassState) :
    (readDeclaration E P d st).toBool = (readDeclaration E P d st0).toBool := by
  cases d <;>
    simp only [readDeclaration, dclConstantBuffer, dclSampler, PassState.setSrv,
      PassState.setUav, dclThreadGroupSharedMemory, dclInputSGV, dclInput, dclInputThread,
      dclInputPSSIV, dclInputPSSGV, dclInputPS, dclOutputSIV, dclOutput, customData,
      PassState.DefineInput, PassState.DefineOutput, PassState.pushPrelogue,
      PassState.pushEpilogue, findInputElement, findOutputElement] <;>
    (repeat' split) <;> simp_all [Except.toBool]

theorem flatStep_ok (t : Flat) (st : PassState) (b : Nat) (cp bp rp sw : Option Nat)
    (hb : b < st.blocks.length) (hsw : ∀ s, sw = some s → s < st.switches.length)
    (hwf : t.wf E P sw.isSome = true) :
    Reach st b sw (flatStep E P t st (some b) cp bp rp sw) := by
  cases t
  case dcl d =>
    simp only [Flat.wf] at hwf
    rw [readDeclaration_toBool E P d _ st] at hwf
    simp only [flatStep]
    cases hd : readDeclaration E P d st with
    | error e => simp [hd, Except.toBool] at hwf
    | ok st' =>
      obtain ⟨h1, h2⟩ := readDeclaration_frame E P d st st' hd
      refine ⟨b, st', rfl, by rw [h1]; exact hb, Or.inl rfl, ?_⟩
      simp [Only, h1, h2]
  case other inst =>
    refine ⟨b, _, rfl, by simpa [updateAt_length] using hb, Or.inl rfl, ?_⟩
    refine ⟨by simp [updateAt_length], Nat.le_refl _, ?_, fun _ _ _ => rfl⟩
    intro i _ hib
    exact updateAt_getElem?_ne _ _ _ _ hib
  case CASE O =>
    cases sw with
    | none => simp [Flat.wf] at hwf
    | some s =>
      simp only [Flat.wf, Option.isSome_some, Bool.true_and, Bool.and_eq_true] at hwf
      simp only [Reach, flatStep, PassState.setTarget, PassState.newBlock,
        PassState.insertCase, DXASSERT_DXBC, hwf.1, hwf.2, Bool.and_self, if_true, ok_bind,
        bind_pure_comp, pure_bind, Functor.map, Except.map]
      refine ⟨_, _, rfl, ?_, Or.inr (by simp [updateAt_length]), ?_, ?_, ?_, ?_⟩
      · simp [updateAt_length]
      · simp [updateAt_length]
      · simp [updateAt_length]
      · intro i hi hib
        simp only [updateAt_length, List.length_append] 
        rw [updateAt_getElem?_ne _ _ _ _ hib, List.getElem?_append_left hi]
      · intro j hj hjs
        exact updateAt_getElem?_ne _ _ _ _ (fun h => hjs (by rw [h]))
  case DEFAULT =>
    cases sw with
    | none => simp [Flat.wf] at hwf
    | some s =>
      simp only [Reach, flatStep, PassState.setTarget, PassState.newBlock,
        PassState.setDefault, ok_bind, bind_pure_comp, pure_bind, Functor.map, Except.map]
      refine ⟨_, _, rfl, ?_, Or.inr (by simp [updateAt_length]), ?_, ?_, ?_, ?_⟩
      · simp [updateAt_length]
      · simp [updateAt_length]
      · simp [updateAt_length]
      · intro i hi hib
        simp only [updateAt_length, List.length_append]
        rw [List.getElem?_append_left (by simpa [updateAt_length] using hi),
          updateAt_getElem?_ne _ _ _ _ hib]
      · intro j hj hjs
        exact updateAt_getElem?_ne _ _ _ _ (fun h => hjs (by rw [h]))
  all_goals
    simp only [Reach, flatStep, PassState.setTarget, PassState.newBlock,
      PassState.pushInstruction, ok_bind, bind_pure_comp, pure_bind, Functor.map, Except.map]
    refine ⟨_, _, rfl, ?_, Or.inr (by simp [updateAt_length]), ?_, ?_, ?_, ?_⟩
    · simp [updateAt_length]
    · simp [updateAt_length]
    · simp [updateAt_length]
    · intro i hi hib
      simp only [updateAt_length, List.length_append]
      first
        | rw [List.getElem?_append_left (by simpa [updateAt_length] using hi),
            updateAt_getElem?_ne _ _ _ _ hib]
        | rw [updateAt_getElem?_ne _ _ _ _ hib, List.getElem?_append_left hi]
        | (rw [updateAt_getElem?_ne _ _ _ _ (by omega), updateAt_getElem?_ne _ _ _ _ (by omega),
            updateAt_getElem?_ne _ _ _ _ hib, List.getElem?_append_left (by simp; omega),
            List.getElem?_append_left hi])
    · intro j hj hjs
      rfl

theorem Only.updateTarget (c : Nat) (sw : Option Nat) (st : PassState) (t : BasicBlockTarget) :
    Only c sw st { st with blocks := updateAt (BasicBlock.setTarget t) st.blocks c } := by
  refine ⟨by simp [updateAt_length], Nat.le_refl _, ?_, fun _ _ _ => rfl⟩
  intro i _ hic
  exact updateAt_getElem?_ne _ _ _ _ hic

theorem newBlock_fst (st : PassState) (n : BlockName) :
    (st.newBlock n).1 = some st.blocks.length := rfl

theorem newBlock_length (st : PassState) (n : BlockName) :
    (st.newBlock n).2.blocks.length = st.blocks.length + 1 := by
  simp [PassState.newBlock]

theorem newBlock_switches (st : PassState) (n : BlockName) :
    (st.newBlock n).2.switches = st.switches := rfl

theorem newSwitch_fst (st : PassState) : st.newSwitch.1 = some st.switches.length := rfl

theorem newSwitch_length (st : PassState) :
    st.newSwitch.2.switches.length = st.switches.length + 1 := by
  simp [PassState.newSwitch]

theorem newSwitch_blocks (st : PassState) : st.newSwitch.2.blocks = st.blocks := rfl

theorem Reach.bind {β : Type} {st1 : PassState} {b1 : Nat} {sw' : Option Nat}
    {r : Except DecodeError (Option Nat × PassState)}
    {f : Option Nat × PassState → Except DecodeError β} {G : Except DecodeError β → Prop}
    (h : Reach st1 b1 sw' r)
    (hk : ∀ b' st', b' < st'.blocks.length → (b' = b1 ∨ st1.blocks.length ≤ b') →
      Only b1 sw' st1 st' → G (f (some b', st'))) :
    G (r >>= f) := by
  obtain ⟨b', st', rfl, h1, h2, h3⟩ := h
  exact hk b' st' h1 h2 h3

theorem Reach.weaken {st st1 : PassState} {b b1 : Nat} {sw sw' : Option Nat}
    {r : Except DecodeError (Option Nat × PassState)}
    (ho : Only b sw st st1) (hb : b1 = b ∨ st.blocks.length ≤ b1)
    (hs : sw' = sw ∨ ∀ j, sw' = some j → st.switches.length ≤ j)
    (h : Reach st1 b1 sw' r) : Reach st b sw r := by
  obtain ⟨b', st', rfl, h1, h2, h3⟩ := h
  refine ⟨b', st', rfl, h1, ?_, ho.trans h3 hb hs⟩
  have := ho.1
  rcases h2 with rfl | h2
  · exact hb
  · exact Or.inr (by omega)

theorem switchTarget_ok (st : PassState) (s : Nat) (h : s < st.switches.length) :
    ∃ c, st.switches[s]? = some c ∧
      st.switchTarget (some s) = .ok (.switch c.cases c.case_default) := by
  refine ⟨st.switches[s], by simp [h], ?_⟩
  simp [PassState.switchTarget, List.getElem?_eq_getElem h]

theorem switchTarget_blocks (st : PassState) (bs : List BasicBlock) (sw : Option Nat) :
    PassState.switchTarget { st with blocks := bs } sw = st.switchTarget sw := rfl

theorem run_ok (p : Prog) :
    ∀ (st : PassState) (b : Nat) (bae cp bp rp sw : Option Nat),
      b < st.blocks.length → (∀ s, sw = some s → s < st.switches.length) →
      p.wf E P sw.isSome = true →
      Reach st b sw (run E P p st (some b) bae cp bp rp sw) := by
  induction p with
  | done =>
    intro st b bae cp bp rp sw hb _ _
    exact ⟨b, st, rfl, hb, Or.inl rfl, Only.refl _ _ _⟩
  | flat t k ih =>
    intro st b bae cp bp rp sw hb hsw hwf
    simp only [Prog.wf, Bool.and_eq_true] at hwf
    simp only [run]
    apply Reach.bind (flatStep_ok E P t st b cp bp rp sw hb hsw hwf.1)
    intro b1 st1 hv hf ho
    exact Reach.weaken ho hf (Or.inl rfl)
      (ih st1 b1 bae cp bp rp sw hv (fun s hs => Nat.lt_of_lt_of_le (hsw s hs) ho.2.1) hwf.2)
  | ifThen inst a k iha ihk =>
    intro st b bae cp bp rp sw hb hsw hwf
    simp only [Prog.wf, Bool.and_eq_true] at hwf
    simp only [run, PassState.setTarget, ok_bind, newBlock_fst]
    have o2 : Only b sw st _ :=
      ((Only.newBlock b sw st .if_true).trans
        (Only.newBlock b sw _ .if_alternative) (Or.inl rfl) (Or.inl rfl)).trans
        (Only.updateTarget b sw _ (.conditional (E.readCondition inst) (some st.blocks.length)
          (some (st.newBlock .if_true).2.blocks.length))) (Or.inl rfl) (Or.inl rfl)
    apply Reach.bind (iha _ _ _ _ _ _ none ?_ ?_ hwf.1)
    · intro c1 s3 hv hf ho
      have o3 := o2.trans ho (Or.inr (Nat.le_refl _)) (Or.inr (by simp))
      simp only [updateAt_length, newBlock_length] at hf hv o3 ⊢
      have o4 := o3.trans (Only.updateTarget c1 none s3
        (.unconditional (some (st.blocks.length + 1)))) (by omega) (Or.inr (by simp))
      have l3 := ho.1
      simp only [updateAt_length, newBlock_length] at l3
      refine Reach.weaken o4 (Or.inr (by omega)) (Or.inl rfl)
        (ihk _ _ _ _ _ _ _ ?_ ?_ hwf.2)
      · simp only [updateAt_length]; omega
      · intro s hs
        have := o4.2.1
        exact Nat.lt_of_lt_of_le (hsw s hs) this
    · simp only [updateAt_length, newBlock_length]; omega
    · simp
  | ifElse inst a b' k iha ihb ihk =>
    intro st b bae cp bp rp sw hb hsw hwf
    simp only [Prog.wf, Bool.and_eq_true] at hwf
    simp only [run, PassState.setTarget, ok_bind, newBlock_fst]
    have o2 : Only b sw st _ :=
      ((Only.newBlock b sw st .if_true).trans
        (Only.newBlock b sw _ .if_alternative) (Or.inl rfl) (Or.inl rfl)).trans
        (Only.updateTarget b sw _ (.conditional (E.readCondition inst) (some st.blocks.length)
          (some (st.newBlock .if_true).2.blocks.length))) (Or.inl rfl) (Or.inl rfl)
    apply Reach.bind (iha _ _ _ _ _ _ none ?_ ?_ hwf.1.1)
    · intro c1 s3 hv hf ho
      have o3 := o2.trans ho (Or.inr (Nat.le_refl _)) (Or.inr (by simp))
      have l3 := ho.1
      simp only [updateAt_length, newBlock_length] at hf hv o3 l3 ⊢
      have o4 := (o3.trans (Only.newBlock c1 none s3 .endif) (by omega) (Or.inr (by simp))).trans
        (Only.updateTarget c1 none _ (.unconditional (some s3.blocks.length))) (by omega)
        (Or.inr (by simp))
      apply Reach.bind (ihb _ _ _ _ _ _ none ?_ ?_ hwf.1.2)
      · intro c2 s5 hv2 hf2 ho2
        have l5 := ho2.1
        simp only [updateAt_length, newBlock_length] at hf2 hv2 l5 ⊢
        have o5 := o4.trans ho2 (Or.inr (by omega)) (Or.inr (by simp))
        have o6 := o5.trans (Only.updateTarget c2 none s5
          (.unconditional (some s3.blocks.length))) (by omega) (Or.inr (by simp))
        refine Reach.weaken o6 (Or.inr (by omega)) (Or.inl rfl)
          (ihk _ _ _ _ _ _ _ ?_ ?_ hwf.2)
        · simp only [updateAt_length]; omega
        · intro s hs
          exact Nat.lt_of_lt_of_le (hsw s hs) o6.2.1
      · simp only [updateAt_length, newBlock_length]; omega
      · simp
    · simp only [updateAt_length, newBlock_length]; omega
    · simp
  | loop body k ihb ihk =>
    intro st b bae cp bp rp sw hb hsw hwf
    simp only [Prog.wf, Bool.and_eq_true] at hwf
    simp only [run, PassState.setTarget, ok_bind, newBlock_fst]
    have o2 : Only b sw st _ :=
      ((Only.newBlock b sw st .loop_entrance).trans
        (Only.newBlock b sw _ .endloop) (Or.inl rfl) (Or.inl rfl)).trans
        (Only.updateTarget b sw _ (.unconditional (some st.blocks.length)))
        (Or.inl rfl) (Or.inl rfl)
    apply Reach.bind (ihb _ _ _ _ _ _ none ?_ ?_ hwf.1)
    · intro c1 s3 hv hf ho
      have o3 := o2.trans ho (Or.inr (Nat.le_refl _)) (Or.inr (by simp))
      have l3 := ho.1
      simp only [updateAt_length, newBlock_length] at hf hv o3 l3 ⊢
      have o4 := o3.trans (Only.updateTarget c1 none s3
        (.unconditional (some st.blocks.length))) (by omega) (Or.inr (by simp))
      refine Reach.weaken o4 (Or.inr (by omega)) (Or.inl rfl)
        (ihk _ _ _ _ _ _ _ ?_ ?_ hwf.2)
      · simp only [updateAt_length]; omega
      · intro s hs
        exact Nat.lt_of_lt_of_le (hsw s hs) o4.2.1
    · simp only [updateAt_length, newBlock_length]; omega
    · simp
  | switch body k ihb ihk =>
    intro st b bae cp bp rp sw hb hsw hwf
    simp only [Prog.wf, Bool.and_eq_true] at hwf
    simp only [run, newBlock_fst, newSwitch_fst]
    have o2 : Only b sw st ((st.newBlock .endswitch).2.newSwitch.2.newBlock .switch_empty).2 :=
      ((Only.newBlock b sw st .endswitch).trans
        (Only.newSwitch b sw _) (Or.inl rfl) (Or.inl rfl)).trans
        (Only.newBlock b sw _ .switch_empty) (Or.inl rfl) (Or.inl rfl)
    apply Reach.bind (ihb _ _ _ _ _ _ (some _) ?_ ?_ hwf.1)
    · intro c1 s3 hv hf ho
      have o3 := o2.trans ho (Or.inr (by simp [newBlock_length, newSwitch_blocks]))
        (Or.inr (by simp [newBlock_switches]))
      have l3 := ho.1
      have l3s := ho.2.1
      simp only [updateAt_length, newBlock_length, newSwitch_blocks, newBlock_switches,
        newSwitch_length] at hf hv o3 l3 l3s ⊢
      simp only [PassState.setTarget, ok_bind]
      obtain ⟨c, _, hc⟩ := switchTarget_ok s3 st.switches.length (by omega)
      rw [switchTarget_blocks, hc]
      simp only [ok_bind]
      have o4 := (o3.trans (Only.updateTarget c1 none s3
        (.unconditional (some st.blocks.length))) (by omega) (Or.inr (by simp))).trans
        (Only.updateTarget b sw _ (.switch c.cases c.case_default)) (Or.inl rfl) (Or.inl rfl)
      refine Reach.weaken o4 (Or.inr (by omega)) (Or.inl rfl)
        (ihk _ _ _ _ _ _ _ ?_ ?_ hwf.2)
      · simp only [updateAt_length]; omega
      · intro s hs
        exact Nat.lt_of_lt_of_le (hsw s hs) o4.2.1
    · simp only [newBlock_length, newSwitch_blocks]; omega
    · intro s hs
      simp only [Option.some.injEq, newBlock_switches] at hs
      simp only [newBlock_switches, newSwitch_length]
      omega

theorem updateAt_updateAt {α : Type} (f g : α → α) (l : List α) (i : Nat) :
    updateAt g (updateAt f l i) i = updateAt (fun a => g (f a)) l i := by
  induction l generalizing i with
  | nil => rfl
  | cons a l ih => cases i <;> simp [updateAt, ih]

theorem updateAt_append_left {α : Type} (f : α → α) (l l' : List α) (i : Nat)
    (h : i < l.length) : updateAt f (l ++ l') i = updateAt f l i ++ l' := by
  induction l generalizing i with
  | nil => simp at h
  | cons a l ih =>
    cases i with
    | zero => simp [updateAt]
    | succ i => simp [updateAt]; exact ih i (by simpa using h)

theorem updateAt_append_right {α : Type} (f : α → α) (l l' : List α) (j : Nat) :
    updateAt f (l ++ l') (l.length + j) = l ++ updateAt f l' j := by
  induction l with
  | nil => simp
  | cons a l ih =>
    have : (a :: l).length + j = (l.length + j) + 1 := by simp; omega
    rw [this]
    simp [updateAt, ih]

theorem updateAt_id {α : Type} (f : α → α) (l : List α) (i : Nat) (h : ∀ a, f a = a) :
    updateAt f l i = l := by
  induction l generalizing i with
  | nil => rfl
  | cons a l ih => cases i <;> simp [updateAt, ih, h]

theorem push_push (xs ys : List Instruction) (b : BasicBlock) :
    BasicBlock.push ys (BasicBlock.push xs b) = BasicBlock.push (xs ++ ys) b := by
  simp [BasicBlock.push]

theorem push_nil (b : BasicBlock) : BasicBlock.push [] b = b := by
  simp [BasicBlock.push]

/-- The walk over a run of ordinary instructions appends their lowered forms,
in stream order, to the block being appended to and changes nothing else in the
graph. -/
theorem readControlFlow_others (insts : List Nat) :
    ∀ (fuel : Nat) (code : List CInstruction) (st : PassState) (b : Nat)
      (bae cp bp rp sw : Option Nat),
      readControlFlow E P (fuel + insts.length) (insts.map CInstruction.other ++ code) st
          (some b) bae cp bp rp sw =
        readControlFlow E P fuel code
          { st with
            shader_info := (lowerAll E insts st.shader_info).2
            blocks := updateAt (BasicBlock.push (lowerAll E insts st.shader_info).1) st.blocks b }
          (some b) bae cp bp rp sw := by
  intro fuel code st b bae cp bp rp sw
  induction insts generalizing st with
  | nil =>
    simp only [List.map_nil, List.nil_append, List.length_nil, Nat.add_zero, lowerAll]
    rw [updateAt_id _ _ _ push_nil]
  | cons inst insts ih =>
    simp only [List.map_cons, List.cons_append, List.length_cons]
    rw [← Nat.add_assoc]
    simp only [readControlFlow, readOther, PassState.pushInstruction, ok_bind]
    rw [ih]
    simp only [lowerAll, updateAt_updateAt, push_push, List.singleton_append]

/-! ## Straight-line code and IF scopes -/

/-- C1: a stream of `k` ordinary instructions followed by a single RET builds
successfully; the graph consists of the entry block and the shared return block
only; the entry block holds exactly the `k` lowered instructions in stream
order and ends with an unconditional branch to the return block. -/
theorem C1_straight_line (insts : List Nat) :
    ∃ sm, SM50Initialize E P (insts.map CInstruction.other ++ [CInstruction.RET]) = .ok sm ∧
      sm.entry = some 0 ∧ sm.return_point = some 1 ∧
      sm.blocks =
        [{ debug_name := .entrybb, instructions := (lowerAll E insts ShaderInfo.empty).1,
           target := .unconditional (some 1) },
         { debug_name := .returnbb, instructions := [], target := .ret }] := by
  have hlen : (insts.map CInstruction.other ++ [CInstruction.RET]).length + 1
      = 2 + insts.length := by simp; omega
  simp only [SM50Initialize, hlen]
  rw [readControlFlow_others]
  simp only [readControlFlow, PassState.setTarget, ok_bind, Option.isNone_none, Bool.and_self,
    if_true, DXASSERT_DXBC, beq_self_eq_true, pure, Except.pure]
  refine ⟨_, rfl, rfl, rfl, ?_⟩
  simp [PassState.initial, updateAt, BasicBlock.push, BasicBlock.setTarget]

/-- C2: for `IF c; body; ENDIF` with a straight-line body, parsed from an open
block `B`: exactly two blocks are made, the true block `T` and the merge block
`M`; `B` ends with `Conditional(c, T, M)`; the true arm holds the lowered body
and ends with `Unconditional(M)`; the walk goes on appending to `M` with the
caller's context, so `M` is the target of the false edge and of the arm's
exit. -/
theorem C2_if_endif (inst : Nat) (body : List Nat) (rest : List CInstruction)
    (st : PassState) (B : Nat) (bae cp bp rp sw : Option Nat) (fuel : Nat)
    (hB : B < st.blocks.length) (hfuel : body.length + 1 ≤ fuel) :
    readControlFlow E P (fuel + 1)
        (CInstruction.IF inst :: (body.map CInstruction.other ++ CInstruction.ENDIF :: rest))
        st (some B) bae cp bp rp sw =
      readControlFlow E P fuel rest
        { st with
          shader_info := (lowerAll E body st.shader_info).2
          blocks :=
            updateAt (BasicBlock.setTarget (.conditional (E.readCondition inst)
              (some st.blocks.length) (some (st.blocks.length + 1)))) st.blocks B ++
            [{ debug_name := .if_true, instructions := (lowerAll E body st.shader_info).1,
               target := .unconditional (some (st.blocks.length + 1)) },
             { debug_name := .if_alternative, instructions := [], target := .undefined }] }
        (some (st.blocks.length + 1)) bae cp bp rp sw := by
  obtain ⟨g, rfl⟩ : ∃ g, fuel = (g + 1) + body.length := ⟨fuel - 1 - body.length, by omega⟩
  simp only [readControlFlow, PassState.newBlock, PassState.setTarget, ok_bind]
  rw [readControlFlow_others]
  simp only [readControlFlow, DXASSERT_DXBC, Option.isSome_some, if_true, ok_bind,
    PassState.setTarget, pure, Except.pure, bind, Except.bind]
  simp only [List.length_append, List.length_singleton, List.append_assoc,
    List.singleton_append, updateAt_updateAt, List.length_cons, List.length_nil]
  congr 2
  rw [updateAt_append_left _ _ _ _ hB]
  have h1 := updateAt_append_right (fun a => BasicBlock.setTarget
      (.unconditional (some (st.blocks.length + 1)))
      (BasicBlock.push (lowerAll E body st.shader_info).1 a))
    (updateAt (BasicBlock.setTarget (.conditional (E.readCondition inst)
              (some st.blocks.length) (some (st.blocks.length + 1)))) st.blocks B)
    [{ debug_name := .if_true, instructions := [], target := .undefined },
     { debug_name := .if_alternative, instructions := [], target := .undefined }] 0
  simp only [updateAt_length, Nat.add_zero, updateAt, List.nil_append, BasicBlock.push,
    BasicBlock.setTarget] at h1
  exact h1

/-- Witness of C2 on `IF 7; 1; 2; ENDIF; RET` parsed from the entry block. -/
theorem C2_if_endif_witness :
    0 < PassState.initial.blocks.length ∧ ([1, 2] : List Nat).length + 1 ≤ 3 ∧
    readControlFlow sampleExternal sampleEnv (3 + 1)
        (CInstruction.IF 7 ::
          (([1, 2] : List Nat).map CInstruction.other ++ CInstruction.ENDIF :: [CInstruction.RET]))
        PassState.initial (some 0) none none none (some 1) none =
      readControlFlow sampleExternal sampleEnv 3 [CInstruction.RET]
        { PassState.initial with
          shader_info := (lowerAll sampleExternal [1, 2] PassState.initial.shader_info).2
          blocks :=
            updateAt (BasicBlock.setTarget (.conditional (sampleExternal.readCondition 7)
              (some PassState.initial.blocks.length)
              (some (PassState.initial.blocks.length + 1)))) PassState.initial.blocks 0 ++
            [{ debug_name := .if_true,
               instructions := (lowerAll sampleExternal [1, 2] PassState.initial.shader_info).1,
               target := .unconditional (some (PassState.initial.blocks.length + 1)) },
             { debug_name := .if_alternative, instructions := [], target := .undefined }] }
        (some (PassState.initial.blocks.length + 1)) none none none (some 1) none :=
  ⟨by decide, by decide,
    C2_if_endif sampleExternal sampleEnv 7 [1, 2] [CInstruction.RET] PassState.initial 0
      none none none (some 1) none 3 (by decide) (by decide)⟩

theorem updateAt_append_at {α : Type} (f : α → α) (l l' : List α) (n j : Nat)
    (hn : n = l.length + j) : updateAt f (l ++ l') n = l ++ updateAt f l' j := by
  subst hn
  exact updateAt_append_right f l l' j

theorem updateAt_updateAt_append {α : Type} (f g : α → α) (l l' : List α) (b j : Nat) :
    updateAt f (updateAt g l b ++ l') (l.length + j) = updateAt g l b ++ updateAt f l' j :=
  updateAt_append_at f _ l' _ j (by rw [updateAt_length])

theorem updateAt_updateAt_append_zero {α : Type} (f g : α → α) (l l' : List α) (b : Nat) :
    updateAt f (updateAt g l b ++ l') l.length = updateAt g l b ++ updateAt f l' 0 :=
  updateAt_append_at f _ l' _ 0 (by rw [updateAt_length]; rfl)

theorem updateAt_cons_zero {α : Type} (f : α → α) (a : α) (l : List α) :
    updateAt f (a :: l) 0 = f a :: l := rfl

theorem updateAt_cons_one {α : Type} (f : α → α) (a a' : α) (l : List α) :
    updateAt f (a :: a' :: l) 1 = a :: f a' :: l := rfl

/-- C3: for `IF c; A; ELSE; B; ENDIF` with straight-line arms, parsed from an
open block: exactly three blocks are made (true, alternative, merge); the true
block holds the lowered instructions between IF and ELSE, the alternative block
those between ELSE and ENDIF, each in stream order; both arms end with
`Unconditional(merge)`, and the walk goes on appending to the merge block. -/
theorem C3_if_else_endif (inst : Nat) (A B : List Nat) (rest : List CInstruction)
    (st : PassState) (b : Nat) (bae cp bp rp sw : Option Nat) (fuel : Nat)
    (hb : b < st.blocks.length) (hfuel : A.length + B.length + 2 ≤ fuel) :
    readControlFlow E P (fuel + 1)
        (CInstruction.IF inst :: (A.map CInstruction.other ++ CInstruction.ELSE ::
          (B.map CInstruction.other ++ CInstruction.ENDIF :: rest)))
        st (some b) bae cp bp rp sw =
      readControlFlow E P fuel rest
        { st with
          shader_info := (lowerAll E B (lowerAll E A st.shader_info).2).2
          blocks :=
            updateAt (BasicBlock.setTarget (.conditional (E.readCondition inst)
              (some st.blocks.length) (some (st.blocks.length + 1)))) st.blocks b ++
            [{ debug_name := .if_true, instructions := (lowerAll E A st.shader_info).1,
               target := .unconditional (some (st.blocks.length + 2)) },
             { debug_name := .if_alternative,
               instructions := (lowerAll E B (lowerAll E A st.shader_info).2).1,
               target := .unconditional (some (st.blocks.length + 2)) },
             { debug_name := .endif, instructions := [], target := .undefined }] }
        (some (st.blocks.length + 2)) bae cp bp rp sw := by
  obtain ⟨h, rfl⟩ : ∃ h, fuel = ((h + 1 + B.length) + 1) + A.length :=
    ⟨fuel - 2 - A.length - B.length, by omega⟩
  simp only [readControlFlow, PassState.newBlock, PassState.setTarget, ok_bind]
  rw [readControlFlow_others]
  simp only [readControlFlow, DXASSERT_DXBC, Option.isSome_some, if_true, ok_bind,
    PassState.setTarget, PassState.newBlock]
  rw [readControlFlow_others]
  simp only [readControlFlow, DXASSERT_DXBC, Option.isSome_some, if_true, ok_bind,
    PassState.setTarget, pure, Except.pure, bind, Except.bind]
  simp only [List.length_append, List.length_singleton, List.length_cons, List.length_nil,
    updateAt_length, Nat.zero_add, Nat.reduceAdd, List.append_assoc, List.singleton_append]
  congr 2
  simp only [updateAt_append_left _ _ _ _ hb, updateAt_updateAt_append,
    updateAt_updateAt_append_zero, List.append_assoc, List.cons_append, List.nil_append,
    updateAt_cons_zero, updateAt_cons_one, BasicBlock.push, BasicBlock.setTarget]

/-- Witness of C3 on `IF 7; 1; ELSE; 2; 3; ENDIF; RET` parsed from the entry
block. -/
theorem C3_if_else_endif_witness :
    0 < PassState.initial.blocks.length ∧
    ([1] : List Nat).length + ([2, 3] : List Nat).length + 2 ≤ 5 ∧
    readControlFlow sampleExternal sampleEnv (5 + 1)
        (CInstruction.IF 7 :: (([1] : List Nat).map CInstruction.other ++ CInstruction.ELSE ::
          (([2, 3] : List Nat).map CInstruction.other ++
            CInstruction.ENDIF :: [CInstruction.RET])))
        PassState.initial (some 0) none none none (some 1) none =
      readControlFlow sampleExternal sampleEnv 5 [CInstruction.RET]
        { PassState.initial with
          shader_info := (lowerAll sampleExternal [2, 3]
            (lowerAll sampleExternal [1] PassState.initial.shader_info).2).2
          blocks :=
            updateAt (BasicBlock.setTarget (.conditional (sampleExternal.readCondition 7)
              (some PassState.initial.blocks.length)
              (some (PassState.initial.blocks.length + 1)))) PassState.initial.blocks 0 ++
            [{ debug_name := .if_true,
               instructions := (lowerAll sampleExternal [1] PassState.initial.shader_info).1,
               target := .unconditional (some (PassState.initial.blocks.length + 2)) },
             { debug_name := .if_alternative,
               instructions := (lowerAll sampleExternal [2, 3]
                 (lowerAll sampleExternal [1] PassState.initial.shader_info).2).1,
               target := .unconditional (some (PassState.initial.blocks.length + 2)) },
             { debug_name := .endif, instructions := [], target := .undefined }] }
        (some (PassState.initial.blocks.length + 2)) none none none (some 1) none :=
  ⟨by decide, by decide,
    C3_if_else_endif sampleExternal sampleEnv 7 [1] [2, 3] [CInstruction.RET]
      PassState.initial 0 none none none (some 1) none 5 (by decide) (by decide)⟩

/-! ## SWITCH scopes -/

theorem Map.mem_keys_insert {V : Type} (m : Map V) (k : Nat) (v : V) (k' : Nat) :
    k' ∈ Map.keys (Map.insert m k v) ↔ k' = k ∨ k' ∈ Map.keys m := by
  induction m with
  | nil => simp [Map.insert, Map.keys]
  | cons e m ih =>
    obtain ⟨k0, v0⟩ := e
    simp only [Map.insert]
    split
    · simp [Map.keys]
    · split
      · rename_i h1 h2
        subst h2
        simp [Map.keys]
      · simp only [Map.keys, List.map_cons, List.mem_cons] at ih ⊢
        rw [ih]
        tauto

theorem Map.length_insert {V : Type} (m : Map V) (k : Nat) (v : V)
    (h : k ∉ Map.keys m) : (Map.insert m k v).length = m.length + 1 := by
  induction m with
  | nil => simp [Map.insert]
  | cons e m ih =>
    obtain ⟨k0, v0⟩ := e
    simp only [Map.keys, List.map_cons, List.mem_cons, not_or] at h
    simp only [Map.insert]
    split
    · simp
    · split
      · rename_i h1 h2
        exact absurd h2 h.1
      · simp [ih h.2]

theorem Map.find?_insert_ne {V : Type} (m : Map V) (k : Nat) (v : V) (k' : Nat)
    (h : k' ≠ k) : Map.find? (Map.insert m k v) k' = Map.find? m k' := by
  induction m with
  | nil => simp [Map.insert, Map.find?, h]
  | cons e m ih =>
    obtain ⟨k0, v0⟩ := e
    simp only [Map.insert]
    split
    · simp [Map.find?, h]
    · split
      · simp [Map.find?]
      · simp [Map.find?, ih]

theorem Map.find?_insert_new {V : Type} (m : Map V) (k : Nat) (v : V)
    (h : k ∉ Map.keys m) : Map.find? (Map.insert m k v) k = some v := by
  induction m with
  | nil => simp [Map.insert, Map.find?]
  | cons e m ih =>
    obtain ⟨k0, v0⟩ := e
    simp only [Map.keys, List.map_cons, List.mem_cons, not_or] at h
    simp only [Map.insert]
    split
    · simp [Map.find?]
    · split
      · rename_i h1 h2
        exact absurd h2 h.1
      · simp [Map.find?, h.1]
        exact ih h.2

theorem Map.mem_keys_insertAll {V : Type} (es : List (Nat × V)) (m : Map V) (k' : Nat) :
    k' ∈ Map.keys (Map.insertAll m es) ↔ k' ∈ es.map Prod.fst ∨ k' ∈ Map.keys m := by
  induction es generalizing m with
  | nil => simp [Map.insertAll]
  | cons e es ih =>
    simp only [Map.insertAll, List.foldl_cons] at ih ⊢
    rw [ih, Map.mem_keys_insert]
    simp only [List.map_cons, List.mem_cons]
    tauto

theorem Map.length_insertAll {V : Type} (es : List (Nat × V)) (m : Map V)
    (hnd : (es.map Prod.fst).Nodup) (hnew : ∀ k ∈ es.map Prod.fst, k ∉ Map.keys m) :
    (Map.insertAll m es).length = m.length + es.length := by
  induction es generalizing m with
  | nil => simp [Map.insertAll]
  | cons e es ih =>
    simp only [List.map_cons, List.nodup_cons] at hnd
    simp only [Map.insertAll, List.foldl_cons] at ih ⊢
    rw [ih _ hnd.2, Map.length_insert _ _ _ (hnew e.1 (by simp))]
    · simp; omega
    · intro k hk hmem
      rw [Map.mem_keys_insert] at hmem
      rcases hmem with rfl | hmem
      · exact hnd.1 hk
      · exact hnew k (by simp [hk]) hmem

theorem Map.find?_insertAll_not_mem {V : Type} (es : List (Nat × V)) (m : Map V) (k' : Nat)
    (h : k' ∉ es.map Prod.fst) : Map.find? (Map.insertAll m es) k' = Map.find? m k' := by
  induction es generalizing m with
  | nil => simp [Map.insertAll]
  | cons e es ih =>
    simp only [List.map_cons, List.mem_cons, not_or] at h
    simp only [Map.insertAll, List.foldl_cons] at ih ⊢
    rw [ih _ h.2, Map.find?_insert_ne _ _ _ _ h.1]

theorem flatten_append (p q : Prog) : flatten (p.append q) = flatten p ++ flatten q := by
  induction p <;> simp_all [Prog.append, flatten]

theorem ntop_append (p q : Prog) : (p.append q).ntop = p.ntop + q.ntop := by
  induction p <;> simp_all [Prog.append, Prog.ntop] <;> omega

theorem topCases_append (p q : Prog) : (p.append q).topCases = p.topCases ++ q.topCases := by
  induction p with
  | done => simp [Prog.append, Prog.topCases]
  | flat t k ih => cases t <;> simp [Prog.append, Prog.topCases, ih]
  | ifThen _ _ k _ ih => simp [Prog.append, Prog.topCases, ih]
  | ifElse _ _ _ k _ _ ih => simp [Prog.append, Prog.topCases, ih]
  | loop _ k _ ih => simp [Prog.append, Prog.topCases, ih]
  | switch _ k _ ih => simp [Prog.append, Prog.topCases, ih]

theorem topDefaults_append (p q : Prog) :
    (p.append q).topDefaults = p.topDefaults + q.topDefaults := by
  induction p with
  | done => simp [Prog.append, Prog.topDefaults]
  | flat t k ih =>
    cases t
    case DEFAULT => simp [Prog.append, Prog.topDefaults, ih]; omega
    all_goals simp [Prog.append, Prog.topDefaults, ih]
  | ifThen _ _ k _ ih => simp [Prog.append, Prog.topDefaults, ih]
  | ifElse _ _ _ k _ _ ih => simp [Prog.append, Prog.topDefaults, ih]
  | loop _ k _ ih => simp [Prog.append, Prog.topDefaults, ih]
  | switch _ k _ ih => simp [Prog.append, Prog.topDefaults, ih]

theorem wf_append (s : Bool) (p q : Prog) :
    (p.append q).wf E P s = (p.wf E P s && q.wf E P s) := by
  induction p <;> simp_all [Prog.append, Prog.wf, Bool.and_assoc]

theorem run_append (p q : Prog) :
    ∀ (st : PassState) (ctx bae cp bp rp sw : Option Nat),
      run E P (p.append q) st ctx bae cp bp rp sw =
        (run E P p st ctx bae cp bp rp sw >>= fun r =>
          run E P q r.2 r.1 bae cp bp rp sw) := by
  induction p with
  | done => intro st ctx bae cp bp rp sw; simp [Prog.append, run]; rfl
  | flat t k ih =>
    intro st ctx bae cp bp rp sw
    simp only [Prog.append, run, bind_assoc, ih]
  | ifThen inst a k _ ih =>
    intro st ctx bae cp bp rp sw
    simp only [Prog.append, run, bind_assoc, ih]
  | ifElse inst a b k _ _ ih =>
    intro st ctx bae cp bp rp sw
    simp only [Prog.append, run, bind_assoc, ih]
  | loop body k _ ih =>
    intro st ctx bae cp bp rp sw
    simp only [Prog.append, run, bind_assoc, ih]
  | switch body k _ ih =>
    intro st ctx bae cp bp rp sw
    simp only [Prog.append, run, bind_assoc, ih]

theorem flatStep_switches (t : Flat) (st : PassState) (b s : Nat) (cp bp rp : Option Nat)
    (r : Option Nat × PassState) (c : BasicBlockSwitch)
    (h : flatStep E P t st (some b) cp bp rp (some s) = .ok r)
    (hc : st.switches[s]? = some c) :
    r.2.switches[s]? = some (t.acc st.blocks.length c) := by
  cases t
  case dcl d =>
    simp only [flatStep] at h
    cases hd : readDeclaration E P d st with
    | error e => simp [hd, bind, Except.bind] at h
    | ok st' =>
      simp only [hd, ok_bind, pure, Except.pure] at h
      cases h
      simp [Flat.acc, (readDeclaration_frame E P d st st' hd).2, hc]
  case CASE O =>
    simp only [flatStep, PassState.setTarget, PassState.newBlock, PassState.insertCase,
      DXASSERT_DXBC, ok_bind] at h
    split at h
    · simp only [ok_bind, pure, Except.pure] at h
      cases h
      simp [Flat.acc, updateAt_getElem?_eq, hc]
    · simp [bind, Except.bind] at h
  case DEFAULT =>
    simp only [flatStep, PassState.setTarget, PassState.newBlock, PassState.setDefault,
      ok_bind, pure, Except.pure] at h
    cases h
    simp [Flat.acc, updateAt_getElem?_eq, updateAt_length, hc]
  all_goals
    simp only [flatStep, PassState.setTarget, PassState.newBlock, readOther,
      PassState.pushInstruction, ok_bind, pure, Except.pure] at h
    cases h
    simp [Flat.acc, hc]

theorem Reach.bind_eq {β : Type} {st1 : PassState} {b1 : Nat} {sw' : Option Nat}
    {r : Except DecodeError (Option Nat × PassState)}
    {f : Option Nat × PassState → Except DecodeError β} {G : Except DecodeError β → Prop}
    (h : Reach st1 b1 sw' r)
    (hk : ∀ b' st', r = .ok (some b', st') → b' < st'.blocks.length →
      (b' = b1 ∨ st1.blocks.length ≤ b') → Only b1 sw' st1 st' → G (f (some b', st'))) :
    G (r >>= f) := by
  obtain ⟨b', st', rfl, h1, h2, h3⟩ := h
  exact hk b' st' rfl h1 h2 h3

theorem lt_of_getElem?_eq_some {α : Type} {l : List α} {i : Nat} {a : α}
    (h : l[i]? = some a) : i < l.length := by
  by_contra hn
  rw [List.getElem?_eq_none (by omega)] at h
  cases h

theorem run_acc (p : Prog) :
    ∀ (st : PassState) (b : Nat) (bae cp bp rp : Option Nat) (s : Nat) (c : BasicBlockSwitch),
      b < st.blocks.length → st.switches[s]? = some c → p.wf E P true = true →
      Accum s c p.topCases p.topDefaults (run E P p st (some b) bae cp bp rp (some s)) := by
  induction p with
  | done =>
    intro st b bae cp bp rp s c hb hc _
    exact ⟨b, st, [], c, rfl, rfl, hc, rfl, fun _ => rfl⟩
  | flat t k ih =>
    intro st b bae cp bp rp s c hb hc hwf
    have hs := lt_of_getElem?_eq_some hc
    simp only [Prog.wf, Bool.and_eq_true] at hwf
    simp only [run]
    apply Reach.bind_eq (flatStep_ok E P t st b cp bp rp (some s) hb
      (fun s' hs' => by cases hs'; exact hs) hwf.1)
    intro b1 st1 heq hv hf ho
    have hc1 := flatStep_switches E P t st b s cp bp rp _ c heq hc
    obtain ⟨b', st', bs, c', hrun, hlen, hc', hcases, hdef⟩ :=
      ih st1 b1 bae cp bp rp s _ hv hc1 hwf.2
    cases t
    case CASE O =>
      refine ⟨b', st', some st.blocks.length :: bs, c', hrun, by simp [Prog.topCases, hlen],
        hc', ?_, ?_⟩
      · simpa [Prog.topCases, Map.insertAll, Flat.acc] using hcases
      · simpa [Prog.topDefaults, Flat.acc] using hdef
    case DEFAULT =>
      refine ⟨b', st', bs, c', hrun, by simpa [Prog.topCases] using hlen, hc', ?_, ?_⟩
      · simpa [Prog.topCases, Flat.acc] using hcases
      · simp [Prog.topDefaults]
    all_goals
      refine ⟨b', st', bs, c', hrun, by simpa [Prog.topCases] using hlen, hc', ?_, ?_⟩
      · simpa [Prog.topCases, Flat.acc] using hcases
      · simpa [Prog.topDefaults, Flat.acc] using hdef
  | ifThen inst a k _ ihk =>
    intro st b bae cp bp rp s c hb hc hwf
    have hs := lt_of_getElem?_eq_some hc
    simp only [Prog.wf, Bool.and_eq_true] at hwf
    simp only [run, PassState.setTarget, ok_bind, newBlock_fst, Prog.topCases, Prog.topDefaults]
    have o2 : Only b none st _ :=
      ((Only.newBlock b none st .if_true).trans
        (Only.newBlock b none _ .if_alternative) (Or.inl rfl) (Or.inl rfl)).trans
        (Only.updateTarget b none _ (.conditional (E.readCondition inst) (some st.blocks.length)
          (some (st.newBlock .if_true).2.blocks.length))) (Or.inl rfl) (Or.inl rfl)
    apply Reach.bind (run_ok E P a _ _ _ _ _ _ none ?_ ?_ hwf.1)
    · intro c1 s3 hv hf ho
      have o3 := o2.trans ho (Or.inr (Nat.le_refl _)) (Or.inl rfl)
      have l3 := ho.1
      simp only [updateAt_length, newBlock_length] at hf hv o3 l3 ⊢
      have o4 := o3.trans (Only.updateTarget c1 none s3
        (.unconditional (some (st.blocks.length + 1)))) (by omega) (Or.inl rfl)
      refine ihk _ _ _ _ _ _ s c ?_ ?_ hwf.2
      · simp only [updateAt_length]; omega
      · rw [o4.2.2.2 s hs (by simp), hc]
    · simp only [updateAt_length, newBlock_length]; omega
    · simp
  | ifElse inst a b' k _ _ ihk =>
    intro st b bae cp bp rp s c hb hc hwf
    have hs := lt_of_getElem?_eq_some hc
    simp only [Prog.wf, Bool.and_eq_true] at hwf
    simp only [run, PassState.setTarget, ok_bind, newBlock_fst, Prog.topCases, Prog.topDefaults]
    have o2 : Only b none st _ :=
      ((Only.newBlock b none st .if_true).trans
        (Only.newBlock b none _ .if_alternative) (Or.inl rfl) (Or.inl rfl)).trans
        (Only.updateTarget b none _ (.conditional (E.readCondition inst) (some st.blocks.length)
          (some (st.newBlock .if_true).2.blocks.length))) (Or.inl rfl) (Or.inl rfl)
    apply Reach.bind (run_ok E P a _ _ _ _ _ _ none ?_ ?_ hwf.1.1)
    · intro c1 s3 hv hf ho
      have o3 := o2.trans ho (Or.inr (Nat.le_refl _)) (Or.inl rfl)
      have l3 := ho.1
      simp only [updateAt_length, newBlock_length] at hf hv o3 l3 ⊢
      have o4 := (o3.trans (Only.newBlock c1 none s3 .endif) (by omega) (Or.inl rfl)).trans
        (Only.updateTarget c1 none _ (.unconditional (some s3.blocks.length))) (by omega)
        (Or.inl rfl)
      apply Reach.bind (run_ok E P b' _ _ _ _ _ _ none ?_ ?_ hwf.1.2)
      · intro c2 s5 hv2 hf2 ho2
        have l5 := ho2.1
        simp only [updateAt_length, newBlock_length] at hf2 hv2 l5 ⊢
        have o5 := o4.trans ho2 (Or.inr (by omega)) (Or.inl rfl)
        have o6 := o5.trans (Only.updateTarget c2 none s5
          (.unconditional (some s3.blocks.length))) (by omega) (Or.inl rfl)
        refine ihk _ _ _ _ _ _ s c ?_ ?_ hwf.2
        · simp only [updateAt_length]; omega
        · rw [o6.2.2.2 s hs (by simp), hc]
      · simp only [updateAt_length, newBlock_length]; omega
      · simp
    · simp only [updateAt_length, newBlock_length]; omega
    · simp
  | loop body k _ ihk =>
    intro st b bae cp bp rp s c hb hc hwf
    have hs := lt_of_getElem?_eq_some hc
    simp only [Prog.wf, Bool.and_eq_true] at hwf
    simp only [run, PassState.setTarget, ok_bind, newBlock_fst, Prog.topCases, Prog.topDefaults]
    have o2 : Only b none st _ :=
      ((Only.newBlock b none st .loop_entrance).trans
        (Only.newBlock b none _ .endloop) (Or.inl rfl) (Or.inl rfl)).trans
        (Only.updateTarget b none _ (.unconditional (some st.blocks.length)))
        (Or.inl rfl) (Or.inl rfl)
    apply Reach.bind (run_ok E P body _ _ _ _ _ _ none ?_ ?_ hwf.1)
    · intro c1 s3 hv hf ho
      have o3 := o2.trans ho (Or.inr (Nat.le_refl _)) (Or.inl rfl)
      have l3 := ho.1
      simp only [updateAt_length, newBlock_length] at hf hv o3 l3 ⊢
      have o4 := o3.trans (Only.updateTarget c1 none s3
        (.unconditional (some st.blocks.length))) (by omega) (Or.inl rfl)
      refine ihk _ _ _ _ _ _ s c ?_ ?_ hwf.2
      · simp only [updateAt_length]; omega
      · rw [o4.2.2.2 s hs (by simp), hc]
    · simp only [updateAt_length, newBlock_length]; omega
    · simp
  | switch body k _ ihk =>
    intro st b bae cp bp rp s c hb hc hwf
    have hs := lt_of_getElem?_eq_some hc
    simp only [Prog.wf, Bool.and_eq_true] at hwf
    simp only [run, newBlock_fst, newSwitch_fst, Prog.topCases, Prog.topDefaults]
    have o2 : Only b none st ((st.newBlock .endswitch).2.newSwitch.2.newBlock .switch_empty).2 :=
      ((Only.newBlock b none st .endswitch).trans
        (Only.newSwitch b none _) (Or.inl rfl) (Or.inl rfl)).trans
        (Only.newBlock b none _ .switch_empty) (Or.inl rfl) (Or.inl rfl)
    apply Reach.bind (run_ok E P body _ _ _ _ _ _ (some _) ?_ ?_ hwf.1)
    · intro c1 s3 hv hf ho
      have o3 := o2.trans ho (Or.inr (by simp [newBlock_length, newSwitch_blocks]))
        (Or.inr (by simp [newBlock_switches]))
      have l3 := ho.1
      have l3s := ho.2.1
      simp only [updateAt_length, newBlock_length, newSwitch_blocks, newBlock_switches,
        newSwitch_length] at hf hv o3 l3 l3s ⊢
      simp only [PassState.setTarget, ok_bind]
      obtain ⟨c0, _, hc0⟩ := switchTarget_ok s3 st.switches.length (by omega)
      rw [switchTarget_blocks, hc0]
      simp only [ok_bind]
      have o4 := (o3.trans (Only.updateTarget c1 none s3
        (.unconditional (some st.blocks.length))) (by omega) (Or.inl rfl)).trans
        (Only.updateTarget b none _ (.switch c0.cases c0.case_default)) (Or.inl rfl) (Or.inl rfl)
      refine ihk _ _ _ _ _ _ s c ?_ ?_ hwf.2
      · simp only [updateAt_length]; omega
      · rw [o4.2.2.2 s hs (by simp), hc]
    · simp only [newBlock_length, newSwitch_blocks]; omega
    · intro s' hs'
      simp only [Option.some.injEq, newBlock_switches] at hs'
      simp only [newBlock_switches, newSwitch_length]
      omega

theorem map_fst_zip_subset {α β : Type} (l : List α) (l' : List β) (a : α)
    (h : a ∈ (l.zip l').map Prod.fst) : a ∈ l := by
  simp only [List.mem_map] at h
  obtain ⟨⟨x, y⟩, hxy, rfl⟩ := h
  exact (List.of_mem_zip hxy).1

theorem map_fst_zip_of_length {α β : Type} (l : List α) (l' : List β)
    (h : l'.length = l.length) : (l.zip l').map Prod.fst = l := by
  induction l generalizing l' with
  | nil => simp
  | cons a l ih =>
    cases l' with
    | nil => simp at h
    | cons b l' => simp [ih l' (by simpa using h)]

/-- The walk over `pre; t; post` inside a SWITCH body, split at the token `t`:
the state in which `t` is met, and the accumulator at the end in terms of the
accumulator just after `t`. -/
theorem run_split (pre : Prog) (t : Flat) (post : Prog) (st0 : PassState) (eb s : Nat)
    (bae cp bp rp : Option Nat) (c0 : BasicBlockSwitch)
    (hb : eb < st0.blocks.length) (hc : st0.switches[s]? = some c0)
    (hwf : (pre.append (.flat t post)).wf E P true = true) :
    ∃ (b_mid : Nat) (st_mid : PassState) (c1 : BasicBlockSwitch) (bs1 : List (Option Nat))
      (b' : Nat) (st' : PassState) (bs : List (Option Nat)) (c' : BasicBlockSwitch),
      run E P pre st0 (some eb) bae cp bp rp (some s) = .ok (some b_mid, st_mid) ∧
      st_mid.switches[s]? = some c1 ∧ bs1.length = pre.topCases.length ∧
      c1.cases = Map.insertAll c0.cases (pre.topCases.zip bs1) ∧
      (pre.topDefaults = 0 → c1.case_default = c0.case_default) ∧
      run E P (pre.append (.flat t post)) st0 (some eb) bae cp bp rp (some s) =
        .ok (some b', st') ∧
      st'.switches[s]? = some c' ∧ bs.length = post.topCases.length ∧
      c'.cases = Map.insertAll (t.acc st_mid.blocks.length c1).cases (post.topCases.zip bs) ∧
      (post.topDefaults = 0 →
        c'.case_default = (t.acc st_mid.blocks.length c1).case_default) := by
  rw [wf_append] at hwf
  simp only [Prog.wf, Bool.and_eq_true] at hwf
  obtain ⟨b_mid, st_mid, bs1, c1, hpre, hl1, hc1, hcases1, hdef1⟩ :=
    run_acc E P pre st0 eb bae cp bp rp s c0 hb hc hwf.1
  obtain ⟨b_mid', st_mid', hpre', hv, _, _⟩ :=
    run_ok E P pre st0 eb bae cp bp rp (some s) hb
      (fun s' hs' => by cases hs'; exact lt_of_getElem?_eq_some hc) hwf.1
  rw [hpre] at hpre'
  cases hpre'
  have hs1 := lt_of_getElem?_eq_some hc1
  obtain ⟨b2, st2, hstep, hv2, _, _⟩ :=
    flatStep_ok E P t st_mid b_mid cp bp rp (some s) hv
      (fun s' hs' => by cases hs'; exact hs1) hwf.2.1
  have hc2 := flatStep_switches E P t st_mid b_mid s cp bp rp _ c1 hstep hc1
  obtain ⟨b', st', bs, c', hpost, hl, hc', hcases, hdef⟩ :=
    run_acc E P post st2 b2 bae cp bp rp s _ hv2 hc2 hwf.2.2
  refine ⟨b_mid, st_mid, c1, bs1, b', st', bs, c', hpre, hc1, hl1, hcases1, hdef1, ?_, hc', hl,
    hcases, hdef⟩
  rw [run_append, hpre, ok_bind]
  simp only [run]
  rw [hstep, ok_bind]
  exact hpost

/-- The walk over `SWITCH; body; ENDSWITCH` with a well-nested body: the body
is parsed from the block `switch_empty` in the state `st0` that holds the new
blocks and the new accumulator; it ends in some block `b1`, which gets the
jump to `endswitch`; the block that met SWITCH gets the accumulator as its
terminator; the walk resumes on `endswitch` with the caller's context. -/
theorem readControlFlow_SWITCH (body : Prog) (rest : List CInstruction) (st : PassState)
    (B : Nat) (bae cp bp rp sw : Option Nat) (fuel : Nat)
    (hB : B < st.blocks.length) (hwf : body.wf E P true = true)
    (hfuel : (flatten body).length + 1 ≤ fuel) :
    ∃ (b1 : Nat) (st1 : PassState) (c' : BasicBlockSwitch),
      run E P body ((st.newBlock .endswitch).2.newSwitch.2.newBlock .switch_empty).2
          (some (st.blocks.length + 1)) none cp (some st.blocks.length) rp
          (some st.switches.length) = .ok (some b1, st1) ∧
      st1.switches[st.switches.length]? = some c' ∧
      B < st1.blocks.length ∧ B ≠ b1 ∧
      (let jump := BasicBlock.setTarget (.unconditional (some st.blocks.length))
       let table := BasicBlock.setTarget (.switch c'.cases c'.case_default)
       readControlFlow E P (fuel + 1)
          (CInstruction.SWITCH :: (flatten body ++ CInstruction.ENDSWITCH :: rest))
          st (some B) bae cp bp rp sw =
        readControlFlow E P fuel rest
          { st1 with blocks := updateAt table (updateAt jump st1.blocks b1) B }
          (some st.blocks.length) bae cp bp rp sw) := by
  have hl0 : ((st.newBlock .endswitch).2.newSwitch.2.newBlock .switch_empty).2.blocks.length
      = st.blocks.length + 2 := by
    simp [newBlock_length, newSwitch_blocks]
  have hc0 : ((st.newBlock .endswitch).2.newSwitch.2.newBlock .switch_empty).2.switches[
      st.switches.length]? = some { cases := [], case_default := none } := by
    simp [PassState.newBlock, PassState.newSwitch]
  obtain ⟨b1, st1, hrun, hv, hf, ho⟩ :=
    run_ok E P body _ (st.blocks.length + 1) none cp (some st.blocks.length) rp
      (some st.switches.length) (by rw [hl0]; omega)
      (fun s' hs' => by cases hs'; exact lt_of_getElem?_eq_some hc0) hwf
  have hs1 : st.switches.length < st1.switches.length :=
    Nat.lt_of_lt_of_le (lt_of_getElem?_eq_some hc0) ho.2.1
  obtain ⟨c', hc', htarget⟩ := switchTarget_ok st1 st.switches.length hs1
  have hna := ntop_le_length body
  have hflat := readControlFlow_flatten E P body fuel (CInstruction.ENDSWITCH :: rest)
    ((st.newBlock .endswitch).2.newSwitch.2.newBlock .switch_empty).2
    (some (st.blocks.length + 1)) none cp (some st.blocks.length) rp (some st.switches.length)
    (by omega) (Or.inl rfl)
  rw [hrun, ok_bind, readControlFlow_ENDSWITCH E P _ _ _ _ _ _ _ _ _ (by omega)] at hflat
  simp only [PassState.setTarget, ok_bind, pure, Except.pure] at hflat
  have hl1 := ho.1
  rw [hl0] at hl1 hf
  refine ⟨b1, st1, c', hrun, hc', by omega, by omega, ?_⟩
  simp only [readControlFlow, newBlock_fst, newSwitch_fst, newBlock_length, newSwitch_blocks,
    newBlock_switches]
  rw [hflat]
  simp only [ok_bind, DXASSERT_DXBC, beq_self_eq_true, if_true, switchTarget_blocks, htarget,
    PassState.setTarget]

theorem exists_default_split (p : Prog) (h : 1 ≤ p.topDefaults) :
    ∃ pre post : Prog, p = pre.append (.flat .DEFAULT post) := by
  induction p with
  | done => simp [Prog.topDefaults] at h
  | flat t k ih =>
    by_cases ht : t = .DEFAULT
    · subst ht
      exact ⟨Prog.done, k, rfl⟩
    · have hk : 1 ≤ k.topDefaults := by
        cases t <;> simp_all [Prog.topDefaults]
      obtain ⟨pre, post, rfl⟩ := ih hk
      exact ⟨Prog.flat t pre, post, rfl⟩
  | ifThen inst a k _ ih =>
    obtain ⟨pre, post, rfl⟩ := ih (by simpa [Prog.topDefaults] using h)
    exact ⟨Prog.ifThen inst a pre, post, rfl⟩
  | ifElse inst a b k _ _ ih =>
    obtain ⟨pre, post, rfl⟩ := ih (by simpa [Prog.topDefaults] using h)
    exact ⟨Prog.ifElse inst a b pre, post, rfl⟩
  | loop body k _ ih =>
    obtain ⟨pre, post, rfl⟩ := ih (by simpa [Prog.topDefaults] using h)
    exact ⟨Prog.loop body pre, post, rfl⟩
  | switch body k _ ih =>
    obtain ⟨pre, post, rfl⟩ := ih (by simpa [Prog.topDefaults] using h)
    exact ⟨Prog.switch body pre, post, rfl⟩

/-- The state in which a label `t` of a SWITCH body `pre; t; post` is met, as an
equation of the walk, and the accumulator of the switch at the end of the
body. -/
theorem label_reached (pre : Prog) (t : Flat) (post : Prog) (rest : List CInstruction)
    (st0 : PassState) (eb s : Nat) (cp bp rp : Option Nat) (c0 : BasicBlockSwitch) (fuel : Nat)
    (hb : eb < st0.blocks.length) (hc : st0.switches[s]? = some c0)
    (hwf : (pre.append (.flat t post)).wf E P true = true)
    (hfuel : (flatten pre).length ≤ fuel) (hbp : bp.isSome = true)
    (b1 : Nat) (st1 : PassState)
    (hrun : run E P (pre.append (.flat t post)) st0 (some eb) none cp bp rp (some s) =
      .ok (some b1, st1)) :
    ∃ (b_mid : Nat) (st_mid : PassState) (c1 c' : BasicBlockSwitch) (bs1 bs : List (Option Nat)),
      readControlFlow E P fuel (flatten pre ++ t.token :: rest) st0 (some eb) none cp bp rp
          (some s) =
        readControlFlow E P (fuel - pre.ntop) (t.token :: rest) st_mid (some b_mid) none cp bp rp
          (some s) ∧
      st1.switches[s]? = some c' ∧
      bs1.length = pre.topCases.length ∧
      c1.cases = Map.insertAll c0.cases (pre.topCases.zip bs1) ∧
      (pre.topDefaults = 0 → c1.case_default = c0.case_default) ∧
      bs.length = post.topCases.length ∧
      c'.cases = Map.insertAll (t.acc st_mid.blocks.length c1).cases (post.topCases.zip bs) ∧
      (post.topDefaults = 0 →
        c'.case_default = (t.acc st_mid.blocks.length c1).case_default) := by
  obtain ⟨b_mid, st_mid, c1, bs1, b', st', bs, c', hpre, _, hl1, hcases1, hdef1, hall, hc', hl,
    hcases, hdef⟩ := run_split E P pre t post st0 eb s none cp bp rp c0 hb hc hwf
  rw [hrun] at hall
  cases hall
  refine ⟨b_mid, st_mid, c1, c', bs1, bs, ?_, hc', hl1, hcases1, hdef1, hl, hcases, hdef⟩
  rw [readControlFlow_flatten E P pre fuel (t.token :: rest) st0 (some eb) none cp bp rp (some s)
    hfuel (Or.inl hbp), hpre, ok_bind]

/-- C5: for `SWITCH; body; ENDSWITCH` with a well-nested body that has, at its
own nesting level, `N` CASE labels with pairwise distinct values and one
DEFAULT: the walk succeeds through the switch and writes a `Switch`
terminator (on the block that met SWITCH) whose table has exactly `N` entries
and whose default target is present.  Each CASE value is mapped to the block
its own CASE makes: when the walk meets that CASE in state `st_mid`, the
block it makes is number `st_mid.blocks.length`.  The default target is, in the
same way, the block the DEFAULT makes. -/
theorem C5_switch_table (body : Prog) (rest : List CInstruction) (st : PassState)
    (B : Nat) (bae cp bp rp sw : Option Nat) (fuel : Nat)
    (hB : B < st.blocks.length) (hwf : body.wf E P true = true)
    (hfuel : (flatten body).length + 1 ≤ fuel)
    (hcases : body.topCases.Nodup) (hdefault : body.topDefaults = 1) :
    let after_switch := st.blocks.length
    let empty_body := st.blocks.length + 1
    let s := st.switches.length
    let st0 := ((st.newBlock .endswitch).2.newSwitch.2.newBlock .switch_empty).2
    ∃ (cases : Map (Option Nat)) (d : Nat) (st' : PassState),
      readControlFlow E P (fuel + 1)
          (CInstruction.SWITCH :: (flatten body ++ CInstruction.ENDSWITCH :: rest))
          st (some B) bae cp bp rp sw =
        readControlFlow E P fuel rest st' (some after_switch) bae cp bp rp sw ∧
      (st'.blocks[B]?).map (fun blk => blk.target) = some (.switch cases (some d)) ∧
      cases.length = body.topCases.length ∧
      (∀ (pre : Prog) (O : COperandBase) (post : Prog),
        body = pre.append (.flat (.CASE O) post) →
        ∃ (b_mid : Nat) (st_mid : PassState),
          readControlFlow E P fuel
              (flatten pre ++ CInstruction.CASE O ::
                (flatten post ++ CInstruction.ENDSWITCH :: rest))
              st0 (some empty_body) none cp (some after_switch) rp (some s) =
            readControlFlow E P (fuel - pre.ntop)
              (CInstruction.CASE O :: (flatten post ++ CInstruction.ENDSWITCH :: rest))
              st_mid (some b_mid) none cp (some after_switch) rp (some s) ∧
          Map.find? cases O.m_Value0 = some (some st_mid.blocks.length)) ∧
      (∀ (pre post : Prog),
        body = pre.append (.flat .DEFAULT post) →
        ∃ (b_mid : Nat) (st_mid : PassState),
          readControlFlow E P fuel
              (flatten pre ++ CInstruction.DEFAULT ::
                (flatten post ++ CInstruction.ENDSWITCH :: rest))
              st0 (some empty_body) none cp (some after_switch) rp (some s) =
            readControlFlow E P (fuel - pre.ntop)
              (CInstruction.DEFAULT :: (flatten post ++ CInstruction.ENDSWITCH :: rest))
              st_mid (some b_mid) none cp (some after_switch) rp (some s) ∧
          d = st_mid.blocks.length) := by
  intro after_switch empty_body s st0
  have hl0 : st0.blocks.length = st.blocks.length + 2 := by
    simp [st0, newBlock_length, newSwitch_blocks]
  have hc0 : st0.switches[s]? = some { cases := [], case_default := none } := by
    simp [st0, s, PassState.newBlock, PassState.newSwitch]
  obtain ⟨b1, st1, c', hrun, hc', hB1, hBb, heq⟩ :=
    readControlFlow_SWITCH E P body rest st B bae cp bp rp sw fuel hB hwf hfuel
  -- the accumulator at a label
  have hlabel : ∀ (pre : Prog) (t : Flat) (post : Prog), body = pre.append (.flat t post) →
      ∃ (b_mid : Nat) (st_mid : PassState) (c1 : BasicBlockSwitch) (bs1 bs : List (Option Nat)),
        readControlFlow E P fuel (flatten pre ++ t.token ::
            (flatten post ++ CInstruction.ENDSWITCH :: rest)) st0 (some empty_body) none cp
            (some after_switch) rp (some s) =
          readControlFlow E P (fuel - pre.ntop) (t.token ::
            (flatten post ++ CInstruction.ENDSWITCH :: rest)) st_mid (some b_mid) none cp
            (some after_switch) rp (some s) ∧
        bs1.length = pre.topCases.length ∧
        c1.cases = Map.insertAll [] (pre.topCases.zip bs1) ∧
        (pre.topDefaults = 0 → c1.case_default = none) ∧
        bs.length = post.topCases.length ∧
        c'.cases = Map.insertAll (t.acc st_mid.blocks.length c1).cases (post.topCases.zip bs) ∧
        (post.topDefaults = 0 →
          c'.case_default = (t.acc st_mid.blocks.length c1).case_default) := by
    intro pre t post hsplit
    subst hsplit
    have hfl : (flatten pre).length ≤ fuel := by
      have := hfuel
      rw [flatten_append] at this
      simp only [List.length_append] at this
      omega
    obtain ⟨b_mid, st_mid, c1, c'', bs1, bs, h1, h2, h3, h4, h5, h6, h7, h8⟩ :=
      label_reached E P pre t post (flatten post ++ CInstruction.ENDSWITCH :: rest) st0
        empty_body s cp (some after_switch) rp _ fuel (by rw [hl0]; omega) hc0 hwf hfl rfl
        b1 st1 hrun
    rw [hc'] at h2
    cases h2
    exact ⟨b_mid, st_mid, c1, bs1, bs, h1, h3, h4, h5, h6, h7, h8⟩
  -- the default target
  obtain ⟨pre0, post0, hsplit0⟩ := exists_default_split body (by omega)
  obtain ⟨_, st_d, c1d, _, _, _, _, _, _, _, _, hdef_d⟩ := hlabel pre0 .DEFAULT post0 hsplit0
  have hpost0 : post0.topDefaults = 0 := by
    have := hdefault
    rw [hsplit0, topDefaults_append] at this
    simp only [Prog.topDefaults] at this
    omega
  have hd : c'.case_default = some st_d.blocks.length := by
    rw [hdef_d hpost0]
    rfl
  refine ⟨c'.cases, st_d.blocks.length, _, heq, ?_, ?_, ?_, ?_⟩
  · simp only []
    rw [updateAt_getElem?_eq, updateAt_getElem?_ne _ _ _ _ hBb]
    simp [List.getElem?_eq_getElem hB1, BasicBlock.setTarget, hd]
  · obtain ⟨b2, st2, bs, c'', hr, hl, hc'', hcs, _⟩ :=
      run_acc E P body st0 empty_body none cp (some after_switch)
        rp s _ (by rw [hl0]; omega) hc0 hwf
    have e := hrun.symm.trans hr
    cases e
    have e2 := hc'.symm.trans hc''
    cases e2
    rw [hcs, Map.length_insertAll]
    · simp [List.length_zip]
      omega
    · rw [map_fst_zip_of_length _ _ hl]
      exact hcases
    · intro k _
      simp [Map.keys]
  · intro pre O post hsplit
    obtain ⟨b_mid, st_mid, c1, bs1, bs, h1, h3, h4, _, _, h7, _⟩ :=
      hlabel pre (.CASE O) post hsplit
    refine ⟨b_mid, st_mid, h1, ?_⟩
    have hnd := hcases
    rw [hsplit, topCases_append] at hnd
    simp only [Prog.topCases] at hnd
    rw [List.nodup_append] at hnd
    obtain ⟨_, hnd2, hdisj⟩ := hnd
    rw [List.nodup_cons] at hnd2
    have hpre : O.m_Value0 ∉ pre.topCases := fun hm => hdisj hm (List.mem_cons_self _ _)
    rw [h7, Map.find?_insertAll_not_mem _ _ _
      (fun hm => hnd2.1 (map_fst_zip_subset _ _ _ hm))]
    simp only [Flat.acc]
    rw [Map.find?_insert_new]
    rw [h4, Map.mem_keys_insertAll]
    intro hm
    rcases hm with hm | hm
    · exact hpre (map_fst_zip_subset _ _ _ hm)
    · simp [Map.keys] at hm
  · intro pre post hsplit
    obtain ⟨b_mid, st_mid, c1, bs1, bs, h1, _, _, _, _, _, h8⟩ :=
      hlabel pre .DEFAULT post hsplit
    refine ⟨b_mid, st_mid, h1, ?_⟩
    have hpost : post.topDefaults = 0 := by
      have := hdefault
      rw [hsplit, topDefaults_append] at this
      simp only [Prog.topDefaults] at this
      omega
    have := h8 hpost
    simp only [Flat.acc] at this
    rw [hd] at this
    exact Option.some.inj this

/-- Witness of C5 on `SWITCH; CASE 4; 1; BREAK; CASE 2; BREAK; DEFAULT; BREAK;
ENDSWITCH; RET` parsed from the entry block. -/
theorem C5_switch_table_witness :
    0 < PassState.initial.blocks.length ∧
    sampleSwitchBody.wf sampleExternal sampleEnv true = true ∧
    (flatten sampleSwitchBody).length + 1 ≤ 8 ∧
    sampleSwitchBody.topCases.Nodup ∧ sampleSwitchBody.topDefaults = 1 ∧
    (let after_switch := PassState.initial.blocks.length
     let empty_body := PassState.initial.blocks.length + 1
     let s := PassState.initial.switches.length
     let st0 :=
       ((PassState.initial.newBlock .endswitch).2.newSwitch.2.newBlock .switch_empty).2
     ∃ (cases : Map (Option Nat)) (d : Nat) (st' : PassState),
       readControlFlow sampleExternal sampleEnv (8 + 1)
           (CInstruction.SWITCH ::
             (flatten sampleSwitchBody ++ CInstruction.ENDSWITCH :: [CInstruction.RET]))
           PassState.initial (some 0) none none none (some 1) none =
         readControlFlow sampleExternal sampleEnv 8 [CInstruction.RET] st' (some after_switch)
           none none none (some 1) none ∧
       (st'.blocks[0]?).map (fun blk => blk.target) = some (.switch cases (some d)) ∧
       cases.length = sampleSwitchBody.topCases.length ∧
       (∀ (pre : Prog) (O : COperandBase) (post : Prog),
         sampleSwitchBody = pre.append (.flat (.CASE O) post) →
         ∃ (b_mid : Nat) (st_mid : PassState),
           readControlFlow sampleExternal sampleEnv 8
               (flatten pre ++ CInstruction.CASE O ::
                 (flatten post ++ CInstruction.ENDSWITCH :: [CInstruction.RET]))
               st0 (some empty_body) none none (some after_switch) (some 1) (some s) =
             readControlFlow sampleExternal sampleEnv (8 - pre.ntop)
               (CInstruction.CASE O ::
                 (flatten post ++ CInstruction.ENDSWITCH :: [CInstruction.RET]))
               st_mid (some b_mid) none none (some after_switch) (some 1) (some s) ∧
           Map.find? cases O.m_Value0 = some (some st_mid.blocks.length)) ∧
       (∀ (pre post : Prog),
         sampleSwitchBody = pre.append (.flat .DEFAULT post) →
         ∃ (b_mid : Nat) (st_mid : PassState),
           readControlFlow sampleExternal sampleEnv 8
               (flatten pre ++ CInstruction.DEFAULT ::
                 (flatten post ++ CInstruction.ENDSWITCH :: [CInstruction.RET]))
               st0 (some empty_body) none none (some after_switch) (some 1) (some s) =
             readControlFlow sampleExternal sampleEnv (8 - pre.ntop)
               (CInstruction.DEFAULT ::
                 (flatten post ++ CInstruction.ENDSWITCH :: [CInstruction.RET]))
               st_mid (some b_mid) none none (some after_switch) (some 1) (some s) ∧
           d = st_mid.blocks.length)) :=
  ⟨by decide, by decide, by decide, by decide, by decide,
    C5_switch_table sampleExternal sampleEnv sampleSwitchBody [CInstruction.RET]
      PassState.initial 0 none none none (some 1) none 8
      (by decide) (by decide) (by decide) (by decide) (by decide)⟩

/-- For `SWITCH; body; ENDSWITCH` with a well-nested body that has no DEFAULT
at its own nesting level, the `Switch` terminator has no default target: the
pointer `case_default` is still null. -/
theorem switch_default_absent (body : Prog) (rest : List CInstruction) (st : PassState)
    (B : Nat) (bae cp bp rp sw : Option Nat) (fuel : Nat)
    (hB : B < st.blocks.length) (hwf : body.wf E P true = true)
    (hfuel : (flatten body).length + 1 ≤ fuel) (hdefault : body.topDefaults = 0) :
    ∃ (cases : Map (Option Nat)) (st' : PassState),
      readControlFlow E P (fuel + 1)
          (CInstruction.SWITCH :: (flatten body ++ CInstruction.ENDSWITCH :: rest))
          st (some B) bae cp bp rp sw =
        readControlFlow E P fuel rest st' (some st.blocks.length) bae cp bp rp sw ∧
      (st'.blocks[B]?).map (fun blk => blk.target) = some (.switch cases none) := by
  obtain ⟨b1, st1, c', hrun, hc', hB1, hBb, heq⟩ :=
    readControlFlow_SWITCH E P body rest st B bae cp bp rp sw fuel hB hwf hfuel
  have hc0 : ((st.newBlock .endswitch).2.newSwitch.2.newBlock .switch_empty).2.switches[
      st.switches.length]? = some { cases := [], case_default := none } := by
    simp [PassState.newBlock, PassState.newSwitch]
  obtain ⟨b2, st2, bs, c'', hr, _, hc'', _, hdef⟩ :=
    run_acc E P body _ (st.blocks.length + 1) none cp (some st.blocks.length) rp
      st.switches.length _ (by simp [newBlock_length, newSwitch_blocks]) hc0 hwf
  have e := hrun.symm.trans hr
  cases e
  have e2 := hc'.symm.trans hc''
  cases e2
  refine ⟨c'.cases, _, heq, ?_⟩
  simp only []
  rw [updateAt_getElem?_eq, updateAt_getElem?_ne _ _ _ _ hBb]
  simp [List.getElem?_eq_getElem hB1, BasicBlock.setTarget, hdef hdefault]

/-- C6 (evaluation at the failing input): on `SWITCH; CASE 4; 1; BREAK;
ENDSWITCH; RET` the build succeeds, block 2 is the `endswitch` block (the break
target of the switch), and the `Switch` terminator of the entry block has the
table `4 -> block 4` and an absent default target, not block 2. -/
theorem C6_switch_without_default :
    (SM50Initialize sampleExternal sampleEnv
        [.SWITCH, .CASE (immediate32 4), .other 1, .BREAK, .ENDSWITCH, .RET]).toOption.map
      (fun sm => (sm.blocks.map (fun blk => blk.debug_name),
                  (sm.blocks[0]?).map (fun blk => blk.target))) =
    some ([.entrybb, .returnbb, .endswitch, .switch_empty, .switch_case, .after_break],
          some (.switch [(4, some 4)] none)) := by
  decide

/-! ## RET -/

/-- C7: a RET met while appending to block `b` sets that block's terminator to
`Unconditional(return_point)`.  If the merge target and the break target are
both absent, the call returns `return_point` at once, with the tokens after
RET left unread; otherwise the walk goes on with those tokens, appending to a
freshly made block `after_ret`, with the same merge, continue, break and
return targets and the same switch accumulator. -/
theorem C7_ret (code : List CInstruction) (st : PassState) (b : Nat)
    (bae cp bp rp sw : Option Nat) (fuel : Nat) (hb : b < st.blocks.length) :
    let jump := BasicBlock.setTarget (.unconditional rp)
    let fresh : BasicBlock := { debug_name := .after_ret, instructions := [], target := .undefined }
    (((updateAt jump st.blocks b)[b]?).map (fun blk => blk.target) = some (.unconditional rp)) ∧
    ((bp = none ∧ bae = none) →
      readControlFlow E P (fuel + 1) (CInstruction.RET :: code) st (some b) bae cp bp rp sw =
        .ok (rp, code, { st with blocks := updateAt jump st.blocks b })) ∧
    (¬ (bp = none ∧ bae = none) →
      readControlFlow E P (fuel + 1) (CInstruction.RET :: code) st (some b) bae cp bp rp sw =
        readControlFlow E P fuel code
          { st with blocks := updateAt jump st.blocks b ++ [fresh] }
          (some st.blocks.length) bae cp bp rp sw) := by
  intro jump fresh
  refine ⟨?_, ?_, ?_⟩
  · rw [updateAt_getElem?_eq]
    simp [List.getElem?_eq_getElem hb, jump, BasicBlock.setTarget]
  · rintro ⟨rfl, rfl⟩
    simp only [readControlFlow, PassState.setTarget, ok_bind, Option.isNone_none, Bool.and_self,
      if_true]
    rfl
  · intro h
    have hc : (bp.isNone && bae.isNone) = false := by
      cases bp <;> cases bae <;> simp_all
    simp only [readControlFlow, PassState.setTarget, ok_bind, hc, PassState.newBlock,
      updateAt_length]
    rfl

/-- Witness of C7 on a RET met in the entry block, at top level. -/
theorem C7_ret_witness :
    0 < PassState.initial.blocks.length ∧
    (let jump := BasicBlock.setTarget (.unconditional (some 1))
     let fresh : BasicBlock :=
       { debug_name := .after_ret, instructions := [], target := .undefined }
     (((updateAt jump PassState.initial.blocks 0)[0]?).map (fun blk => blk.target) =
        some (.unconditional (some 1))) ∧
     (((none : Option Nat) = none ∧ (none : Option Nat) = none) →
       readControlFlow sampleExternal sampleEnv (1 + 1) (CInstruction.RET :: [CInstruction.ENDIF])
           PassState.initial (some 0) none none none (some 1) none =
         .ok (some 1, [CInstruction.ENDIF],
           { PassState.initial with blocks := updateAt jump PassState.initial.blocks 0 })) ∧
     (¬ ((none : Option Nat) = none ∧ (none : Option Nat) = none) →
       readControlFlow sampleExternal sampleEnv (1 + 1) (CInstruction.RET :: [CInstruction.ENDIF])
           PassState.initial (some 0) none none none (some 1) none =
         readControlFlow sampleExternal sampleEnv 1 [CInstruction.ENDIF]
           { PassState.initial with
             blocks := updateAt jump PassState.initial.blocks 0 ++ [fresh] }
           (some PassState.initial.blocks.length) none none none (some 1) none)) :=
  ⟨by decide,
    C7_ret sampleExternal sampleEnv [CInstruction.ENDIF] PassState.initial 0 none none none
      (some 1) none 1 (by decide)⟩

/-! ## Declarations -/

theorem Map.find?_assign {V : Type} (m : Map V) (k : Nat) (v : V) :
    Map.find? (Map.assign m k v) k = some v := by
  induction m with
  | nil => simp [Map.assign, Map.find?]
  | cons e m ih =>
    obtain ⟨k0, v0⟩ := e
    simp only [Map.assign]
    split
    · simp [Map.find?]
    · split
      · simp [Map.find?]
      · rename_i h1 h2
        simp [Map.find?, h2, ih]

/-- C8: a constant-buffer declaration whose operand is 2-D-indexed, with range
id `r = m_Index[0]`, declared size `Size` and space `Space`, is accepted; the
walk goes on with the next token in the same context, and `cbufferMap[r]` is
`{range_id = r, lower_bound = r, size = 1, space = Space, size_in_vec4 = Size}`;
nothing else of the state changes. -/
theorem C8_cbuffer_2d (op0 : COperandBase) (Size Space : Nat) (code : List CInstruction)
    (st : PassState) (ctx bae cp bp rp sw : Option Nat) (fuel : Nat)
    (h2d : op0.m_IndexDimension = .INDEX_2D) :
    let r := op0.m_Index0
    let info : ConstantBufferInfo :=
      { range := { range_id := r, lower_bound := r, size := 1, space := Space },
        size_in_vec4 := Size }
    let shader_info' : ShaderInfo :=
      { st.shader_info with cbufferMap := Map.assign st.shader_info.cbufferMap r info }
    readControlFlow E P (fuel + 1)
        (CInstruction.dcl (.DCL_CONSTANT_BUFFER op0 Size Space) :: code) st ctx bae cp bp rp sw =
      readControlFlow E P fuel code { st with shader_info := shader_info' } ctx bae cp bp rp sw ∧
    Map.find? shader_info'.cbufferMap r = some info := by
  intro r info shader_info'
  refine ⟨?_, Map.find?_assign _ _ _⟩
  simp only [readControlFlow, readDeclaration, dclConstantBuffer, h2d, ok_bind]

/-- Witness of C8: range id 3 gives `lower_bound = 3`, `size = 1`. -/
theorem C8_cbuffer_2d_witness :
    (resourceOperand .INDEX_2D 3 0 0).m_IndexDimension = .INDEX_2D ∧
    (let r := (resourceOperand .INDEX_2D 3 0 0).m_Index0
     let info : ConstantBufferInfo :=
       { range := { range_id := r, lower_bound := r, size := 1, space := 0 },
         size_in_vec4 := 16 }
     let shader_info' : ShaderInfo :=
       { PassState.initial.shader_info with
         cbufferMap := Map.assign PassState.initial.shader_info.cbufferMap r info }
     readControlFlow sampleExternal sampleEnv (1 + 1)
         (CInstruction.dcl (.DCL_CONSTANT_BUFFER (resourceOperand .INDEX_2D 3 0 0) 16 0) ::
           [CInstruction.RET])
         PassState.initial (some 0) none none none (some 1) none =
       readControlFlow sampleExternal sampleEnv 1 [CInstruction.RET]
         { PassState.initial with shader_info := shader_info' }
         (some 0) none none none (some 1) none ∧
     Map.find? shader_info'.cbufferMap r = some info) ∧
    (Map.find? (Map.assign PassState.initial.shader_info.cbufferMap 3
        ({ range := { range_id := 3, lower_bound := 3, size := 1, space := 0 },
           size_in_vec4 := 16 } : ConstantBufferInfo)) 3).map
      (fun c => (c.range.lower_bound, c.range.size)) = some (3, 1) :=
  ⟨rfl,
    C8_cbuffer_2d sampleExternal sampleEnv (resourceOperand .INDEX_2D 3 0 0) 16 0
      [CInstruction.RET] PassState.initial (some 0) none none none (some 1) none 1 rfl,
    by decide⟩

/-- C9 (counterexample): in a shader of model 5.0, a typed SRV declaration whose
operand is 3-D-indexed with range id 7, lower bound 2 and upper bound
`0xFFFFFFFF` is recorded with `lower_bound = 7` and `size = 1`, not with
`lower_bound = 2` and the unbounded size. -/
theorem C9_counterexample :
    (resourceOperand .INDEX_3D 7 2 4294967295).m_IndexDimension = .INDEX_3D ∧
    (resourceOperand .INDEX_3D 7 2 4294967295).m_Index1 = 2 ∧
    (resourceOperand .INDEX_3D 7 2 4294967295).m_Index2 = UINT_MAX ∧
    ((readDeclaration sampleExternal sampleEnv
        (.DCL_RESOURCE (resourceOperand .INDEX_3D 7 2 4294967295) 0 0 0)
        PassState.initial).toOption.bind
      (fun st => (Map.find? st.shader_info.srvMap 7).map
        (fun srv => (srv.range.lower_bound, srv.range.size)))) = some (7, 1) := by
  decide

/-- C9 (amended): in a shader of model 5.1 or later, every SRV declaration
(typed, raw or structured) whose operand is 3-D-indexed with lower bound `l`
and upper bound `0xFFFFFFFF` is accepted and recorded under its range id with
`lower_bound = l` and `size = 0xFFFFFFFF`. -/
theorem C9_srv_unbounded (d : Declaration) (op0 : COperandBase) (st : PassState)
    (hd : d.isSRV op0) (hver : P.sm_ver_5_1_ = true)
    (_h3d : op0.m_IndexDimension = .INDEX_3D) (hupper : op0.m_Index2 = UINT_MAX) :
    ∃ (st' : PassState) (srv : ShaderResourceViewInfo),
      readDeclaration E P d st = .ok st' ∧
      Map.find? st'.shader_info.srvMap op0.m_Index0 = some srv ∧
      srv.range.range_id = op0.m_Index0 ∧
      srv.range.lower_bound = op0.m_Index1 ∧ srv.range.size = UINT_MAX := by
  have hr : viewRange P op0 = fun Space =>
      { range_id := op0.m_Index0, lower_bound := op0.m_Index1, size := UINT_MAX,
        space := Space } := by
    funext Space
    simp [viewRange, hver, RangeSize3D, hupper]
  rcases hd with ⟨Space, Dimension, ReturnType0, rfl⟩ | ⟨Space, rfl⟩ | ⟨Space, ByteStride, rfl⟩
  all_goals
    refine ⟨_, _, rfl, Map.find?_assign _ _ _, ?_, ?_, ?_⟩ <;> simp [hr]

/-- Witness of C9 (amended): lower bound 2, upper bound unset, model 5.1. -/
theorem C9_srv_unbounded_witness :
    (Declaration.DCL_RESOURCE (resourceOperand .INDEX_3D 7 2 4294967295) 0 0 0).isSRV
      (resourceOperand .INDEX_3D 7 2 4294967295) ∧
    sampleEnv51.sm_ver_5_1_ = true ∧
    (resourceOperand .INDEX_3D 7 2 4294967295).m_IndexDimension = .INDEX_3D ∧
    (resourceOperand .INDEX_3D 7 2 4294967295).m_Index2 = UINT_MAX ∧
    ∃ (st' : PassState) (srv : ShaderResourceViewInfo),
      readDeclaration sampleExternal sampleEnv51
        (.DCL_RESOURCE (resourceOperand .INDEX_3D 7 2 4294967295) 0 0 0) PassState.initial =
          .ok st' ∧
      Map.find? st'.shader_info.srvMap (resourceOperand .INDEX_3D 7 2 4294967295).m_Index0 =
        some srv ∧
      srv.range.range_id = (resourceOperand .INDEX_3D 7 2 4294967295).m_Index0 ∧
      srv.range.lower_bound = (resourceOperand .INDEX_3D 7 2 4294967295).m_Index1 ∧
      srv.range.size = UINT_MAX :=
  ⟨Or.inl ⟨0, 0, 0, rfl⟩, by decide, rfl, rfl,
    C9_srv_unbounded sampleExternal sampleEnv51 _ _ PassState.initial
      (Or.inl ⟨0, 0, 0, rfl⟩) (by decide) rfl rfl⟩

/-! ## The argument list and the binding table -/

/-- C10 (counterexample): in the stream `dcl_resource t0; dcl_constantbuffer
cb0; ret` the SRV is declared before the constant buffer, yet the argument list
and the binding table both list the constant buffer first. -/
theorem C10_counterexample :
    (SM50Initialize sampleExternal sampleEnv
        [.dcl (.DCL_RESOURCE (resourceOperand .INDEX_1D 0 0 0) 0 0 0),
         .dcl (.DCL_CONSTANT_BUFFER (resourceOperand .INDEX_2D 0 0 0) 4 0),
         .RET]).toOption.map
      (fun sm => (sm.args_reflection,
                  (binding_table sampleExternal sm.shader_info).map (fun e => e.name))) =
    some ([⟨.ConstantBuffer, 0⟩, ⟨.SRV, 0⟩], [("cb", 0), ("t", 0)]) := by
  decide

theorem pairwise_append_of_rank {α : Type} (r : α → Nat) (l1 l2 : List α) (n : Nat)
    (h1 : l1.Pairwise (fun a b => r a ≤ r b)) (h2 : l2.Pairwise (fun a b => r a ≤ r b))
    (hl1 : ∀ a ∈ l1, r a ≤ n) (hl2 : ∀ b ∈ l2, n ≤ r b) :
    (l1 ++ l2).Pairwise (fun a b => r a ≤ r b) := by
  rw [List.pairwise_append]
  exact ⟨h1, h2, fun a ha b hb => Nat.le_trans (hl1 a ha) (hl2 b hb)⟩

theorem pairwise_map_const {α β : Type} (r : β → Nat) (f : α → β) (l : List α) (n : Nat)
    (h : ∀ a, r (f a) = n) : (l.map f).Pairwise (fun a b => r a ≤ r b) := by
  rw [List.pairwise_map]
  exact List.pairwise_of_forall (fun a b => by rw [h a, h b])

theorem bindingType_of_mem_map (k : SM50BindingType) (l : List Nat)
    (a : MTL_SM50_SHADER_ARGUMENT)
    (ha : a ∈ l.map (fun range_id => (⟨k, range_id⟩ : MTL_SM50_SHADER_ARGUMENT))) :
    a.BindingType = k := by
  rw [List.mem_map] at ha
  obtain ⟨x, _, hx⟩ := ha
  rw [← hx]

/-- C10 (amended): whatever the stream, the argument list of a successful
`SM50Initialize` is grouped by resource kind in the fixed order constant
buffers, samplers, SRVs, UAVs, so an entry of an earlier kind precedes every
entry of a later kind; and the binding table of `convertDXBC` lists the same
(kind, range id) pairs in the same order, with the argument index
`GetArgumentIndex` gives each pair. -/
theorem C10_grouped_by_kind (code : List CInstruction) (sm : SM50ShaderInternal)
    (h : SM50Initialize E P code = .ok sm) :
    sm.args_reflection.Pairwise (fun a b => a.BindingType.rank ≤ b.BindingType.rank) ∧
    (binding_table E sm.shader_info).map (fun e => e.name) =
      sm.args_reflection.map (fun a => (a.BindingType.namePrefix, a.SM50BindingSlot)) ∧
    (binding_table E sm.shader_info).map (fun e => e.argument_index) =
      sm.args_reflection.map E.GetArgumentIndex := by
  have hargs : sm.args_reflection = args_reflection sm.shader_info := by
    simp only [SM50Initialize] at h
    cases hr : readControlFlow E P (code.length + 1) code PassState.initial (some 0) none none
        none (some 1) none with
    | error e => simp [hr, bind, Except.bind] at h
    | ok r =>
      obtain ⟨r1, r2, st⟩ := r
      simp only [hr, ok_bind, DXASSERT_DXBC] at h
      split at h
      · simp only [ok_bind, pure, Except.pure] at h
        cases h
        rfl
      · simp [bind, Except.bind] at h
  rw [hargs]
  refine ⟨?_, ?_, ?_⟩
  · simp only [args_reflection]
    refine pairwise_append_of_rank _ _ _ 2 (pairwise_append_of_rank _ _ _ 1
      (pairwise_append_of_rank _ _ _ 0 ?_ ?_ ?_ ?_) ?_ ?_ ?_) ?_ ?_ ?_
    all_goals first
      | exact pairwise_map_const _ _ _ _ (fun _ => rfl)
      | (intro a ha
         rw [bindingType_of_mem_map _ _ _ ha]
         decide)
      | (intro a ha
         rw [List.mem_append] at ha
         rcases ha with ha | ha <;> rw [bindingType_of_mem_map _ _ _ ha] <;> decide)
      | (intro a ha
         rw [List.mem_append, List.mem_append] at ha
         rcases ha with (ha | ha) | ha <;> rw [bindingType_of_mem_map _ _ _ ha] <;> decide)
  · simp [binding_table, args_reflection, Map.keys, ArgumentBufferDefinition.name,
      SM50BindingType.namePrefix, Function.comp_def]
  · simp [binding_table, args_reflection, Map.keys, ArgumentBufferDefinition.argument_index,
      Function.comp_def]

/-- Witness of C10 (amended) on `dcl_resource t0; dcl_constantbuffer cb0; ret`. -/
theorem C10_grouped_by_kind_witness :
    ∃ sm, SM50Initialize sampleExternal sampleEnv
        [.dcl (.DCL_RESOURCE (resourceOperand .INDEX_1D 0 0 0) 0 0 0),
         .dcl (.DCL_CONSTANT_BUFFER (resourceOperand .INDEX_2D 0 0 0) 4 0),
         .RET] = .ok sm ∧
      sm.args_reflection.Pairwise (fun a b => a.BindingType.rank ≤ b.BindingType.rank) ∧
      (binding_table sampleExternal sm.shader_info).map (fun e => e.name) =
        sm.args_reflection.map (fun a => (a.BindingType.namePrefix, a.SM50BindingSlot)) ∧
      (binding_table sampleExternal sm.shader_info).map (fun e => e.argument_index) =
        sm.args_reflection.map sampleExternal.GetArgumentIndex := by
  have hok : (SM50Initialize sampleExternal sampleEnv
        [.dcl (.DCL_RESOURCE (resourceOperand .INDEX_1D 0 0 0) 0 0 0),
         .dcl (.DCL_CONSTANT_BUFFER (resourceOperand .INDEX_2D 0 0 0) 4 0),
         .RET]).toBool = true := by decide
  cases h : SM50Initialize sampleExternal sampleEnv
        [.dcl (.DCL_RESOURCE (resourceOperand .INDEX_1D 0 0 0) 0 0 0),
         .dcl (.DCL_CONSTANT_BUFFER (resourceOperand .INDEX_2D 0 0 0) 4 0),
         .RET] with
  | error e =>
    rw [h] at hok
    cases hok
  | ok sm => exact ⟨sm, rfl, C10_grouped_by_kind sampleExternal sampleEnv _ sm h⟩

/-! ## The reflection data -/

theorem bind_eq_ok {α β : Type} (m : Except DecodeError α) (f : α → Except DecodeError β)
    (b : β) (h : (m >>= f) = .ok b) : ∃ a, m = .ok a ∧ f a = .ok b := by
  cases m with
  | error e => cases h
  | ok a => exact ⟨a, rfl, h⟩

theorem DXASSERT_DXBC_ok (c : Bool) (u : Unit) (h : DXASSERT_DXBC c = .ok u) : c = true := by
  unfold DXASSERT_DXBC at h
  split at h
  · assumption
  · cases h

theorem SM50Initialize_ok (code : List CInstruction) (sm : SM50ShaderInternal)
    (h : SM50Initialize E P code = .ok sm) :
    ∃ code1 st,
      readControlFlow E P (code.length + 1) code PassState.initial (some 0) none none none
        (some 1) none = .ok (some 1, code1, st) ∧
      sm = { shader_info := st.shader_info
             func_signature := st.func_signature
             entry := some 0
             return_point := some 1
             blocks := st.blocks
             prelogue_ := st.prelogue_
             epilogue_ := st.epilogue_
             shader_type := P.ShaderType
             max_input_register := st.max_input_register
             max_output_register := st.max_output_register
             args_reflection := args_reflection st.shader_info
             threadgroup_size := st.threadgroup_size } := by
  simp only [SM50Initialize] at h
  obtain ⟨⟨r, code1, st⟩, hr, h⟩ := bind_eq_ok _ _ _ h
  obtain ⟨u, hu, h⟩ := bind_eq_ok _ _ _ h
  have hr1 := DXASSERT_DXBC_ok _ _ hu
  simp only [beq_iff_eq] at hr1
  subst hr1
  cases h
  exact ⟨code1, st, hr, rfl⟩

theorem Map.length_assign_pos {V : Type} (m : Map V) (k : Nat) (v : V) :
    0 < (Map.assign m k v).length := by
  cases m with
  | nil => simp [Map.assign]
  | cons a m =>
    obtain ⟨k1, v1⟩ := a
    simp only [Map.assign]
    split
    · simp
    · split <;> simp

/-- C11: after a successful `SM50Initialize`, `NumArguments` is the total
number of entries of the four maps (constant buffers, samplers, SRVs, UAVs);
the reported `ArgumentBufferBindIndex` is 30 exactly when that number is
positive and is `~0u` when it is zero; and `convertDXBC` adds the binding-table
input at location 30 to the signature in exactly the same case, leaving the
signature alone and the index at `~0u` otherwise.  Every accepted declaration
of one of the four kinds leaves an entry in its map. -/
theorem C11_bind_index (code : List CInstruction) (sm : SM50ShaderInternal)
    (h : SM50Initialize E P code = .ok sm) :
    sm.reflection.NumArguments = sm.shader_info.numBindings ∧
    (sm.reflection.ArgumentBufferBindIndex = 30 ↔ 0 < sm.shader_info.numBindings) ∧
    (sm.shader_info.numBindings = 0 → sm.reflection.ArgumentBufferBindIndex = UINT_MAX) ∧
    (0 < sm.shader_info.numBindings →
      defineBindingTable E sm =
        E.DefineInput sm.func_signature (.ArgumentBindingIndirectBuffer 30 1 "binding_table")) ∧
    (sm.shader_info.numBindings = 0 →
      defineBindingTable E sm = (UINT_MAX, sm.func_signature)) ∧
    (∀ d st st1, d.isBinding = true → readDeclaration E P d st = .ok st1 →
      0 < st1.shader_info.numBindings) := by
  obtain ⟨code1, st, -, hsm⟩ := SM50Initialize_ok E P code sm h
  have hlen : sm.args_reflection.length = sm.shader_info.numBindings := by
    rw [hsm]
    simp [args_reflection, ShaderInfo.numBindings, Map.keys, Nat.add_assoc]
  have htab : (binding_table E sm.shader_info).length = sm.shader_info.numBindings := by
    simp [binding_table, ShaderInfo.numBindings, Nat.add_assoc]
  refine ⟨?_, ?_, ?_, ?_, ?_, ?_⟩
  · simp only [SM50ShaderInternal.reflection, hlen]
  · simp only [SM50ShaderInternal.reflection, hlen]
    constructor
    · intro h30
      split at h30
      · assumption
      · simp [UINT_MAX] at h30
    · intro hpos
      simp [hpos]
  · intro h0
    simp [SM50ShaderInternal.reflection, hlen, h0]
  · intro hpos
    have hne : binding_table E sm.shader_info ≠ [] := by
      intro hnil
      rw [hnil] at htab
      simp at htab
      omega
    simp [defineBindingTable, hne]
  · intro h0
    have hnil : binding_table E sm.shader_info = [] := by
      rw [← List.length_eq_zero, htab, h0]
    simp [defineBindingTable, hnil]
  · intro d st st1 hd hdecl
    cases d <;> try (simp [Declaration.isBinding] at hd; done)
    all_goals simp only [readDeclaration, dclConstantBuffer, dclSampler, PassState.setSrv,
        PassState.setUav] at hdecl
    · split at hdecl <;> cases hdecl <;>
        exact Nat.add_pos_left (Nat.add_pos_left (Nat.add_pos_left
          (Map.length_assign_pos _ _ _) _) _) _
    · split at hdecl <;> cases hdecl <;>
        exact Nat.add_pos_left (Nat.add_pos_left (Nat.add_pos_right _
          (Map.length_assign_pos _ _ _)) _) _
    all_goals
      cases hdecl
      first
        | exact Nat.add_pos_left (Nat.add_pos_right _ (Map.length_assign_pos _ _ _)) _
        | exact Nat.add_pos_right _ (Map.length_assign_pos _ _ _)

/-- Witness of C11 on `dcl_resource t0; dcl_constantbuffer cb0; ret`. -/
theorem C11_bind_index_witness :
    ∃ sm, SM50Initialize sampleExternal sampleEnv
        [.dcl (.DCL_RESOURCE (resourceOperand .INDEX_1D 0 0 0) 0 0 0),
         .dcl (.DCL_CONSTANT_BUFFER (resourceOperand .INDEX_2D 0 0 0) 4 0),
         .RET] = .ok sm ∧
      sm.reflection.NumArguments = 2 ∧ sm.reflection.ArgumentBufferBindIndex = 30 := by
  have hok : (SM50Initialize sampleExternal sampleEnv
        [.dcl (.DCL_RESOURCE (resourceOperand .INDEX_1D 0 0 0) 0 0 0),
         .dcl (.DCL_CONSTANT_BUFFER (resourceOperand .INDEX_2D 0 0 0) 4 0),
         .RET]).toBool = true := by decide
  cases h : SM50Initialize sampleExternal sampleEnv
        [.dcl (.DCL_RESOURCE (resourceOperand .INDEX_1D 0 0 0) 0 0 0),
         .dcl (.DCL_CONSTANT_BUFFER (resourceOperand .INDEX_2D 0 0 0) 4 0),
         .RET] with
  | error e =>
    rw [h] at hok
    cases hok
  | ok sm =>
    have hc := C11_bind_index sampleExternal sampleEnv _ sm h
    have h2 : sm.shader_info.numBindings = 2 := by
      have hv : (SM50Initialize sampleExternal sampleEnv
        [.dcl (.DCL_RESOURCE (resourceOperand .INDEX_1D 0 0 0) 0 0 0),
         .dcl (.DCL_CONSTANT_BUFFER (resourceOperand .INDEX_2D 0 0 0) 4 0),
         .RET]).toOption.map (fun sm => sm.shader_info.numBindings) = some 2 := by decide
      rw [h] at hv
      exact Option.some.inj hv
    exact ⟨sm, rfl, hc.1.trans h2, hc.2.1.2 (by omega)⟩

/-! ## Tokens after an accepted prefix -/

theorem readControlFlow_dcl (d : Declaration) (fuel : Nat) (code : List CInstruction)
    (st : PassState) (ctx bae cp bp rp sw : Option Nat) :
    readControlFlow E P (fuel + 1) (.dcl d :: code) st ctx bae cp bp rp sw =
      (readDeclaration E P d st >>= fun st1 =>
        readControlFlow E P fuel code st1 ctx bae cp bp rp sw) := by
  simp only [readControlFlow]

theorem readControlFlow_after (p : Prog) (rest : List CInstruction) (fuel : Nat)
    (st : PassState) (b : Nat) (bae cp bp rp sw : Option Nat)
    (hf : (flatten p).length ≤ fuel) (hs : bp.isSome ∨ bae.isSome ∨ p.noTopRet = true)
    (hb : b < st.blocks.length) (hsw : ∀ s, sw = some s → s < st.switches.length)
    (hwf : p.wf E P sw.isSome = true) :
    ∃ b1 st1, run E P p st (some b) bae cp bp rp sw = .ok (some b1, st1) ∧
      b1 < st1.blocks.length ∧ (b1 = b ∨ st.blocks.length ≤ b1) ∧ Only b sw st st1 ∧
      readControlFlow E P fuel (flatten p ++ rest) st (some b) bae cp bp rp sw =
        readControlFlow E P (fuel - p.ntop) rest st1 (some b1) bae cp bp rp sw := by
  obtain ⟨b1, st1, hrun, h1, h2, h3⟩ := run_ok E P p st b bae cp bp rp sw hb hsw hwf
  refine ⟨b1, st1, hrun, h1, h2, h3, ?_⟩
  rw [readControlFlow_flatten E P p fuel rest st (some b) bae cp bp rp sw hf hs, hrun]
  rfl

theorem SM50Initialize_error (code : List CInstruction) (e : DecodeError)
    (h : readControlFlow E P (code.length + 1) code PassState.initial (some 0) none none none
      (some 1) none = .error e) :
    SM50Initialize E P code = .error e := by
  simp only [SM50Initialize, h]
  rfl

theorem SM50Initialize_error_after (p : Prog) (tok : CInstruction) (code : List CInstruction)
    (e : DecodeError) (hwf : p.wf E P false = true) (hnr : p.noTopRet = true)
    (htok : ∀ fuel st ctx,
      readControlFlow E P (fuel + 1) (tok :: code) st ctx none none none (some 1) none =
        .error e) :
    SM50Initialize E P (flatten p ++ tok :: code) = .error e := by
  apply SM50Initialize_error
  obtain ⟨b1, st1, -, -, -, -, heq⟩ := readControlFlow_after E P p (tok :: code)
    ((flatten p ++ tok :: code).length + 1) PassState.initial 0 none none none (some 1) none
    (by simp; omega) (Or.inr (Or.inr hnr)) (by decide) (by intro s hs; cases hs) hwf
  rw [heq]
  have hn := ntop_le_length p
  obtain ⟨f, hf⟩ : ∃ f, (flatten p ++ tok :: code).length + 1 - p.ntop = f + 1 :=
    ⟨(flatten p ++ tok :: code).length - p.ntop, by simp; omega⟩
  rw [hf]
  exact htok f st1 (some b1)

/-! ## Thread-group shared memory -/

theorem land_three (a : Nat) : Nat.land a 3 = a % 4 :=
  Nat.and_pow_two_sub_one_eq_mod a 2

/-- C12: a raw thread-group-shared-memory declaration whose byte count is not a
multiple of 4 makes the walk fail (an assertion), so no state and no `tgsmMap`
entry results, and so does the whole build after any accepted prefix; with a
byte count that is a multiple of 4 the walk goes on with `tgsmMap[id]` set to
the record with stride 1, size the byte count, `size_in_uint` a quarter of it,
and `structured` false, which is what a lookup of the id then returns. -/
theorem C12_tgsm_raw (op0 : COperandBase) (ByteCount : Nat) (fuel : Nat)
    (code : List CInstruction) (st : PassState) (ctx bae cp bp rp sw : Option Nat) :
    readControlFlow E P (fuel + 1)
        (.dcl (.DCL_THREAD_GROUP_SHARED_MEMORY_RAW op0 ByteCount) :: code) st ctx bae cp bp rp
        sw =
      (if ByteCount % 4 = 0 then
        readControlFlow E P fuel code
          { st with shader_info := { st.shader_info with
              tgsmMap := Map.assign st.shader_info.tgsmMap op0.m_Index0
                { stride := 1, size := ByteCount, size_in_uint := ByteCount / 4,
                  structured := false } } }
          ctx bae cp bp rp sw
      else .error .assertionFailed) ∧
    Map.find? (Map.assign st.shader_info.tgsmMap op0.m_Index0
        ({ stride := 1, size := ByteCount, size_in_uint := ByteCount / 4,
           structured := false } : ThreadgroupBufferInfo)) op0.m_Index0 =
      some { stride := 1, size := ByteCount, size_in_uint := ByteCount / 4,
             structured := false } ∧
    (∀ p : Prog, p.wf E P false = true → p.noTopRet = true → ByteCount % 4 ≠ 0 →
      SM50Initialize E P
          (flatten p ++ .dcl (.DCL_THREAD_GROUP_SHARED_MEMORY_RAW op0 ByteCount) :: code) =
        .error .assertionFailed) := by
  have hstep : ∀ (fuel : Nat) (st : PassState) (ctx bae cp bp rp sw : Option Nat),
      readControlFlow E P (fuel + 1)
        (.dcl (.DCL_THREAD_GROUP_SHARED_MEMORY_RAW op0 ByteCount) :: code) st ctx bae cp bp rp
        sw =
      (if ByteCount % 4 = 0 then
        readControlFlow E P fuel code
          { st with shader_info := { st.shader_info with
              tgsmMap := Map.assign st.shader_info.tgsmMap op0.m_Index0
                { stride := 1, size := ByteCount, size_in_uint := ByteCount / 4,
                  structured := false } } }
          ctx bae cp bp rp sw
      else .error .assertionFailed) := by
    intro fuel st ctx bae cp bp rp sw
    rw [readControlFlow_dcl]
    simp only [readDeclaration, dclThreadGroupSharedMemory, if_true, land_three]
    split <;> rfl
  refine ⟨hstep fuel st ctx bae cp bp rp sw, Map.find?_assign _ _ _, ?_⟩
  intro p hwf hnr hbc
  apply SM50Initialize_error_after E P p _ code _ hwf hnr
  intro fuel st ctx
  rw [hstep, if_neg hbc]

/-- Witness of C12: byte count 6 after the empty prefix. -/
theorem C12_tgsm_raw_witness :
    SM50Initialize sampleExternal sampleEnv
      (flatten .done ++
        .dcl (.DCL_THREAD_GROUP_SHARED_MEMORY_RAW (resourceOperand .INDEX_1D 0 0 0) 6) ::
        [.RET]) = .error .assertionFailed :=
  (C12_tgsm_raw sampleExternal sampleEnv (resourceOperand .INDEX_1D 0 0 0) 6 0 [.RET]
    PassState.initial none none none none none none).2.2 .done (by decide) (by decide)
    (by decide)

/-! ## Declarations of other shader stages -/

/-- C16 (counterexample): the stream `dcl_gsinputprimitive; ret` holds a
geometry-shader-only declaration, yet the build succeeds, and with the same
result as the stream `ret`. -/
theorem C16_counterexample :
    (SM50Initialize sampleExternal sampleEnv
        [.dcl (.ignored .DCL_GS_INPUT_PRIMITIVE), .RET]).toBool = true ∧
    SM50Initialize sampleExternal sampleEnv [.dcl (.ignored .DCL_GS_INPUT_PRIMITIVE), .RET] =
      SM50Initialize sampleExternal sampleEnv [.RET] :=
  ⟨by decide, rfl⟩

/-- C16 (amended): a geometry-, hull- or domain-shader-only declaration opcode
of the list the walk ignores is skipped: the walk goes on with the next token
in the same state and context, as if the token were absent.  The
declarations `DCL_INPUT_SIV` and `DCL_OUTPUT_SGV` make the walk fail. -/
theorem C16_ignored_skipped (opcode : IgnoredOpcode) (fuel : Nat) (code : List CInstruction)
    (st : PassState) (ctx bae cp bp rp sw : Option Nat) :
    readControlFlow E P (fuel + 1) (.dcl (.ignored opcode) :: code) st ctx bae cp bp rp sw =
      readControlFlow E P fuel code st ctx bae cp bp rp sw ∧
    readControlFlow E P (fuel + 1) (.dcl .DCL_INPUT_SIV :: code) st ctx bae cp bp rp sw =
      .error .assertionFailed ∧
    readControlFlow E P (fuel + 1) (.dcl .DCL_OUTPUT_SGV :: code) st ctx bae cp bp rp sw =
      .error .assertionFailed := by
  refine ⟨?_, ?_, ?_⟩ <;> rw [readControlFlow_dcl] <;> rfl

/-! ## ELSE and ENDIF without an open IF -/

theorem readControlFlow_no_merge_target (tok : CInstruction)
    (htok : tok = .ELSE ∨ tok = .ENDIF) (fuel : Nat) (code : List CInstruction)
    (st : PassState) (ctx cp bp rp sw : Option Nat) :
    readControlFlow E P (fuel + 1) (tok :: code) st ctx none cp bp rp sw =
      .error .assertionFailed := by
  rcases htok with rfl | rfl <;> simp [readControlFlow, DXASSERT_DXBC] <;> rfl

theorem readControlFlow_no_merge_target_after (tok : CInstruction)
    (htok : tok = .ELSE ∨ tok = .ENDIF) (p : Prog) (code : List CInstruction) (fuel : Nat)
    (st : PassState) (b : Nat) (cp bp rp sw : Option Nat)
    (hf : (flatten p).length < fuel) (hs : bp.isSome ∨ p.noTopRet = true)
    (hb : b < st.blocks.length) (hsw : ∀ s, sw = some s → s < st.switches.length)
    (hwf : p.wf E P sw.isSome = true) :
    readControlFlow E P fuel (flatten p ++ tok :: code) st (some b) none cp bp rp sw =
      .error .assertionFailed := by
  obtain ⟨b1, st1, -, -, -, -, heq⟩ := readControlFlow_after E P p (tok :: code) fuel st b
    none cp bp rp sw (by omega) (by rcases hs with h | h; exact Or.inl h; exact Or.inr (Or.inr h))
    hb hsw hwf
  rw [heq]
  have hn := ntop_le_length p
  obtain ⟨f, hf1⟩ : ∃ f, fuel - p.ntop = f + 1 := ⟨fuel - p.ntop - 1, by omega⟩
  rw [hf1]
  exact readControlFlow_no_merge_target E P tok htok f code st1 _ cp bp rp sw

/-- C18: an ELSE or ENDIF token met while the merge target is absent makes the
walk fail, after any accepted sequence of the same scope: at top level (then
the build fails), and directly inside the body of a LOOP or of a SWITCH,
whatever merge target the LOOP or SWITCH itself was met with.  When the merge
target `m` is present, ENDIF sets the terminator of the current block to
`Unconditional(m)`, leaves the other blocks alone and returns `m`. -/
theorem C18_else_endif (tok : CInstruction) (htok : tok = .ELSE ∨ tok = .ENDIF)
    (p : Prog) (code : List CInstruction) (fuel : Nat) (st : PassState) (b m : Nat)
    (bae cp bp rp sw : Option Nat)
    (hf : (flatten p).length + 1 < fuel) (hb : b < st.blocks.length) :
    (p.wf E P false = true → p.noTopRet = true →
      SM50Initialize E P (flatten p ++ tok :: code) = .error .assertionFailed) ∧
    (p.wf E P false = true →
      readControlFlow E P fuel (.LOOP :: (flatten p ++ tok :: code)) st (some b) bae cp bp rp sw =
        .error .assertionFailed) ∧
    (p.wf E P true = true →
      readControlFlow E P fuel (.SWITCH :: (flatten p ++ tok :: code)) st (some b) bae cp bp rp
        sw = .error .assertionFailed) ∧
    readControlFlow E P fuel (.ENDIF :: code) st (some b) (some m) cp bp rp sw =
      .ok (some m, code,
        { st with blocks := updateAt (BasicBlock.setTarget (.unconditional (some m)))
                    st.blocks b }) ∧
    ((updateAt (BasicBlock.setTarget (.unconditional (some m))) st.blocks b)[b]?.map
        (fun blk => blk.target) = some (.unconditional (some m))) ∧
    (∀ i, i ≠ b →
      (updateAt (BasicBlock.setTarget (.unconditional (some m))) st.blocks b)[i]? =
        st.blocks[i]?) := by
  obtain ⟨f, rfl⟩ : ∃ f, fuel = f + 1 := ⟨fuel - 1, by omega⟩
  refine ⟨?_, ?_, ?_, ?_, ?_, ?_⟩
  · intro hwf hnr
    exact SM50Initialize_error_after E P p tok code _ hwf hnr
      (fun fuel st ctx => readControlFlow_no_merge_target E P tok htok fuel code st ctx _ _ _ _)
  · intro hwf
    have key := fun st2 hb2 => readControlFlow_no_merge_target_after E P tok htok p code f st2
      st.blocks.length (some st.blocks.length) (some (st.blocks.length + 1)) rp none
      (by omega) (Or.inl rfl) hb2 (by intro s hs; cases hs) hwf
    simp only [readControlFlow, PassState.setTarget, ok_bind, newBlock_fst, newBlock_length]
    rw [key _ ?_]
    · rfl
    · simp [PassState.newBlock, updateAt_length]
  · intro hwf
    have key := fun st2 hb2 hsw2 => readControlFlow_no_merge_target_after E P tok htok p code f
      st2 (st.blocks.length + 1) cp (some st.blocks.length) rp (some st.switches.length)
      (by omega) (Or.inl rfl) hb2 hsw2 hwf
    simp only [readControlFlow, newBlock_fst, newBlock_length, newSwitch_fst, newSwitch_blocks,
      newBlock_switches]
    rw [key _ ?_ ?_]
    · rfl
    · simp [PassState.newBlock, PassState.newSwitch]
    · intro s hs
      cases hs
      simp [PassState.newBlock, PassState.newSwitch]
  · rw [readControlFlow_ENDIF E P _ code st (some b) cp bp rp sw m (by omega)]
    rfl
  · rw [updateAt_getElem?_eq]
    obtain ⟨blk, hblk⟩ : ∃ blk, st.blocks[b]? = some blk :=
      ⟨st.blocks[b], List.getElem?_eq_getElem hb⟩
    simp [hblk, BasicBlock.setTarget]
  · intro i hi
    exact updateAt_getElem?_ne _ _ _ _ hi

/-- Witness of C18: an ENDIF directly inside a LOOP body that follows one
ordinary instruction, and the same at top level. -/
theorem C18_else_endif_witness :
    SM50Initialize sampleExternal sampleEnv
        (flatten (.flat (.other 7) .done) ++ .ENDIF :: [.RET]) = .error .assertionFailed ∧
    readControlFlow sampleExternal sampleEnv 9
        (.LOOP :: (flatten (.flat (.other 7) .done) ++ .ENDIF :: [.RET])) PassState.initial
        (some 0) (some 1) none none none none = .error .assertionFailed :=
  have h := C18_else_endif sampleExternal sampleEnv .ENDIF (Or.inr rfl) (.flat (.other 7) .done)
    [.RET] 9 PassState.initial 0 1 (some 1) none none none none (by decide) (by decide)
  ⟨h.1 (by decide) (by decide), h.2.1 (by decide)⟩

/-! ## Immediate constant buffer -/

theorem readVec4_length (pData : List Nat) (n : Nat) : (readVec4 pData n).length = n := by
  simp [readVec4]

theorem readVec4_succ (a b c d : Nat) (pData : List Nat) (n : Nat) :
    readVec4 (a :: b :: c :: d :: pData) (n + 1) = (a, b, c, d) :: readVec4 pData n := by
  simp only [readVec4, List.range_succ_eq_map, List.map_cons, List.map_map]
  congr 1

theorem readVec4_flatten (n : Nat) :
    ∀ pData : List Nat, pData.length = 4 * n →
      (readVec4 pData n).flatMap (fun v => [v.1, v.2.1, v.2.2.1, v.2.2.2]) = pData := by
  induction n with
  | zero =>
    intro pData h
    simp at h
    simp [readVec4, h]
  | succ n ih =>
    intro pData h
    match pData, h with
    | a :: b :: c :: d :: rest, h =>
      rw [readVec4_succ]
      simp only [List.flatMap_cons, List.cons_append, List.nil_append]
      rw [ih rest (by simp at h; omega)]

/-- C19: an immediate-constant-buffer custom-data block of `n` bytes (a 32-bit
size) makes the walk fail when `n` is not a multiple of 16; otherwise the walk
goes on with `immConstantBufferData` replaced, whatever it held, by `n / 16`
4-tuples read from the payload, and for a payload of `n / 4` words these
tuples laid end to end are the payload itself. -/
theorem C19_icb (n : Nat) (pData : List Nat) (hn : n < 4294967296) (fuel : Nat)
    (code : List CInstruction) (st : PassState) (ctx bae cp bp rp sw : Option Nat) :
    readControlFlow E P (fuel + 1)
        (.dcl (.CUSTOMDATA .DCL_IMMEDIATE_CONSTANT_BUFFER n pData) :: code) st ctx bae cp bp rp
        sw =
      (if n % 16 = 0 then
        readControlFlow E P fuel code
          { st with shader_info := { st.shader_info with
              immConstantBufferData := readVec4 pData (n / 16) } }
          ctx bae cp bp rp sw
      else .error .assertionFailed) ∧
    (readVec4 pData (n / 16)).length = n / 16 ∧
    (n % 16 = 0 → pData.length = n / 4 →
      (readVec4 pData (n / 16)).flatMap (fun v => [v.1, v.2.1, v.2.2.1, v.2.2.2]) = pData) := by
  refine ⟨?_, readVec4_length _ _, ?_⟩
  · rw [readControlFlow_dcl]
    simp only [readDeclaration, customData, if_true, Nat.shiftRight_eq_div_pow, u32]
    have hc : (n = n / 2 ^ 4 * 16 % 4294967296) ↔ n % 16 = 0 := by
      norm_num
      omega
    by_cases h16 : n % 16 = 0
    · rw [if_pos (hc.2 h16), if_pos h16]
      rfl
    · rw [if_neg (fun h => h16 (hc.1 h)), if_neg h16]
      rfl
  · intro h16 hlen
    exact readVec4_flatten (n / 16) pData (by omega)

/-- Witness of C19: a block of 32 bytes holding the words 1 to 8. -/
theorem C19_icb_witness :
    (readVec4 [1, 2, 3, 4, 5, 6, 7, 8] (32 / 16)).flatMap
      (fun v => [v.1, v.2.1, v.2.2.1, v.2.2.2]) = [1, 2, 3, 4, 5, 6, 7, 8] :=
  (C19_icb sampleExternal sampleEnv 32 [1, 2, 3, 4, 5, 6, 7, 8] (by decide) 0 []
    PassState.initial none none none none none none).2.2 (by decide) (by decide)

/-! ## Scopes closed by the wrong token -/

/-- C15: on the stream `LOOP; ENDSWITCH; RET` the build succeeds although the
LOOP body is closed by ENDSWITCH: the blocks are entry (0), return (1), loop
entry (2) and `after_loop` (3); the loop-entry block ends with
`Unconditional(3)`, an edge from inside the body into `after_loop`, and there
is no back-edge to block 2. -/
theorem C15_loop_closed_by_endswitch :
    (SM50Initialize E P [.LOOP, .ENDSWITCH, .RET]).toOption.map
        (fun sm => sm.blocks.map (fun b => (b.debug_name, b.target))) =
      some [(.entrybb, .unconditional (some 2)), (.returnbb, .ret),
            (.loop_entrance, .unconditional (some 3)),
            (.endloop, .unconditional (some 1))] := by
  rfl

/-- C17: on the stream `LOOP; IF c; ENDLOOP; ENDLOOP; RET` the build succeeds.
When the walk comes to the final RET it is appending to block 3 (`after_loop`),
which the second ENDLOOP has already given the terminator `Unconditional(2)`;
RET assigns it again, so the graph returned has `Unconditional(1)` on block 3,
and block 5 (`if_alternative`) is left without a terminator. -/
theorem C17_terminator_assigned_twice :
    readControlFlow E P 6 [.LOOP, .IF 1, .ENDLOOP, .ENDLOOP, .RET] PassState.initial (some 0)
        none none none (some 1) none =
      readControlFlow E P 5 [.RET]
        { PassState.initial with
          blocks := [⟨.entrybb, [], .unconditional (some 2)⟩, ⟨.returnbb, [], .ret⟩,
                     ⟨.loop_entrance, [],
                      .conditional (E.readCondition 1) (some 4) (some 5)⟩,
                     ⟨.endloop, [], .unconditional (some 2)⟩,
                     ⟨.if_true, [], .unconditional (some 2)⟩,
                     ⟨.if_alternative, [], .undefined⟩] }
        (some 3) none none none (some 1) none ∧
    (SM50Initialize E P [.LOOP, .IF 1, .ENDLOOP, .ENDLOOP, .RET]).toOption.map
        (fun sm => sm.blocks.map (fun b => (b.debug_name, b.target))) =
      some [(.entrybb, .unconditional (some 2)), (.returnbb, .ret),
            (.loop_entrance, .conditional (E.readCondition 1) (some 4) (some 5)),
            (.endloop, .unconditional (some 1)),
            (.if_true, .unconditional (some 2)),
            (.if_alternative, .undefined)] :=
  ⟨rfl, rfl⟩

/-! ## End of the stream -/

theorem scope_cases (bae bp : Option Nat) (p : Prog)
    (h : ((bp.isSome || bae.isSome) || p.noTopRet) = true) :
    bp.isSome ∨ bae.isSome ∨ p.noTopRet = true := by
  cases bp <;> cases bae <;> simp_all

theorem readControlFlow_unfinished (u : Unfinished) :
    ∀ (fuel : Nat) (st : PassState) (b : Nat) (bae cp bp rp sw : Option Nat),
      u.tokens.length < fuel → b < st.blocks.length →
      (∀ s, sw = some s → s < st.switches.length) →
      u.wf E P (bp.isSome || bae.isSome) sw.isSome = true →
      readControlFlow E P fuel u.tokens st (some b) bae cp bp rp sw =
        .error .unexpectedEndOfShader := by
  induction u with
  | here p =>
    intro fuel st b bae cp bp rp sw hf hb hsw hwf
    simp only [Unfinished.wf, Bool.and_eq_true] at hwf
    simp only [Unfinished.tokens] at hf ⊢
    obtain ⟨b1, st1, -, -, -, -, heq⟩ := readControlFlow_after E P p [] fuel st b bae cp bp rp sw
      (by omega) (scope_cases _ _ _ hwf.2) hb hsw hwf.1
    rw [List.append_nil] at heq
    rw [heq]
    have hn := ntop_le_length p
    obtain ⟨f, hf1⟩ : ∃ f, fuel - p.ntop = f + 1 := ⟨fuel - p.ntop - 1, by omega⟩
    rw [hf1]
    rfl
  | inIf p inst u ih =>
    intro fuel st b bae cp bp rp sw hf hb hsw hwf
    simp only [Unfinished.wf, Bool.and_eq_true] at hwf
    simp only [Unfinished.tokens, List.length_append, List.length_cons] at hf ⊢
    obtain ⟨b1, st1, -, hb1, -, -, heq⟩ := readControlFlow_after E P p (.IF inst :: u.tokens)
      fuel st b bae cp bp rp sw (by omega) (scope_cases _ _ _ hwf.1.2) hb hsw hwf.1.1
    rw [heq]
    have hn := ntop_le_length p
    obtain ⟨f, hf1⟩ : ∃ f, fuel - p.ntop = f + 1 := ⟨fuel - p.ntop - 1, by omega⟩
    rw [hf1]
    simp only [readControlFlow, PassState.setTarget, ok_bind, newBlock_fst, newBlock_length]
    rw [ih f _ st1.blocks.length (some (st1.blocks.length + 1)) cp bp rp none (by omega)
      (by simp [PassState.newBlock, updateAt_length]) (by intro s hs; cases hs)
      (by simpa using hwf.2)]
    rfl
  | inElse p inst a u ih =>
    intro fuel st b bae cp bp rp sw hf hb hsw hwf
    simp only [Unfinished.wf, Bool.and_eq_true] at hwf
    simp only [Unfinished.tokens, List.length_append, List.length_cons] at hf ⊢
    obtain ⟨b1, st1, -, hb1, -, -, heq⟩ := readControlFlow_after E P p
      (.IF inst :: (flatten a ++ .ELSE :: u.tokens))
      fuel st b bae cp bp rp sw (by omega) (scope_cases _ _ _ hwf.1.1.2) hb hsw hwf.1.1.1
    rw [heq]
    have hn := ntop_le_length p
    obtain ⟨f, hf1⟩ : ∃ f, fuel - p.ntop = f + 1 := ⟨fuel - p.ntop - 1, by omega⟩
    rw [hf1]
    simp only [readControlFlow, PassState.setTarget, ok_bind, newBlock_fst, newBlock_length]
    obtain ⟨b2, st2, -, hb2, -, hon, heq2⟩ := readControlFlow_after E P a (.ELSE :: u.tokens) f
      { ((st1.newBlock .if_true).2.newBlock .if_alternative).2 with
        blocks := updateAt (BasicBlock.setTarget (.conditional (E.readCondition inst)
          (some st1.blocks.length) (some (st1.blocks.length + 1))))
          ((st1.newBlock .if_true).2.newBlock .if_alternative).2.blocks b1 }
      st1.blocks.length (some (st1.blocks.length + 1)) cp bp rp none (by omega)
      (Or.inr (Or.inl rfl)) (by simp [PassState.newBlock, updateAt_length])
      (by intro s hs; cases hs) hwf.1.2
    rw [heq2]
    have hn2 := ntop_le_length a
    have hlen : st1.blocks.length + 2 ≤ st2.blocks.length := by
      have := hon.1
      simpa [PassState.newBlock, updateAt_length] using this
    rw [readControlFlow_ELSE E P _ _ st2 (some b2) cp bp rp none _ (by omega)]
    simp only [PassState.setTarget, ok_bind, newBlock_fst]
    rw [ih _ _ (st1.blocks.length + 1) (some st2.blocks.length) cp bp rp none (by omega)
      (by simp [PassState.newBlock, updateAt_length]; omega) (by intro s hs; cases hs)
      (by simpa using hwf.2)]
    rfl
  | inLoop p u ih =>
    intro fuel st b bae cp bp rp sw hf hb hsw hwf
    simp only [Unfinished.wf, Bool.and_eq_true] at hwf
    simp only [Unfinished.tokens, List.length_append, List.length_cons] at hf ⊢
    obtain ⟨b1, st1, -, hb1, -, -, heq⟩ := readControlFlow_after E P p (.LOOP :: u.tokens)
      fuel st b bae cp bp rp sw (by omega) (scope_cases _ _ _ hwf.1.2) hb hsw hwf.1.1
    rw [heq]
    have hn := ntop_le_length p
    obtain ⟨f, hf1⟩ : ∃ f, fuel - p.ntop = f + 1 := ⟨fuel - p.ntop - 1, by omega⟩
    rw [hf1]
    simp only [readControlFlow, PassState.setTarget, ok_bind, newBlock_fst, newBlock_length]
    rw [ih f _ st1.blocks.length none (some st1.blocks.length) (some (st1.blocks.length + 1)) rp
      none (by omega) (by simp [PassState.newBlock, updateAt_length])
      (by intro s hs; cases hs) (by simpa using hwf.2)]
    rfl
  | inSwitch p u ih =>
    intro fuel st b bae cp bp rp sw hf hb hsw hwf
    simp only [Unfinished.wf, Bool.and_eq_true] at hwf
    simp only [Unfinished.tokens, List.length_append, List.length_cons] at hf ⊢
    obtain ⟨b1, st1, -, hb1, -, -, heq⟩ := readControlFlow_after E P p (.SWITCH :: u.tokens)
      fuel st b bae cp bp rp sw (by omega) (scope_cases _ _ _ hwf.1.2) hb hsw hwf.1.1
    rw [heq]
    have hn := ntop_le_length p
    obtain ⟨f, hf1⟩ : ∃ f, fuel - p.ntop = f + 1 := ⟨fuel - p.ntop - 1, by omega⟩
    rw [hf1]
    simp only [readControlFlow, newBlock_fst, newBlock_length, newSwitch_fst, newSwitch_blocks,
      newBlock_switches]
    rw [ih f _ (st1.blocks.length + 1) none cp (some st1.blocks.length) rp
      (some st1.switches.length) (by omega) (by simp [PassState.newBlock, PassState.newSwitch])
      (by intro s hs; cases hs; simp [PassState.newBlock, PassState.newSwitch])
      (by simpa using hwf.2)]
    rfl

/-! ## The tokens a call consumes -/

theorem readDeclaration_blocks (d : Declaration) (st : PassState) (bs : List BasicBlock)
    (ss : List BasicBlockSwitch) :
    readDeclaration E P d { st with blocks := bs, switches := ss } =
      (readDeclaration E P d st).map (fun s => { s with blocks := bs, switches := ss }) := by
  cases d <;>
    simp only [readDeclaration, dclConstantBuffer, dclSampler, PassState.setSrv,
      PassState.setUav, dclThreadGroupSharedMemory, dclInputSGV, dclInput, dclInputThread,
      dclInputPSSIV, dclInputPSSGV, dclInputPS, dclOutputSIV, dclOutput, customData,
      PassState.DefineInput, PassState.DefineOutput, PassState.pushPrelogue,
      PassState.pushEpilogue, findInputElement, findOutputElement] <;>
    (repeat' split) <;> rfl

theorem readDeclaration_side (d : Declaration) (st st1 : PassState)
    (h : readDeclaration E P d st = .ok st1) :
    readDeclaration E P d st.side = .ok st1.side := by
  have := readDeclaration_blocks E P d st [] []
  rw [h] at this
  exact this

theorem setTarget_side (st st1 : PassState) (ctx : Option Nat) (t : BasicBlockTarget)
    (h : st.setTarget ctx t = .ok st1) :
    st1.side = st.side ∧ st1.blocks.length = st.blocks.length := by
  cases ctx with
  | none => cases h
  | some i =>
    simp only [PassState.setTarget] at h
    cases h
    exact ⟨rfl, updateAt_length _ _ _⟩

theorem pushInstruction_side (st st1 : PassState) (ctx : Option Nat) (x : Instruction)
    (h : st.pushInstruction ctx x = .ok st1) :
    st1.side = st.side ∧ st1.blocks.length = st.blocks.length := by
  cases ctx with
  | none => cases h
  | some i =>
    simp only [PassState.pushInstruction] at h
    cases h
    exact ⟨rfl, updateAt_length _ _ _⟩

theorem insertCase_side (st st1 : PassState) (sw : Option Nat) (v : Nat) (c : Option Nat)
    (h : st.insertCase sw v c = .ok st1) :
    st1.side = st.side ∧ st1.blocks.length = st.blocks.length := by
  cases sw with
  | none => cases h
  | some i =>
    simp only [PassState.insertCase] at h
    cases h
    exact ⟨rfl, rfl⟩

theorem setDefault_side (st st1 : PassState) (sw : Option Nat) (c : Option Nat)
    (h : st.setDefault sw c = .ok st1) :
    st1.side = st.side ∧ st1.blocks.length = st.blocks.length := by
  cases sw with
  | none => cases h
  | some i =>
    simp only [PassState.setDefault] at h
    cases h
    exact ⟨rfl, rfl⟩

theorem newBlock_side (st : PassState) (n : BlockName) : (st.newBlock n).2.side = st.side := rfl

theorem newSwitch_side (st : PassState) : st.newSwitch.2.side = st.side := rfl

theorem flatStep_side (t : Flat) (st : PassState) (ctx cp bp rp sw : Option Nat)
    (c1 : Option Nat) (st1 : PassState)
    (h : flatStep E P t st ctx cp bp rp sw = .ok (c1, st1)) :
    sideStep E P t.token st.side = .ok st1.side ∧ st.blocks.length ≤ st1.blocks.length := by
  cases t <;> simp only [flatStep] at h
  case other inst =>
    obtain ⟨s1, h1, h2⟩ := bind_eq_ok _ _ _ h
    cases h2
    obtain ⟨e1, e2⟩ := pushInstruction_side _ _ _ _ h1
    exact ⟨congrArg Except.ok e1.symm, by rw [e2]⟩
  case dcl d =>
    obtain ⟨s1, h1, h2⟩ := bind_eq_ok _ _ _ h
    cases h2
    exact ⟨readDeclaration_side E P d st _ h1, by
      rw [(readDeclaration_frame E P d st _ h1).1]⟩
  case BREAK =>
    obtain ⟨s1, h1, h2⟩ := bind_eq_ok _ _ _ h
    cases h2
    obtain ⟨e1, e2⟩ := setTarget_side _ _ _ _ h1
    exact ⟨congrArg Except.ok e1.symm, by simp [PassState.newBlock] at e2 ⊢; omega⟩
  case CONTINUE =>
    obtain ⟨s1, h1, h2⟩ := bind_eq_ok _ _ _ h
    cases h2
    obtain ⟨e1, e2⟩ := setTarget_side _ _ _ _ h1
    exact ⟨congrArg Except.ok e1.symm, by simp [PassState.newBlock] at e2 ⊢; omega⟩
  case RET =>
    obtain ⟨s1, h1, h2⟩ := bind_eq_ok _ _ _ h
    cases h2
    obtain ⟨e1, e2⟩ := setTarget_side _ _ _ _ h1
    exact ⟨congrArg Except.ok e1.symm, by simp [PassState.newBlock] at e2 ⊢; omega⟩
  case BREAKC inst =>
    obtain ⟨s1, h1, h2⟩ := bind_eq_ok _ _ _ h
    cases h2
    obtain ⟨e1, e2⟩ := setTarget_side _ _ _ _ h1
    exact ⟨congrArg Except.ok e1.symm, by simp [PassState.newBlock] at e2 ⊢; omega⟩
  case CONTINUEC inst =>
    obtain ⟨s1, h1, h2⟩ := bind_eq_ok _ _ _ h
    cases h2
    obtain ⟨e1, e2⟩ := setTarget_side _ _ _ _ h1
    exact ⟨congrArg Except.ok e1.symm, by simp [PassState.newBlock] at e2 ⊢; omega⟩
  case RETC inst =>
    obtain ⟨s1, h1, h2⟩ := bind_eq_ok _ _ _ h
    cases h2
    obtain ⟨e1, e2⟩ := setTarget_side _ _ _ _ h1
    exact ⟨congrArg Except.ok e1.symm, by simp [PassState.newBlock] at e2 ⊢; omega⟩
  case DISCARD inst =>
    obtain ⟨s1, h1, h⟩ := bind_eq_ok _ _ _ h
    obtain ⟨s2, h2, h⟩ := bind_eq_ok _ _ _ h
    obtain ⟨s3, h3, h⟩ := bind_eq_ok _ _ _ h
    cases h
    obtain ⟨e1, l1⟩ := setTarget_side _ _ _ _ h1
    obtain ⟨e2, l2⟩ := setTarget_side _ _ _ _ h2
    obtain ⟨e3, l3⟩ := pushInstruction_side _ _ _ _ h3
    exact ⟨congrArg Except.ok ((e3.trans (e2.trans e1)).symm), by
      simp [PassState.newBlock] at l1 l2 l3 ⊢; omega⟩
  case CASE O =>
    obtain ⟨s1, h1, h⟩ := bind_eq_ok _ _ _ h
    obtain ⟨u, -, h⟩ := bind_eq_ok _ _ _ h
    obtain ⟨s2, h2, h⟩ := bind_eq_ok _ _ _ h
    cases h
    obtain ⟨e1, l1⟩ := setTarget_side _ _ _ _ h1
    obtain ⟨e2, l2⟩ := insertCase_side _ _ _ _ _ h2
    exact ⟨congrArg Except.ok ((e2.trans e1).symm), by
      simp [PassState.newBlock] at l1 l2 ⊢; omega⟩
  case DEFAULT =>
    obtain ⟨s1, h1, h⟩ := bind_eq_ok _ _ _ h
    obtain ⟨s2, h2, h⟩ := bind_eq_ok _ _ _ h
    cases h
    obtain ⟨e1, l1⟩ := setTarget_side _ _ _ _ h1
    obtain ⟨e2, l2⟩ := setDefault_side _ _ _ _ h2
    exact ⟨congrArg Except.ok ((e2.trans e1).symm), by
      simp [PassState.newBlock] at l1 l2 ⊢; omega⟩

theorem sideFold_append (done1 done2 : List CInstruction) (st : PassState) :
    sideFold E P (done1 ++ done2) st = (sideFold E P done1 st >>= sideFold E P done2) := by
  induction done1 generalizing st with
  | nil => rfl
  | cons tok done1 ih =>
    simp only [List.cons_append, sideFold]
    cases h : sideStep E P tok st with
    | error e => rfl
    | ok s1 => exact ih s1

theorem WalkFacts.prepend (done0 code code1 : List CInstruction) (st s2 : PassState)
    (bae bae2 bp rp : Option Nat) (res : WalkResult)
    (hcode : code = done0 ++ code1) (hside : sideFold E P done0 st.side = .ok s2.side)
    (hlen : st.blocks.length ≤ s2.blocks.length)
    (hbae : bae2 = bae ∨ ∃ j, bae2 = some j ∧ st.blocks.length ≤ j)
    (h : WalkFacts E P code1 s2 bae2 bp rp res) : WalkFacts E P code st bae bp rp res := by
  intro r code2 st2 hres
  obtain ⟨done, h1, h2, h3, h4⟩ := h r code2 st2 hres
  refine ⟨done0 ++ done, by rw [hcode, h1, List.append_assoc], ?_, by omega, ?_⟩
  · rw [sideFold_append, hside]
    exact h2
  · rcases h4 with h4 | h4 | ⟨j, hj, hj2⟩ | ⟨h4, h5, h6, h7⟩
    · rcases hbae with hb | ⟨j, hj, hj2⟩
      · exact Or.inl (h4.trans hb)
      · exact Or.inr (Or.inr (Or.inl ⟨j, h4.trans hj, hj2⟩))
    · exact Or.inr (Or.inl h4)
    · exact Or.inr (Or.inr (Or.inl ⟨j, hj, by omega⟩))
    · rcases hbae with hb | ⟨j, hj, hj2⟩
      · exact Or.inr (Or.inr (Or.inr ⟨h4, hb ▸ h5, h6, List.mem_append_right _ h7⟩))
      · rw [h5] at hj
        cases hj

theorem readControlFlow_facts :
    ∀ (fuel : Nat) (code : List CInstruction) (st : PassState)
      (ctx bae cp bp rp sw : Option Nat),
      WalkFacts E P code st bae bp rp (readControlFlow E P fuel code st ctx bae cp bp rp sw) := by
  intro fuel
  induction fuel with
  | zero =>
    intro code st ctx bae cp bp rp sw r code1 st1 h
    cases h
  | succ fuel ih =>
    intro code st ctx bae cp bp rp sw
    cases code with
    | nil =>
      intro r code1 st1 h
      cases h
    | cons Inst code =>
      have flat : ∀ t : Flat, (t = .RET → bp.isSome ∨ bae.isSome) →
          WalkFacts E P (t.token :: code) st bae bp rp
            (readControlFlow E P (fuel + 1) (t.token :: code) st ctx bae cp bp rp sw) := by
        intro t ht
        rw [readControlFlow_flat E P t fuel code st ctx bae cp bp rp sw ht]
        cases hfs : flatStep E P t st ctx cp bp rp sw with
        | error e =>
          intro r code1 st1 h
          cases h
        | ok r1 =>
          obtain ⟨c1, s1⟩ := r1
          obtain ⟨e, l⟩ := flatStep_side E P t st ctx cp bp rp sw c1 s1 hfs
          exact WalkFacts.prepend E P [t.token] _ code st s1 bae bae bp rp _ rfl
            (by simp only [sideFold, e]; rfl) l (Or.inl rfl) (ih code s1 c1 bae cp bp rp sw)
      cases Inst with
      | other inst => exact flat (.other inst) (fun h => by cases h)
      | dcl d => exact flat (.dcl d) (fun h => by cases h)
      | BREAK => exact flat .BREAK (fun h => by cases h)
      | BREAKC inst => exact flat (.BREAKC inst) (fun h => by cases h)
      | CONTINUE => exact flat .CONTINUE (fun h => by cases h)
      | CONTINUEC inst => exact flat (.CONTINUEC inst) (fun h => by cases h)
      | RETC inst => exact flat (.RETC inst) (fun h => by cases h)
      | DISCARD inst => exact flat (.DISCARD inst) (fun h => by cases h)
      | CASE O => exact flat (.CASE O) (fun h => by cases h)
      | DEFAULT => exact flat .DEFAULT (fun h => by cases h)
      | RET =>
        by_cases hsc : bp.isSome ∨ bae.isSome
        · exact flat .RET (fun _ => hsc)
        · have hbp : bp = none := by
            cases bp with
            | none => rfl
            | some x => exact absurd (Or.inl rfl) hsc
          have hbae : bae = none := by
            cases bae with
            | none => rfl
            | some x => exact absurd (Or.inr rfl) hsc
          subst hbp hbae
          intro r code1 st1 h
          simp only [readControlFlow, Option.isNone_none, Bool.and_self, if_true] at h
          obtain ⟨s1, h1, h2⟩ := bind_eq_ok _ _ _ h
          cases h2
          obtain ⟨e1, l1⟩ := setTarget_side _ _ _ _ h1
          exact ⟨[.RET], rfl, by simp only [sideFold, sideStep, e1]; rfl, by omega,
            Or.inr (Or.inr (Or.inr ⟨rfl, rfl, rfl, List.mem_singleton.2 rfl⟩))⟩
      | ENDIF =>
        intro r code1 st1 h
        simp only [readControlFlow] at h
        obtain ⟨u, -, h⟩ := bind_eq_ok _ _ _ h
        obtain ⟨s1, h1, h2⟩ := bind_eq_ok _ _ _ h
        cases h2
        obtain ⟨e1, l1⟩ := setTarget_side _ _ _ _ h1
        exact ⟨[.ENDIF], rfl, by simp only [sideFold, sideStep, e1]; rfl, by omega, Or.inl rfl⟩
      | ENDLOOP =>
        intro r code1 st1 h
        simp only [readControlFlow] at h
        obtain ⟨s1, h1, h2⟩ := bind_eq_ok _ _ _ h
        cases h2
        obtain ⟨e1, l1⟩ := setTarget_side _ _ _ _ h1
        exact ⟨[.ENDLOOP], rfl, by simp only [sideFold, sideStep, e1]; rfl, by omega,
          Or.inr (Or.inl rfl)⟩
      | ENDSWITCH =>
        intro r code1 st1 h
        simp only [readControlFlow] at h
        obtain ⟨s1, h1, h2⟩ := bind_eq_ok _ _ _ h
        cases h2
        obtain ⟨e1, l1⟩ := setTarget_side _ _ _ _ h1
        exact ⟨[.ENDSWITCH], rfl, by simp only [sideFold, sideStep, e1]; rfl, by omega,
          Or.inr (Or.inl rfl)⟩
      | ELSE =>
        intro r code1 st1 h
        simp only [readControlFlow] at h
        obtain ⟨u, -, h⟩ := bind_eq_ok _ _ _ h
        obtain ⟨s1, h1, h⟩ := bind_eq_ok _ _ _ h
        obtain ⟨e1, l1⟩ := setTarget_side _ _ _ _ h1
        exact WalkFacts.prepend E P [.ELSE] _ code st s1 bae (st.newBlock .endif).1 bp rp _ rfl
          (by simp only [sideFold, sideStep, e1]; rfl)
          (by simp [PassState.newBlock] at l1 ⊢; omega)
          (Or.inr ⟨st.blocks.length, rfl, Nat.le_refl _⟩)
          (ih code s1 bae (st.newBlock .endif).1 cp bp rp sw) r code1 st1 h
      | IF inst =>
        intro r code1 st1 h
        simp only [readControlFlow] at h
        obtain ⟨s1, h1, h⟩ := bind_eq_ok _ _ _ h
        obtain ⟨x, hx, h⟩ := bind_eq_ok _ _ _ h
        obtain ⟨a, code2, s2⟩ := x
        obtain ⟨e1, l1⟩ := setTarget_side _ _ _ _ h1
        obtain ⟨done1, d1, d2, d3, -⟩ := ih _ _ _ _ _ _ _ _ a code2 s2 hx
        exact WalkFacts.prepend E P (.IF inst :: done1) _ code2 st s2 bae bae bp rp _
          (by rw [d1]; rfl)
          (by
            simp only [sideFold, sideStep]
            rw [e1] at d2
            exact d2)
          (by simp [PassState.newBlock] at l1 d3 ⊢; omega)
          (Or.inl rfl)
          (ih code2 s2 a bae cp bp rp sw) r code1 st1 h
      | LOOP =>
        intro r code1 st1 h
        simp only [readControlFlow] at h
        obtain ⟨s1, h1, h⟩ := bind_eq_ok _ _ _ h
        obtain ⟨x, hx, h⟩ := bind_eq_ok _ _ _ h
        obtain ⟨a, code2, s2⟩ := x
        obtain ⟨u, -, h⟩ := bind_eq_ok _ _ _ h
        obtain ⟨e1, l1⟩ := setTarget_side _ _ _ _ h1
        obtain ⟨done1, d1, d2, d3, -⟩ := ih _ _ _ _ _ _ _ _ a code2 s2 hx
        exact WalkFacts.prepend E P (.LOOP :: done1) _ code2 st s2 bae bae bp rp _
          (by rw [d1]; rfl)
          (by
            simp only [sideFold, sideStep]
            rw [e1] at d2
            exact d2)
          (by simp [PassState.newBlock] at l1 d3 ⊢; omega)
          (Or.inl rfl)
          (ih code2 s2 _ bae cp bp rp sw) r code1 st1 h
      | SWITCH =>
        intro r code1 st1 h
        simp only [readControlFlow] at h
        obtain ⟨x, hx, h⟩ := bind_eq_ok _ _ _ h
        obtain ⟨a, code2, s2⟩ := x
        obtain ⟨u, -, h⟩ := bind_eq_ok _ _ _ h
        obtain ⟨t, -, h⟩ := bind_eq_ok _ _ _ h
        obtain ⟨s3, h3, h⟩ := bind_eq_ok _ _ _ h
        obtain ⟨e3, l3⟩ := setTarget_side _ _ _ _ h3
        obtain ⟨done1, d1, d2, d3, -⟩ := ih _ _ _ _ _ _ _ _ a code2 s2 hx
        exact WalkFacts.prepend E P (.SWITCH :: done1) _ code2 st s3 bae bae bp rp _
          (by rw [d1]; rfl)
          (by
            simp only [sideFold, sideStep]
            rw [e3]
            exact d2)
          (by simp [PassState.newBlock, PassState.newSwitch] at l3 d3 ⊢; omega)
          (Or.inl rfl)
          (ih code2 s3 _ bae cp bp rp sw) r code1 st1 h

/-! ## End of the stream: the build -/

theorem SM50Initialize_consumes_RET (code : List CInstruction) (sm : SM50ShaderInternal)
    (h : SM50Initialize E P code = .ok sm) : CInstruction.RET ∈ code := by
  obtain ⟨code1, st, hw, -⟩ := SM50Initialize_ok E P code sm h
  obtain ⟨done, h1, -, -, h4⟩ := readControlFlow_facts E P _ _ _ _ _ _ _ _ _ _ _ _ hw
  rcases h4 with h4 | h4 | ⟨j, hj, hj2⟩ | ⟨-, -, -, h7⟩
  · cases h4
  · cases h4
  · cases hj
    simp [PassState.initial] at hj2
  · rw [h1]
    exact List.mem_append_left _ h7

/-- C14: on every stream that ends at top level without a RET of its own or
inside open IF, ELSE, LOOP or SWITCH scopes, and whose tokens the walk accepts
up to there, `SM50Initialize` fails with the error of the end of the stream
and returns no graph; so it does on the empty stream; and on no stream
without a RET token does the build succeed. -/
theorem C14_unexpected_end (u : Unfinished) (h : u.wf E P false false = true) :
    SM50Initialize E P u.tokens = .error .unexpectedEndOfShader ∧
    SM50Initialize E P [] = .error .unexpectedEndOfShader ∧
    (∀ code : List CInstruction, CInstruction.RET ∉ code →
      ∃ e, SM50Initialize E P code = .error e) := by
  refine ⟨?_, rfl, ?_⟩
  · apply SM50Initialize_error
    exact readControlFlow_unfinished E P u _ PassState.initial 0 none none none (some 1) none
      (by omega) (by decide) (by intro s hs; cases hs) h
  · intro code hret
    cases hs : SM50Initialize E P code with
    | error e => exact ⟨e, rfl⟩
    | ok sm => exact absurd (SM50Initialize_consumes_RET E P code sm hs) hret

/-- Witness of C14: the stream `1; LOOP; 2; IF c; RET; ELSE; RET` ends inside the
ELSE scope of an IF inside a LOOP. -/
theorem C14_unexpected_end_witness :
    SM50Initialize sampleExternal sampleEnv
      [.other 1, .LOOP, .other 2, .IF 3, .RET, .ELSE, .RET] = .error .unexpectedEndOfShader :=
  (C14_unexpected_end sampleExternal sampleEnv
    (.inLoop (.flat (.other 1) .done)
      (.inElse (.flat (.other 2) .done) 3 (.flat .RET .done) (.here (.flat .RET .done))))
    (by decide)).1

/-! ## Prelogue and epilogue -/

theorem readDeclaration_pushes (d : Declaration) (st st1 : PassState)
    (h : readDeclaration E P d st = .ok st1) :
    ∃ ep ee, st1.prelogue_ = st.prelogue_ ++ ep ∧ st1.epilogue_ = st.epilogue_ ++ ee ∧
      ep.length ≤ 1 ∧ ee.length ≤ 1 := by
  cases d <;>
    simp only [readDeclaration, dclConstantBuffer, dclSampler, PassState.setSrv,
      PassState.setUav, dclThreadGroupSharedMemory, dclInputSGV, dclInput, dclInputThread,
      dclInputPSSIV, dclInputPSSGV, dclInputPS, dclOutputSIV, dclOutput, customData,
      PassState.DefineInput, PassState.DefineOutput, PassState.pushPrelogue,
      PassState.pushEpilogue, findInputElement, findOutputElement] at h <;>
    (repeat' split at h) <;> cases h <;>
    first
      | exact ⟨[], [], (List.append_nil _).symm, (List.append_nil _).symm, by simp, by simp⟩
      | exact ⟨[_], [], rfl, (List.append_nil _).symm, by simp, by simp⟩
      | exact ⟨[], [_], (List.append_nil _).symm, rfl, by simp, by simp⟩
      | exact ⟨[_], [_], rfl, rfl, by simp, by simp⟩

theorem pushed_spec (d : Declaration) (st st1 : PassState)
    (h : readDeclaration E P d st = .ok st1) :
    st1.prelogue_ = st.prelogue_ ++ (d.pushed E P st).1 ∧
    st1.epilogue_ = st.epilogue_ ++ (d.pushed E P st).2 ∧
    (d.pushed E P st).1.length ≤ 1 ∧ (d.pushed E P st).2.length ≤ 1 := by
  obtain ⟨ep, ee, h1, h2, h3, h4⟩ := readDeclaration_pushes E P d st st1 h
  simp only [Declaration.pushed, h, h1, h2, List.drop_left]
  exact ⟨trivial, trivial, h3, h4⟩

theorem effectLog_spec (done : List CInstruction) :
    ∀ (s0 s1 : PassState), sideFold E P done s0 = .ok s1 →
      (effectLog E P done s0).length = done.length ∧
      s1.prelogue_ = s0.prelogue_ ++ ((effectLog E P done s0).map Prod.fst).flatten ∧
      s1.epilogue_ = s0.epilogue_ ++ ((effectLog E P done s0).map Prod.snd).flatten ∧
      (∀ x ∈ effectLog E P done s0, x.1.length ≤ 1 ∧ x.2.length ≤ 1) := by
  induction done with
  | nil =>
    intro s0 s1 h
    cases h
    simp [effectLog]
  | cons tok done ih =>
    intro s0 s1 h
    simp only [sideFold] at h
    obtain ⟨s, hs, h⟩ := bind_eq_ok _ _ _ h
    obtain ⟨i1, i2, i3, i4⟩ := ih s s1 h
    have hstep : ∃ x : List PrelogueEffect × List EpilogueEffect,
        effectLog E P (tok :: done) s0 = x :: effectLog E P done s ∧
        s.prelogue_ = s0.prelogue_ ++ x.1 ∧ s.epilogue_ = s0.epilogue_ ++ x.2 ∧
        x.1.length ≤ 1 ∧ x.2.length ≤ 1 := by
      cases tok
      case dcl d =>
        obtain ⟨p1, p2, p3, p4⟩ := pushed_spec E P d s0 s hs
        exact ⟨d.pushed E P s0, by simp only [effectLog, hs], p1, p2, p3, p4⟩
      case other inst =>
        refine ⟨([], []), by simp only [effectLog, hs], ?_⟩
        cases hs
        simp
      all_goals
        refine ⟨([], []), by simp only [effectLog, hs], ?_⟩
        cases hs
        simp
    obtain ⟨x, hx, x1, x2, x3, x4⟩ := hstep
    rw [hx]
    refine ⟨by simp [i1], ?_, ?_, ?_⟩
    · rw [i2, x1]
      simp
    · rw [i3, x2]
      simp
    · intro y hy
      rcases List.mem_cons.1 hy with rfl | hy
      · exact ⟨x3, x4⟩
      · exact i4 y hy

theorem foldl_push {α : Type} (l init : List α) :
    l.foldl (fun acc p => acc ++ [p]) init = init ++ l := by
  induction l generalizing init with
  | nil => simp
  | cons a l ih => simp [ih]

/-- C13: after a successful `SM50Initialize` the walk has handled a prefix
`done` of the stream token by token; `prelogue_` is the concatenation, in the
order of the tokens of `done`, of the effects each token has appended to it,
and `epilogue_` likewise; a declaration appends at most one effect to each
list (a depth-output declaration one to both) and other tokens none; and
`convertDXBC` applies each list front to back. -/
theorem C13_effect_order (code : List CInstruction) (sm : SM50ShaderInternal)
    (h : SM50Initialize E P code = .ok sm) :
    ∃ done rest, code = done ++ rest ∧
      (effectLog E P done PassState.initial.side).length = done.length ∧
      sm.prelogue_ = ((effectLog E P done PassState.initial.side).map Prod.fst).flatten ∧
      sm.epilogue_ = ((effectLog E P done PassState.initial.side).map Prod.snd).flatten ∧
      (∀ x ∈ effectLog E P done PassState.initial.side, x.1.length ≤ 1 ∧ x.2.length ≤ 1) ∧
      composeEffects sm = (sm.prelogue_, sm.epilogue_) := by
  obtain ⟨code1, st, hw, hsm⟩ := SM50Initialize_ok E P code sm h
  obtain ⟨done, h1, h2, -, -⟩ := readControlFlow_facts E P _ _ _ _ _ _ _ _ _ _ _ _ hw
  obtain ⟨i1, i2, i3, i4⟩ := effectLog_spec E P done _ _ h2
  refine ⟨done, code1, h1, i1, ?_, ?_, i4, ?_⟩
  · rw [hsm]
    exact i2.trans (by simp [PassState.initial, PassState.side])
  · rw [hsm]
    exact i3.trans (by simp [PassState.initial, PassState.side])
  · simp only [composeEffects, foldl_push, List.nil_append]

/-- Witness of C13 on `dcl_input_sgv v0, vertex_id; dcl_output_siv o0, position;
dcl_output oDepth; ret`: the prelogue holds the vertex-id effect, then the
depth-register effect; the epilogue the position output, then the depth
output. -/
theorem C13_effect_order_witness :
    ∃ sm, SM50Initialize sampleExternal sampleEnv
        [.dcl (.DCL_INPUT_SGV (resourceOperand .INDEX_1D 0 0 0) .VERTEX_ID),
         .dcl (.DCL_OUTPUT_SIV (resourceOperand .INDEX_1D 0 0 0) .POSITION),
         .dcl (.DCL_OUTPUT { resourceOperand .INDEX_0D 0 0 0 with m_Type := .OUTPUT_DEPTH }),
         .RET] = .ok sm ∧
      sm.prelogue_ = [.vertex_id 0 1 0 0, .depth_output_reg] ∧
      sm.epilogue_ = [.pop_output_reg 0 0 0, .depth_output 1] ∧
      composeEffects sm = (sm.prelogue_, sm.epilogue_) := by
  have hv : (SM50Initialize sampleExternal sampleEnv
        [.dcl (.DCL_INPUT_SGV (resourceOperand .INDEX_1D 0 0 0) .VERTEX_ID),
         .dcl (.DCL_OUTPUT_SIV (resourceOperand .INDEX_1D 0 0 0) .POSITION),
         .dcl (.DCL_OUTPUT { resourceOperand .INDEX_0D 0 0 0 with m_Type := .OUTPUT_DEPTH }),
         .RET]).toOption.map (fun sm => (sm.prelogue_, sm.epilogue_)) =
      some ([.vertex_id 0 1 0 0, .depth_output_reg],
            [.pop_output_reg 0 0 0, .depth_output 1]) := by decide
  cases h : SM50Initialize sampleExternal sampleEnv
        [.dcl (.DCL_INPUT_SGV (resourceOperand .INDEX_1D 0 0 0) .VERTEX_ID),
         .dcl (.DCL_OUTPUT_SIV (resourceOperand .INDEX_1D 0 0 0) .POSITION),
         .dcl (.DCL_OUTPUT { resourceOperand .INDEX_0D 0 0 0 with m_Type := .OUTPUT_DEPTH }),
         .RET] with
  | error e =>
    rw [h] at hv
    cases hv
  | ok sm =>
    rw [h] at hv
    have hp := Prod.mk.inj (Option.some.inj hv)
    obtain ⟨done, rest, -, -, -, -, -, hc⟩ := C13_effect_order sampleExternal sampleEnv _ sm h
    exact ⟨sm, rfl, hp.1, hp.2, hc⟩

/-! ## The argument list as a function of the declared range ids -/

theorem Map.mem_keys_assign {V : Type} (m : Map V) (k : Nat) (v : V) (k1 : Nat) :
    k1 ∈ (Map.assign m k v).keys ↔ k1 = k ∨ k1 ∈ m.keys := by
  induction m with
  | nil => simp [Map.assign, Map.keys]
  | cons e m ih =>
    obtain ⟨k0, v0⟩ := e
    simp only [Map.assign]
    split
    · simp [Map.keys]
    · split
      · rename_i h1 h2
        subst h2
        simp [Map.keys]
      · simp only [Map.keys, List.map_cons, List.mem_cons] at ih ⊢
        rw [ih]
        tauto

theorem Map.keys_assign_sorted {V : Type} (m : Map V) (k : Nat) (v : V)
    (h : m.keys.Pairwise (fun a b => a < b)) :
    (Map.assign m k v).keys.Pairwise (fun a b => a < b) := by
  induction m with
  | nil => simp [Map.assign, Map.keys]
  | cons e m ih =>
    obtain ⟨k0, v0⟩ := e
    have h0 : ∀ a ∈ Map.keys m, k0 < a := by
      simp only [Map.keys, List.map_cons, List.pairwise_cons] at h
      exact h.1
    have hm : (Map.keys m).Pairwise (fun a b => a < b) := by
      simp only [Map.keys, List.map_cons, List.pairwise_cons] at h
      exact h.2
    simp only [Map.assign]
    split
    · rename_i hlt
      simp only [Map.keys, List.map_cons, List.pairwise_cons]
      refine ⟨?_, ?_, hm⟩
      · intro a ha
        rcases List.mem_cons.1 ha with rfl | ha
        · exact hlt
        · exact Nat.lt_trans hlt (h0 a ha)
      · exact h0
    · split
      · rename_i h1 h2
        subst h2
        simp only [Map.keys, List.map_cons, List.pairwise_cons]
        exact ⟨h0, hm⟩
      · rename_i h1 h2
        have ih1 := ih hm
        have hk := Map.mem_keys_assign m k v
        simp only [Map.keys, List.map_cons, List.pairwise_cons] at ih1 hk ⊢
        refine ⟨?_, ih1⟩
        intro a ha
        rcases (hk a).1 ha with rfl | ha
        · omega
        · exact h0 a ha

theorem sorted_ext (l1 l2 : List Nat) (h1 : l1.Pairwise (fun a b => a < b))
    (h2 : l2.Pairwise (fun a b => a < b)) (h : ∀ k, k ∈ l1 ↔ k ∈ l2) : l1 = l2 := by
  have n1 : l1.Nodup := h1.imp (fun hab => Nat.ne_of_lt hab)
  have n2 : l2.Nodup := h2.imp (fun hab => Nat.ne_of_lt hab)
  have hp : l1.Perm l2 := (List.perm_ext_iff_of_nodup n1 n2).2 h
  exact List.eq_of_perm_of_sorted hp (h1.imp (fun hab => Nat.le_of_lt hab))
    (h2.imp (fun hab => Nat.le_of_lt hab))

theorem readDeclaration_keys (d : Declaration) (st st1 : PassState)
    (h : readDeclaration E P d st = .ok st1) :
    (st.shader_info.ordered → st1.shader_info.ordered) ∧
    (∀ kind k, k ∈ st1.shader_info.keysOf kind ↔
      (k ∈ st.shader_info.keysOf kind ∨ d.binding = some (kind, k))) := by
  cases d <;>
    simp only [readDeclaration, dclConstantBuffer, dclSampler, PassState.setSrv,
      PassState.setUav, dclThreadGroupSharedMemory, dclInputSGV, dclInput, dclInputThread,
      dclInputPSSIV, dclInputPSSGV, dclInputPS, dclOutputSIV, dclOutput, customData,
      PassState.DefineInput, PassState.DefineOutput, PassState.pushPrelogue,
      PassState.pushEpilogue, findInputElement, findOutputElement] at h <;>
    (repeat' split at h) <;> cases h <;>
    refine ⟨fun ho => ?_, fun kind k => ?_⟩
  all_goals first
    | exact ho
    | exact ⟨Map.keys_assign_sorted _ _ _ ho.1, ho.2.1, ho.2.2.1, ho.2.2.2⟩
    | exact ⟨ho.1, Map.keys_assign_sorted _ _ _ ho.2.1, ho.2.2.1, ho.2.2.2⟩
    | exact ⟨ho.1, ho.2.1, Map.keys_assign_sorted _ _ _ ho.2.2.1, ho.2.2.2⟩
    | exact ⟨ho.1, ho.2.1, ho.2.2.1, Map.keys_assign_sorted _ _ _ ho.2.2.2⟩
    | (cases kind <;>
        simp only [ShaderInfo.keysOf, Declaration.binding, Map.mem_keys_assign, Option.some.injEq,
          Prod.mk.injEq, reduceCtorEq, false_and, and_false, or_false, true_and] <;>
        first | rfl | tauto)

theorem sideFold_ordered (hE : E.keepsOrder) (done : List CInstruction) :
    ∀ (s0 s1 : PassState), sideFold E P done s0 = .ok s1 → s0.shader_info.ordered →
      s1.shader_info.ordered := by
  induction done with
  | nil =>
    intro s0 s1 h ho
    cases h
    exact ho
  | cons tok done ih =>
    intro s0 s1 h ho
    simp only [sideFold] at h
    obtain ⟨s, hs, h⟩ := bind_eq_ok _ _ _ h
    refine ih s s1 h ?_
    cases tok
    case dcl d => exact (readDeclaration_keys E P d s0 s hs).1 ho
    case other inst =>
      cases hs
      exact hE inst _ ho
    all_goals
      cases hs
      exact ho

theorem SM50Initialize_ordered (hE : E.keepsOrder) (code : List CInstruction)
    (sm : SM50ShaderInternal) (h : SM50Initialize E P code = .ok sm) :
    sm.shader_info.ordered := by
  obtain ⟨code1, st, hw, hsm⟩ := SM50Initialize_ok E P code sm h
  obtain ⟨done, -, h2, -, -⟩ := readControlFlow_facts E P _ _ _ _ _ _ _ _ _ _ _ _ hw
  rw [hsm]
  exact sideFold_ordered E P hE done _ st.side h2
    ⟨List.Pairwise.nil, List.Pairwise.nil, List.Pairwise.nil, List.Pairwise.nil⟩

theorem binding_table_entries (shader_info : ShaderInfo) :
    (binding_table E shader_info).map (fun e => (e.name, e.argument_index)) =
      (args_reflection shader_info).map
        (fun a => ((a.BindingType.namePrefix, a.SM50BindingSlot), E.GetArgumentIndex a)) := by
  simp [binding_table, args_reflection, Map.keys, ArgumentBufferDefinition.name,
    ArgumentBufferDefinition.argument_index, SM50BindingType.namePrefix, Function.comp_def]

/-- C20: let two streams both build, with a `readInstruction` that hands back
maps in key order.  If for each of the four kinds the two results hold the same
set of range ids, then their argument lists are identical, entry by entry and
in the same order, and so are the reported bind index and number of arguments
and the names and argument indices of the binding table, whatever else the
entries of the maps hold.  The range ids a map holds grow by the id of each
accepted declaration of its kind and by nothing else a declaration does. -/
theorem C20_args_by_range_ids (P2 : ShaderEnv) (code1 code2 : List CInstruction)
    (sm1 sm2 : SM50ShaderInternal) (hE : E.keepsOrder)
    (h1 : SM50Initialize E P code1 = .ok sm1) (h2 : SM50Initialize E P2 code2 = .ok sm2)
    (hk : ∀ kind k, k ∈ sm1.shader_info.keysOf kind ↔ k ∈ sm2.shader_info.keysOf kind) :
    sm1.args_reflection = sm2.args_reflection ∧
    sm1.reflection.ArgumentBufferBindIndex = sm2.reflection.ArgumentBufferBindIndex ∧
    sm1.reflection.NumArguments = sm2.reflection.NumArguments ∧
    (binding_table E sm1.shader_info).map (fun e => (e.name, e.argument_index)) =
      (binding_table E sm2.shader_info).map (fun e => (e.name, e.argument_index)) ∧
    (∀ d st st1, readDeclaration E P d st = .ok st1 → ∀ kind k,
      (k ∈ st1.shader_info.keysOf kind ↔
        (k ∈ st.shader_info.keysOf kind ∨ d.binding = some (kind, k)))) := by
  have o1 := SM50Initialize_ordered E P hE code1 sm1 h1
  have o2 := SM50Initialize_ordered E P2 hE code2 sm2 h2
  have e1 : sm1.args_reflection = args_reflection sm1.shader_info := by
    obtain ⟨_, _, -, hsm⟩ := SM50Initialize_ok E P code1 sm1 h1
    rw [hsm]
  have e2 : sm2.args_reflection = args_reflection sm2.shader_info := by
    obtain ⟨_, _, -, hsm⟩ := SM50Initialize_ok E P2 code2 sm2 h2
    rw [hsm]
  have hargs : args_reflection sm1.shader_info = args_reflection sm2.shader_info := by
    simp only [args_reflection]
    rw [sorted_ext _ _ o1.1 o2.1 (hk .ConstantBuffer),
      sorted_ext _ _ o1.2.1 o2.2.1 (hk .Sampler),
      sorted_ext _ _ o1.2.2.1 o2.2.2.1 (hk .SRV),
      sorted_ext _ _ o1.2.2.2 o2.2.2.2 (hk .UAV)]
  refine ⟨by rw [e1, e2, hargs], ?_, ?_, ?_, ?_⟩
  · simp only [SM50ShaderInternal.reflection, e1, e2, hargs]
  · simp only [SM50ShaderInternal.reflection, e1, e2, hargs]
  · rw [binding_table_entries, binding_table_entries, hargs]
  · intro d st st1 hd
    exact (readDeclaration_keys E P d st st1 hd).2

/-- Witness of C20: `dcl_constantbuffer cb3; dcl_constantbuffer cb1; ret` in
the 2-D form against `dcl_constantbuffer cb1; dcl_constantbuffer cb3; ret` in
the 3-D form with other bounds, sizes and spaces. -/
theorem C20_args_by_range_ids_witness :
    ∃ sm1 sm2,
      SM50Initialize sampleExternal sampleEnv
        [.dcl (.DCL_CONSTANT_BUFFER (resourceOperand .INDEX_2D 3 0 0) 4 0),
         .dcl (.DCL_CONSTANT_BUFFER (resourceOperand .INDEX_2D 1 0 0) 8 0),
         .RET] = .ok sm1 ∧
      SM50Initialize sampleExternal sampleEnv51
        [.dcl (.DCL_CONSTANT_BUFFER (resourceOperand .INDEX_3D 1 5 6) 16 2),
         .dcl (.DCL_CONSTANT_BUFFER (resourceOperand .INDEX_3D 3 7 9) 32 1),
         .RET] = .ok sm2 ∧
      sm1.args_reflection = sm2.args_reflection := by
  have hv1 : (SM50Initialize sampleExternal sampleEnv
        [.dcl (.DCL_CONSTANT_BUFFER (resourceOperand .INDEX_2D 3 0 0) 4 0),
         .dcl (.DCL_CONSTANT_BUFFER (resourceOperand .INDEX_2D 1 0 0) 8 0),
         .RET]).toOption.map (fun sm => [sm.shader_info.keysOf .ConstantBuffer,
           sm.shader_info.keysOf .Sampler, sm.shader_info.keysOf .SRV,
           sm.shader_info.keysOf .UAV]) = some [[1, 3], [], [], []] := by decide
  have hv2 : (SM50Initialize sampleExternal sampleEnv51
        [.dcl (.DCL_CONSTANT_BUFFER (resourceOperand .INDEX_3D 1 5 6) 16 2),
         .dcl (.DCL_CONSTANT_BUFFER (resourceOperand .INDEX_3D 3 7 9) 32 1),
         .RET]).toOption.map (fun sm => [sm.shader_info.keysOf .ConstantBuffer,
           sm.shader_info.keysOf .Sampler, sm.shader_info.keysOf .SRV,
           sm.shader_info.keysOf .UAV]) = some [[1, 3], [], [], []] := by decide
  cases h1 : SM50Initialize sampleExternal sampleEnv
        [.dcl (.DCL_CONSTANT_BUFFER (resourceOperand .INDEX_2D 3 0 0) 4 0),
         .dcl (.DCL_CONSTANT_BUFFER (resourceOperand .INDEX_2D 1 0 0) 8 0),
         .RET] with
  | error e =>
    rw [h1] at hv1
    cases hv1
  | ok sm1 =>
    cases h2 : SM50Initialize sampleExternal sampleEnv51
        [.dcl (.DCL_CONSTANT_BUFFER (resourceOperand .INDEX_3D 1 5 6) 16 2),
         .dcl (.DCL_CONSTANT_BUFFER (resourceOperand .INDEX_3D 3 7 9) 32 1),
         .RET] with
    | error e =>
      rw [h2] at hv2
      cases hv2
    | ok sm2 =>
      rw [h1] at hv1
      rw [h2] at hv2
      have q1 := Option.some.inj hv1
      have q2 := Option.some.inj hv2
      simp only [List.cons.injEq, and_true] at q1 q2
      refine ⟨sm1, sm2, rfl, rfl,
        (C20_args_by_range_ids sampleExternal sampleEnv sampleEnv51 _ _ sm1 sm2
          (fun _ _ ho => ho) h1 h2 ?_).1⟩
      intro kind k
      cases kind
      · rw [q1.1, q2.1]
      · rw [q1.2.1, q2.2.1]
      · rw [q1.2.2.1, q2.2.2.1]
      · rw [q1.2.2.2, q2.2.2.2]

/-! ## DEFAULT, and the block that carries the Switch terminator -/

/-- C22: on the stream `SWITCH; CASE 1; DEFAULT; 7; BREAK; ENDSWITCH; RET` the
blocks are entry (0), return (1), `after_switch` (2), `switch_empty` (3), the
body of CASE 1 (4), the default body (5) and `after_break` (6).  DEFAULT is met
while the walk appends to block 4; it gives block 4 the terminator
`Unconditional(2)`, a jump to `after_switch`, not a fallthrough edge into the
default body, block 5, although block 5 is recorded as the default target. -/
theorem C22_default_jumps_to_break_point :
    (SM50Initialize E P
        [.SWITCH, .CASE (immediate32 1), .DEFAULT, .other 7, .BREAK, .ENDSWITCH,
         .RET]).toOption.map
      (fun sm => sm.blocks.map (fun b => (b.debug_name, b.target))) =
    some [(.entrybb, .switch [(1, some 4)] (some 5)), (.returnbb, .ret),
          (.endswitch, .unconditional (some 1)),
          (.switch_empty, .unconditional (some 4)),
          (.switch_case, .unconditional (some 2)),
          (.switch_default, .unconditional (some 2)),
          (.after_break, .unconditional (some 2))] := by
  rfl

/-! ## Absent branch targets -/

/-- C26: on the stream `BREAK; RET` the build succeeds, and the entry block has
the terminator `Unconditional` with an absent (null) target: BREAK is met with
no break target and writes it as it is. -/
theorem C26_break_without_target :
    (SM50Initialize E P [.BREAK, .RET]).toOption.map
      (fun sm => sm.blocks.map (fun b => (b.debug_name, b.target))) =
    some [(.entrybb, .unconditional none), (.returnbb, .ret),
          (.after_break, .unconditional (some 1))] := by
  rfl

theorem run_ok_of_eq (p : Prog) (st : PassState) (b : Nat) (bae cp bp rp sw : Option Nat)
    (r : Option Nat) (st1 : PassState)
    (h : run E P p st (some b) bae cp bp rp sw = .ok (r, st1))
    (hb : b < st.blocks.length) (hsw : ∀ s, sw = some s → s < st.switches.length)
    (hwf : p.wf E P sw.isSome = true) :
    ∃ b1, r = some b1 ∧ b1 < st1.blocks.length ∧ (b1 = b ∨ st.blocks.length ≤ b1) ∧
      Only b sw st st1 := by
  obtain ⟨b2, st2, hr2, h1, h2, h3⟩ := run_ok E P p st b bae cp bp rp sw hb hsw hwf
  have e := h.symm.trans hr2
  cases e
  exact ⟨b2, rfl, h1, h2, h3⟩

/-- C23 (counterexample): on `SWITCH; CASE 4; BREAK; ENDSWITCH; RET` the `Switch`
terminator is on the entry block (0), the block that preceded the SWITCH; the
dispatch block `switch_empty` (3) ends with `Unconditional(4)`, and no
terminator of the graph leads to block 3. -/
theorem C23_counterexample :
    (SM50Initialize sampleExternal sampleEnv
        [.SWITCH, .CASE (immediate32 4), .BREAK, .ENDSWITCH, .RET]).toOption.map
      (fun sm => sm.blocks.map (fun b => (b.debug_name, b.target))) =
    some [(.entrybb, .switch [(4, some 4)] none), (.returnbb, .ret),
          (.endswitch, .unconditional (some 1)),
          (.switch_empty, .unconditional (some 4)),
          (.switch_case, .unconditional (some 2)),
          (.after_break, .unconditional (some 2))] := by
  decide

/-- C23 (amended): for `SWITCH; body; ENDSWITCH` with a well-nested body, met
while the walk appends to block `B`, the `Switch` terminator is written on `B`
itself, the block that preceded the SWITCH.  The dispatch block `switch_empty`
that SWITCH allocates is another block, number `st.blocks.length + 1`; when the
body starts with a CASE, that block ends with the unconditional jump into the
body of this first CASE. -/
theorem C23_switch_on_preceding_block (body : Prog) (rest : List CInstruction)
    (st : PassState) (B : Nat) (bae cp bp rp sw : Option Nat) (fuel : Nat)
    (hB : B < st.blocks.length) (hwf : body.wf E P true = true)
    (hfuel : (flatten body).length + 1 ≤ fuel) :
    ∃ (cases : Map (Option Nat)) (d : Option Nat) (st1 : PassState),
      readControlFlow E P (fuel + 1)
          (CInstruction.SWITCH :: (flatten body ++ CInstruction.ENDSWITCH :: rest))
          st (some B) bae cp bp rp sw =
        readControlFlow E P fuel rest st1 (some st.blocks.length) bae cp bp rp sw ∧
      (st1.blocks[B]?).map (fun blk => blk.target) = some (.switch cases d) ∧
      B ≠ st.blocks.length + 1 ∧
      (∀ O k, body = .flat (.CASE O) k →
        (st1.blocks[st.blocks.length + 1]?).map (fun blk => (blk.debug_name, blk.target)) =
          some (.switch_empty, .unconditional (some (st.blocks.length + 2)))) := by
  obtain ⟨b1, st1, c', hrun, hc', hB1, hBb, heq⟩ :=
    readControlFlow_SWITCH E P body rest st B bae cp bp rp sw fuel hB hwf hfuel
  refine ⟨c'.cases, c'.case_default, _, heq, ?_, by omega, ?_⟩
  · simp only []
    rw [updateAt_getElem?_eq, updateAt_getElem?_ne _ _ _ _ hBb]
    simp [List.getElem?_eq_getElem hB1, BasicBlock.setTarget]
  · intro O k hbody
    subst hbody
    simp only [Prog.wf, Flat.wf, Bool.and_eq_true, Bool.true_and] at hwf
    simp only [run] at hrun
    obtain ⟨x, hx, hrun2⟩ := bind_eq_ok _ _ _ hrun
    obtain ⟨c, s_c⟩ := x
    simp only [flatStep, PassState.setTarget, PassState.newBlock, PassState.newSwitch,
      PassState.insertCase, DXASSERT_DXBC, hwf.1.1, hwf.1.2, Bool.and_self, if_true, ok_bind,
      bind_pure_comp, pure_bind, Functor.map, Except.map] at hx
    cases hx
    obtain ⟨b2, hb2e, -, hb2, ho⟩ := run_ok_of_eq E P k _ _ none cp _ rp _ (some b1) st1 hrun2
      (by simp [updateAt_length]) (by intro s hs; cases hs; simp [updateAt_length]) hwf.2
    cases hb2e
    simp only [updateAt_length, List.length_append, List.length_singleton] at hb2
    have hne : st.blocks.length + 1 ≠ b1 := by omega
    simp only []
    rw [updateAt_getElem?_ne _ _ _ _ (by omega), updateAt_getElem?_ne _ _ _ _ hne,
      ho.2.2.1 (st.blocks.length + 1) (by simp [updateAt_length]) (by simp),
      updateAt_getElem?_eq]
    simp [BasicBlock.setTarget, List.getElem?_append_right, List.getElem_append_right]

/-- Witness of C23 (amended) on `SWITCH; CASE 4; BREAK; ENDSWITCH; RET` from the
entry block. -/
theorem C23_switch_on_preceding_block_witness :
    ∃ (cases : Map (Option Nat)) (d : Option Nat) (st1 : PassState),
      readControlFlow sampleExternal sampleEnv (4 + 1)
          (CInstruction.SWITCH ::
            (flatten (.flat (.CASE (immediate32 4)) (.flat .BREAK .done)) ++
              CInstruction.ENDSWITCH :: [.RET]))
          PassState.initial (some 0) none none none (some 1) none =
        readControlFlow sampleExternal sampleEnv 4 [.RET] st1
          (some PassState.initial.blocks.length) none none none (some 1) none ∧
      (st1.blocks[0]?).map (fun blk => blk.target) = some (.switch cases d) ∧
      0 ≠ PassState.initial.blocks.length + 1 ∧
      (∀ O k, Prog.flat (.CASE (immediate32 4)) (.flat .BREAK .done) = .flat (.CASE O) k →
        (st1.blocks[PassState.initial.blocks.length + 1]?).map
            (fun blk => (blk.debug_name, blk.target)) =
          some (.switch_empty, .unconditional (some (PassState.initial.blocks.length + 2)))) :=
  C23_switch_on_preceding_block sampleExternal sampleEnv
    (.flat (.CASE (immediate32 4)) (.flat .BREAK .done)) [.RET] PassState.initial 0 none none
    none (some 1) none 4 (by decide) (by decide) (by decide)

/-! ## Sizes computed in 32 bits -/

/-- C24 (counterexample): a structured thread-group-shared-memory declaration
with stride 4 and 2^30 elements: the 32-bit product of stride and count is 0,
so the entry has `size_in_uint = 0`, and `size_in_uint * 4` is not the product
2^32. -/
theorem C24_counterexample :
    (readDeclaration sampleExternal sampleEnv
        (.DCL_THREAD_GROUP_SHARED_MEMORY_STRUCTURED (resourceOperand .INDEX_1D 0 0 0) 4
          1073741824) PassState.initial).toOption.map (fun s => s.shader_info.tgsmMap) =
      some [(0, { size_in_uint := 0, size := 1073741824, stride := 4, structured := true })] ∧
    (0 : Nat) * 4 ≠ 4 * 1073741824 := by
  decide

/-- C24 (amended): a structured thread-group-shared-memory declaration with
byte stride `s` and element count `c` makes the walk fail when `s` is not a
multiple of 4; otherwise the walk goes on with `tgsmMap[id]` set to the
structured entry with stride `s`, size `c` and `size_in_uint` a quarter of the
32-bit product of `s` and `c`; `size_in_uint * 4 = s * c` holds as exact
integers when moreover `s * c` is below 2^32. -/
theorem C24_tgsm_structured (op0 : COperandBase) (s c : Nat) (fuel : Nat)
    (code : List CInstruction) (st : PassState) (ctx bae cp bp rp sw : Option Nat) :
    readControlFlow E P (fuel + 1)
        (.dcl (.DCL_THREAD_GROUP_SHARED_MEMORY_STRUCTURED op0 s c) :: code) st ctx bae cp bp rp
        sw =
      (if s % 4 = 0 then
        readControlFlow E P fuel code
          { st with shader_info := { st.shader_info with
              tgsmMap := Map.assign st.shader_info.tgsmMap op0.m_Index0
                { stride := s, size := c, size_in_uint := u32 (s * c) / 4,
                  structured := true } } }
          ctx bae cp bp rp sw
      else .error .assertionFailed) ∧
    (s % 4 = 0 → s * c < 4294967296 → u32 (s * c) / 4 * 4 = s * c) := by
  constructor
  · rw [readControlFlow_dcl]
    simp only [readDeclaration, dclThreadGroupSharedMemory, land_three, Bool.false_eq_true,
      if_false]
    split <;> rfl
  · intro hs hlt
    obtain ⟨q, rfl⟩ : ∃ q, s = 4 * q := ⟨s / 4, by omega⟩
    rw [u32, Nat.mod_eq_of_lt hlt, Nat.mul_assoc, Nat.mul_div_cancel_left _ (by decide),
      Nat.mul_comm]

/-- Witness of C24 (amended): stride 16 and 8 elements give 32 words. -/
theorem C24_tgsm_structured_witness : u32 (16 * 8) / 4 * 4 = 16 * 8 :=
  (C24_tgsm_structured sampleExternal sampleEnv (resourceOperand .INDEX_1D 0 0 0) 16 8 0 []
    PassState.initial none none none none none none).2 (by decide) (by decide)

/-- C28 (counterexample): a 3-D-indexed constant-buffer declaration with lower
bound 0 and upper bound `0xFFFFFFFE`, which is not the unset value, is recorded
with size `0xFFFFFFFF`, the unbounded sentinel. -/
theorem C28_counterexample :
    (readDeclaration sampleExternal sampleEnv51
        (.DCL_CONSTANT_BUFFER (resourceOperand .INDEX_3D 5 0 4294967294) 4 0)
        PassState.initial).toOption.map
      (fun s => s.shader_info.cbufferMap.map (fun e => (e.1, e.2.range.size))) =
      some [(5, 4294967295)] ∧
    (4294967294 : Nat) ≠ UINT_MAX := by
  decide

/-- C28 (amended): for a 3-D-indexed constant-buffer or sampler declaration
with 32-bit bounds `l ≤ u`, the recorded size is `RangeSize3D u l`: the
sentinel `0xFFFFFFFF` when `u` is the unset value, and `u - l + 1`, at least 1,
otherwise.  It equals the sentinel exactly when `u` is the unset value or
`l = 0` and `u = 0xFFFFFFFE`; in every other case it is at most
`0xFFFFFFFE`. -/
theorem C28_range_size (l u : Nat) (hl : l ≤ u) (hu : u ≤ UINT_MAX) :
    (u = UINT_MAX → RangeSize3D u l = UINT_MAX) ∧
    (u ≠ UINT_MAX → RangeSize3D u l = u - l + 1 ∧ 1 ≤ RangeSize3D u l) ∧
    (RangeSize3D u l = UINT_MAX ↔ (u = UINT_MAX ∨ (l = 0 ∧ u = 4294967294))) ∧
    (¬ (u = UINT_MAX ∨ (l = 0 ∧ u = 4294967294)) →
      1 ≤ RangeSize3D u l ∧ RangeSize3D u l ≤ 4294967294) ∧
    (∀ (op0 : COperandBase) (Size Space : Nat) (st : PassState),
      op0.m_IndexDimension = .INDEX_3D → op0.m_Index1 = l → op0.m_Index2 = u →
      ∃ st1, readDeclaration E P (.DCL_CONSTANT_BUFFER op0 Size Space) st = .ok st1 ∧
        (Map.find? st1.shader_info.cbufferMap op0.m_Index0).map (fun e => e.range.size) =
          some (RangeSize3D u l)) ∧
    (∀ (op0 : COperandBase) (Space : Nat) (st : PassState),
      op0.m_IndexDimension = .INDEX_3D → op0.m_Index1 = l → op0.m_Index2 = u →
      ∃ st1, readDeclaration E P (.DCL_SAMPLER op0 Space) st = .ok st1 ∧
        (Map.find? st1.shader_info.samplerMap op0.m_Index0).map (fun e => e.range.size) =
          some (RangeSize3D u l)) := by
  have hval : RangeSize3D u l = if u = UINT_MAX then UINT_MAX else u - l + 1 := by
    simp only [UINT_MAX] at hu
    by_cases h : u = UINT_MAX
    · simp [RangeSize3D, h]
    · rw [if_neg h]
      simp only [RangeSize3D, ne_eq, h, not_false_eq_true, if_true, u32, u32sub]
      simp only [UINT_MAX] at h
      omega
  simp only [UINT_MAX] at hu hval ⊢
  refine ⟨?_, ?_, ?_, ?_, ?_, ?_⟩
  · intro h
    rw [hval, if_pos h]
  · intro h
    rw [hval, if_neg h]
    exact ⟨rfl, by omega⟩
  · rw [hval]
    split <;> omega
  · rw [hval]
    split <;> omega
  · intro op0 Size Space st h3 h1 h2
    simp only [readDeclaration, dclConstantBuffer, h3, h1, h2]
    exact ⟨_, rfl, by rw [Map.find?_assign]; rfl⟩
  · intro op0 Space st h3 h1 h2
    simp only [readDeclaration, dclSampler, h3, h1, h2]
    exact ⟨_, rfl, by rw [Map.find?_assign]; rfl⟩

/-- Witness of C28 (amended): bounds 2 and 5 give size 4. -/
theorem C28_range_size_witness : RangeSize3D 5 2 = 5 - 2 + 1 ∧ 1 ≤ RangeSize3D 5 2 :=
  (C28_range_size sampleExternal sampleEnv51 2 5 (by decide) (by decide)).2.1 (by decide)

/-! ## The size of the input register file -/

/-- C29: on the stream `dcl_input_sgv v3.x, vertex_id; ret` the build succeeds;
the prelogue holds the effect that stores the vertex id to input register 3,
yet `max_input_register` is 0: the case of `DCL_INPUT_SGV` does not update
it. -/
theorem C29_max_input_register_not_updated :
    (SM50Initialize sampleExternal sampleEnv
        [.dcl (.DCL_INPUT_SGV { resourceOperand .INDEX_1D 3 0 0 with m_WriteMask := 16 }
          .VERTEX_ID), .RET]).toOption.map
      (fun sm => (sm.max_input_register, sm.prelogue_)) =
    some (0, [.vertex_id 0 1 3 1]) := by
  decide

/-! ## The CPU heap of a command chunk -/

/-- C30: a chunk whose heap starts at address 4096, with offset 0.  A first
allocation of 4 bytes with alignment 4 returns 4096 and moves the offset to 4;
a second allocation of 16 bytes with alignment 16 then returns 4100, which is
not a multiple of 16: the adjustment is computed from the heap base, not from
the address at the current offset. -/
theorem C30_misaligned_allocation :
    (CommandChunk.allocateCPUHeap ⟨4096, 0⟩ 4 4) = (4096, ⟨4096, 4⟩) ∧
    (CommandChunk.allocateCPUHeap ⟨4096, 4⟩ 16 16) = (4100, ⟨4096, 20⟩) ∧
    4100 % 16 ≠ 0 := by
  decide

/-! ## CASE labels with the same value -/

theorem Map.keys_insert_sorted {V : Type} (m : Map V) (k : Nat) (v : V)
    (h : m.keys.Pairwise (fun a b => a < b)) :
    (Map.insert m k v).keys.Pairwise (fun a b => a < b) := by
  induction m with
  | nil => simp [Map.insert, Map.keys]
  | cons e m ih =>
    obtain ⟨k0, v0⟩ := e
    have h0 : ∀ a ∈ Map.keys m, k0 < a := by
      simp only [Map.keys, List.map_cons, List.pairwise_cons] at h
      exact h.1
    have hm : (Map.keys m).Pairwise (fun a b => a < b) := by
      simp only [Map.keys, List.map_cons, List.pairwise_cons] at h
      exact h.2
    simp only [Map.insert]
    split
    · rename_i hlt
      simp only [Map.keys, List.map_cons, List.pairwise_cons]
      refine ⟨?_, ?_, hm⟩
      · intro a ha
        rcases List.mem_cons.1 ha with rfl | ha
        · exact hlt
        · exact Nat.lt_trans hlt (h0 a ha)
      · exact h0
    · split
      · exact h
      · rename_i h1 h2
        have ih1 := ih hm
        have hk := Map.mem_keys_insert m k v
        simp only [Map.keys, List.map_cons, List.pairwise_cons] at ih1 hk ⊢
        refine ⟨?_, ih1⟩
        intro a ha
        rcases (hk a).1 ha with rfl | ha
        · omega
        · exact h0 a ha

theorem Map.insert_of_mem {V : Type} (m : Map V) (k : Nat) (v : V)
    (h : m.keys.Pairwise (fun a b => a < b)) (hk : k ∈ m.keys) : Map.insert m k v = m := by
  induction m with
  | nil => simp [Map.keys] at hk
  | cons e m ih =>
    obtain ⟨k0, v0⟩ := e
    simp only [Map.keys, List.map_cons, List.pairwise_cons, List.mem_cons] at h hk
    simp only [Map.insert]
    split
    · rename_i hlt
      rcases hk with rfl | hk
      · omega
      · have := h.1 k hk
        omega
    · split
      · rfl
      · rename_i h1 h2
        rcases hk with rfl | hk
        · exact absurd rfl h2
        · rw [ih h.2 hk]

theorem Map.keys_insertAll_sorted {V : Type} (es : List (Nat × V)) (m : Map V)
    (h : m.keys.Pairwise (fun a b => a < b)) :
    (Map.insertAll m es).keys.Pairwise (fun a b => a < b) := by
  induction es generalizing m with
  | nil => exact h
  | cons e es ih =>
    simp only [Map.insertAll, List.foldl_cons] at ih ⊢
    exact ih _ (Map.keys_insert_sorted m e.1 e.2 h)

theorem Map.mem_keys_of_find? {V : Type} (m : Map V) (k : Nat) (x : V)
    (h : Map.find? m k = some x) : k ∈ m.keys := by
  induction m with
  | nil => cases h
  | cons e m ih =>
    obtain ⟨k0, v0⟩ := e
    simp only [Map.find?] at h
    simp only [Map.keys, List.map_cons, List.mem_cons]
    split at h
    · rename_i hk
      exact Or.inl hk
    · exact Or.inr (ih h)

theorem Map.find?_insertAll_keep {V : Type} (es : List (Nat × V)) (m : Map V) (k : Nat) (x : V)
    (hs : m.keys.Pairwise (fun a b => a < b)) (h : Map.find? m k = some x) :
    Map.find? (Map.insertAll m es) k = some x := by
  induction es generalizing m with
  | nil => exact h
  | cons e es ih =>
    simp only [Map.insertAll, List.foldl_cons] at ih ⊢
    apply ih _ (Map.keys_insert_sorted m e.1 e.2 hs)
    by_cases hk : k = e.1
    · rw [Map.insert_of_mem m e.1 e.2 hs (hk ▸ Map.mem_keys_of_find? m k x h)]
      exact h
    · rw [Map.find?_insert_ne _ _ _ _ hk]
      exact h

theorem Map.length_insertAll_dedup {V : Type} (es : List (Nat × V)) :
    (Map.insertAll ([] : Map V) es).length = (es.map Prod.fst).dedup.length := by
  have hs := Map.keys_insertAll_sorted es ([] : Map V) List.Pairwise.nil
  have hn : (Map.insertAll ([] : Map V) es).keys.Nodup := hs.imp (fun hab => Nat.ne_of_lt hab)
  have hlen : (Map.insertAll ([] : Map V) es).length =
      (Map.insertAll ([] : Map V) es).keys.length := by
    simp [Map.keys]
  rw [hlen, ← List.toFinset_card_of_nodup hn, ← List.card_toFinset]
  congr 1
  ext a
  simp only [List.mem_toFinset]
  rw [Map.mem_keys_insertAll]
  simp [Map.keys]

theorem updateAt_self {α : Type} (f : α → α) (l : List α) (i : Nat) (a : α)
    (h : l[i]? = some a) (hf : f a = a) : updateAt f l i = l := by
  induction l generalizing i with
  | nil => rfl
  | cons x l ih =>
    cases i with
    | zero =>
      simp only [List.getElem?_cons_zero, Option.some.injEq] at h
      subst h
      simp [updateAt, hf]
    | succ i =>
      simp only [List.getElem?_cons_succ] at h
      simp [updateAt, ih i h]

/-- C27: for `SWITCH; body; ENDSWITCH` with a well-nested body, whatever values
its CASE labels carry: the table of the `Switch` terminator has as many entries
as there are distinct values among the CASE labels of the body; a CASE whose
value no earlier CASE of the body carries has its value mapped to the block it
makes; and a CASE whose value an earlier CASE carries makes its block and the
current block falls through into it, but the switch accumulator, and so the
table, stays as it is. -/
theorem C27_duplicate_case (body : Prog) (rest : List CInstruction) (st : PassState)
    (B : Nat) (bae cp bp rp sw : Option Nat) (fuel : Nat)
    (hB : B < st.blocks.length) (hwf : body.wf E P true = true)
    (hfuel : (flatten body).length + 1 ≤ fuel) :
    ∃ (cases : Map (Option Nat)) (d : Option Nat) (st1 : PassState),
      readControlFlow E P (fuel + 1)
          (CInstruction.SWITCH :: (flatten body ++ CInstruction.ENDSWITCH :: rest))
          st (some B) bae cp bp rp sw =
        readControlFlow E P fuel rest st1 (some st.blocks.length) bae cp bp rp sw ∧
      (st1.blocks[B]?).map (fun blk => blk.target) = some (.switch cases d) ∧
      cases.length = body.topCases.dedup.length ∧
      (∀ (pre : Prog) (O : COperandBase) (post : Prog),
        body = pre.append (.flat (.CASE O) post) →
        ∃ (b_mid : Nat) (st_mid : PassState),
          readControlFlow E P fuel
              (flatten pre ++ CInstruction.CASE O ::
                (flatten post ++ CInstruction.ENDSWITCH :: rest))
              ((st.newBlock .endswitch).2.newSwitch.2.newBlock .switch_empty).2
              (some (st.blocks.length + 1)) none cp (some st.blocks.length) rp
              (some st.switches.length) =
            readControlFlow E P (fuel - pre.ntop)
              (CInstruction.CASE O :: (flatten post ++ CInstruction.ENDSWITCH :: rest))
              st_mid (some b_mid) none cp (some st.blocks.length) rp
              (some st.switches.length) ∧
          (O.m_Value0 ∉ pre.topCases →
            Map.find? cases O.m_Value0 = some (some st_mid.blocks.length)) ∧
          (O.m_Value0 ∈ pre.topCases →
            ∀ (fuel1 : Nat) (code : List CInstruction),
              readControlFlow E P (fuel1 + 1) (CInstruction.CASE O :: code) st_mid (some b_mid)
                  none cp (some st.blocks.length) rp (some st.switches.length) =
                readControlFlow E P fuel1 code
                  { st_mid with
                    blocks := updateAt
                      (BasicBlock.setTarget (.unconditional (some st_mid.blocks.length)))
                      (st_mid.blocks ++ [{ debug_name := .switch_case, instructions := [],
                                           target := .undefined }]) b_mid }
                  (some st_mid.blocks.length) none cp (some st.blocks.length) rp
                  (some st.switches.length))) := by
  have hl0 : ((st.newBlock .endswitch).2.newSwitch.2.newBlock .switch_empty).2.blocks.length
      = st.blocks.length + 2 := by
    simp [newBlock_length, newSwitch_blocks]
  have hc0 : ((st.newBlock .endswitch).2.newSwitch.2.newBlock .switch_empty).2.switches[
      st.switches.length]? = some { cases := [], case_default := none } := by
    simp [PassState.newBlock, PassState.newSwitch]
  obtain ⟨b1, st1, c', hrun, hc', hB1, hBb, heq⟩ :=
    readControlFlow_SWITCH E P body rest st B bae cp bp rp sw fuel hB hwf hfuel
  refine ⟨c'.cases, c'.case_default, _, heq, ?_, ?_, ?_⟩
  · simp only []
    rw [updateAt_getElem?_eq, updateAt_getElem?_ne _ _ _ _ hBb]
    simp [List.getElem?_eq_getElem hB1, BasicBlock.setTarget]
  · obtain ⟨b2, st2, bs, c'', hr, hl, hc'', hcs, _⟩ :=
      run_acc E P body _ (st.blocks.length + 1) none cp (some st.blocks.length)
        rp st.switches.length _ (by rw [hl0]; omega) hc0 hwf
    have e := hrun.symm.trans hr
    cases e
    have e2 := hc'.symm.trans hc''
    cases e2
    rw [hcs, Map.length_insertAll_dedup, map_fst_zip_of_length _ _ hl]
  · intro pre O post hsplit
    subst hsplit
    have hfl : (flatten pre).length ≤ fuel := by
      have := hfuel
      rw [flatten_append] at this
      simp only [List.length_append] at this
      omega
    obtain ⟨b_mid, st_mid, c1, bs1, b', st', bs, c'', hpre, hc1, hl1, hcases1, -, hall, hc'',
      hl, hcases, -⟩ := run_split E P pre (.CASE O) post _ (st.blocks.length + 1)
        st.switches.length none cp (some st.blocks.length) rp _ (by rw [hl0]; omega) hc0 hwf
    rw [hrun] at hall
    cases hall
    have e2 := hc'.symm.trans hc''
    cases e2
    have hs1 : c1.cases.keys.Pairwise (fun a b => a < b) := by
      rw [hcases1]
      exact Map.keys_insertAll_sorted _ _ List.Pairwise.nil
    have hkeys : ∀ v, v ∈ c1.cases.keys ↔ v ∈ pre.topCases := by
      intro v
      rw [hcases1, Map.mem_keys_insertAll, map_fst_zip_of_length _ _ hl1]
      simp [Map.keys]
    refine ⟨b_mid, st_mid, ?_, ?_, ?_⟩
    · rw [readControlFlow_flatten E P pre fuel _ _ (some (st.blocks.length + 1)) none cp
        (some st.blocks.length) rp (some st.switches.length) hfl (Or.inl rfl), hpre, ok_bind]
    · intro hnew
      rw [hcases]
      apply Map.find?_insertAll_keep
      · exact Map.keys_insert_sorted _ _ _ hs1
      · simp only [Flat.acc]
        exact Map.find?_insert_new _ _ _ (fun hm => hnew ((hkeys _).1 hm))
    · intro hold fuel1 code
      rw [wf_append] at hwf
      simp only [Prog.wf, Flat.wf, Bool.and_eq_true, Bool.true_and] at hwf
      have hk := (hkeys _).2 hold
      have hid : updateAt (fun c : BasicBlockSwitch =>
          { c with cases := Map.insert c.cases O.m_Value0 (some st_mid.blocks.length) })
          st_mid.switches st.switches.length = st_mid.switches := by
        apply updateAt_self _ _ _ c1 hc1
        rw [Map.insert_of_mem _ _ _ hs1 hk]
      simp only [readControlFlow, PassState.setTarget, PassState.newBlock,
        PassState.insertCase, DXASSERT_DXBC, hwf.2.1.1, hwf.2.1.2, Bool.and_self, if_true,
        ok_bind, hid]

/-- Witness of C27 on `SWITCH; CASE 4; BREAK; CASE 4; BREAK; ENDSWITCH; RET`: two
CASE labels, one table entry. -/
theorem C27_duplicate_case_witness :
    ∃ (cases : Map (Option Nat)) (d : Option Nat) (st1 : PassState),
      readControlFlow sampleExternal sampleEnv (6 + 1)
          (CInstruction.SWITCH ::
            (flatten (.flat (.CASE (immediate32 4)) (.flat .BREAK
                (.flat (.CASE (immediate32 4)) (.flat .BREAK .done)))) ++
              CInstruction.ENDSWITCH :: [.RET]))
          PassState.initial (some 0) none none none (some 1) none =
        readControlFlow sampleExternal sampleEnv 6 [.RET] st1
          (some PassState.initial.blocks.length) none none none (some 1) none ∧
      (st1.blocks[0]?).map (fun blk => blk.target) = some (.switch cases d) ∧
      cases.length = 1 := by
  obtain ⟨cases, d, st1, h1, h2, h3, -⟩ := C27_duplicate_case sampleExternal sampleEnv
    (.flat (.CASE (immediate32 4)) (.flat .BREAK
      (.flat (.CASE (immediate32 4)) (.flat .BREAK .done)))) [.RET] PassState.initial 0 none
    none none (some 1) none 6 (by decide) (by decide) (by decide)
  exact ⟨cases, d, st1, h1, h2, h3.trans (by decide)⟩

/-! ## Termination -/

theorem Consumes.cons (tok : CInstruction) (code : List CInstruction) (res : WalkResult)
    (h : Consumes code res) : Consumes (tok :: code) res := by
  intro r code1 st1 hres
  have := h r code1 st1 hres
  simp only [List.length_cons]
  omega

theorem readControlFlow_consumes :
    ∀ (fuel : Nat) (code : List CInstruction) (st : PassState)
      (ctx bae cp bp rp sw : Option Nat),
      Consumes code (readControlFlow E P fuel code st ctx bae cp bp rp sw) := by
  intro fuel
  induction fuel with
  | zero =>
    intro code st ctx bae cp bp rp sw r code1 st1 h
    cases h
  | succ fuel ih =>
    intro code st ctx bae cp bp rp sw
    cases code with
    | nil =>
      intro r code1 st1 h
      cases h
    | cons Inst code =>
      have flat : ∀ t : Flat, (t = .RET → bp.isSome ∨ bae.isSome) →
          Consumes (t.token :: code)
            (readControlFlow E P (fuel + 1) (t.token :: code) st ctx bae cp bp rp sw) := by
        intro t ht
        rw [readControlFlow_flat E P t fuel code st ctx bae cp bp rp sw ht]
        cases hfs : flatStep E P t st ctx cp bp rp sw with
        | error e =>
          intro r code1 st1 h
          cases h
        | ok r1 => exact Consumes.cons _ _ _ (ih code r1.2 r1.1 bae cp bp rp sw)
      have closes : ∀ (m : Except DecodeError PassState) (r0 : Option Nat),
          Consumes (Inst :: code) (m >>= fun s => pure (r0, code, s)) := by
        intro m r0 r code1 st1 h
        obtain ⟨s1, -, h2⟩ := bind_eq_ok _ _ _ h
        cases h2
        simp
      cases Inst with
      | other inst => exact flat (.other inst) (fun h => by cases h)
      | dcl d => exact flat (.dcl d) (fun h => by cases h)
      | BREAK => exact flat .BREAK (fun h => by cases h)
      | BREAKC inst => exact flat (.BREAKC inst) (fun h => by cases h)
      | CONTINUE => exact flat .CONTINUE (fun h => by cases h)
      | CONTINUEC inst => exact flat (.CONTINUEC inst) (fun h => by cases h)
      | RETC inst => exact flat (.RETC inst) (fun h => by cases h)
      | DISCARD inst => exact flat (.DISCARD inst) (fun h => by cases h)
      | CASE O => exact flat (.CASE O) (fun h => by cases h)
      | DEFAULT => exact flat .DEFAULT (fun h => by cases h)
      | RET =>
        by_cases hsc : bp.isSome ∨ bae.isSome
        · exact flat .RET (fun _ => hsc)
        · have hbp : bp = none := by
            cases bp with
            | none => rfl
            | some x => exact absurd (Or.inl rfl) hsc
          have hbae : bae = none := by
            cases bae with
            | none => rfl
            | some x => exact absurd (Or.inr rfl) hsc
          subst hbp hbae
          simp only [readControlFlow, Option.isNone_none, Bool.and_self, if_true]
          exact closes _ _
      | ENDIF =>
        intro r code1 st1 h
        simp only [readControlFlow] at h
        obtain ⟨u, -, h⟩ := bind_eq_ok _ _ _ h
        exact closes _ _ r code1 st1 h
      | ENDLOOP =>
        simp only [readControlFlow]
        exact closes _ _
      | ENDSWITCH =>
        simp only [readControlFlow]
        exact closes _ _
      | ELSE =>
        intro r code1 st1 h
        simp only [readControlFlow] at h
        obtain ⟨u, -, h⟩ := bind_eq_ok _ _ _ h
        obtain ⟨s1, -, h⟩ := bind_eq_ok _ _ _ h
        exact Consumes.cons _ _ _ (ih _ _ _ _ _ _ _ _) r code1 st1 h
      | IF inst =>
        intro r code1 st1 h
        simp only [readControlFlow] at h
        obtain ⟨s1, -, h⟩ := bind_eq_ok _ _ _ h
        obtain ⟨x, hx, h⟩ := bind_eq_ok _ _ _ h
        obtain ⟨a, code2, s2⟩ := x
        have h1 := ih _ _ _ _ _ _ _ _ a code2 s2 hx
        have h2 : code1.length < code2.length := ih _ _ _ _ _ _ _ _ r code1 st1 h
        simp only [List.length_cons]
        omega
      | LOOP =>
        intro r code1 st1 h
        simp only [readControlFlow] at h
        obtain ⟨s1, -, h⟩ := bind_eq_ok _ _ _ h
        obtain ⟨x, hx, h⟩ := bind_eq_ok _ _ _ h
        obtain ⟨a, code2, s2⟩ := x
        obtain ⟨u, -, h⟩ := bind_eq_ok _ _ _ h
        have h1 := ih _ _ _ _ _ _ _ _ a code2 s2 hx
        have h2 : code1.length < code2.length := ih _ _ _ _ _ _ _ _ r code1 st1 h
        simp only [List.length_cons]
        omega
      | SWITCH =>
        intro r code1 st1 h
        simp only [readControlFlow] at h
        obtain ⟨x, hx, h⟩ := bind_eq_ok _ _ _ h
        obtain ⟨a, code2, s2⟩ := x
        obtain ⟨u, -, h⟩ := bind_eq_ok _ _ _ h
        obtain ⟨t, -, h⟩ := bind_eq_ok _ _ _ h
        obtain ⟨s3, -, h⟩ := bind_eq_ok _ _ _ h
        have h1 := ih _ _ _ _ _ _ _ _ a code2 s2 hx
        have h2 : code1.length < code2.length := ih _ _ _ _ _ _ _ _ r code1 st1 h
        simp only [List.length_cons]
        omega

theorem Settled.bind_prim {α : Type} (x : Except DecodeError α) (hx : x ≠ .error .outOfFuel)
    (f g : α → WalkResult) (h : ∀ a, x = .ok a → Settled (f a) (g a)) :
    Settled (x >>= f) (x >>= g) := by
  cases x with
  | error e => exact ⟨fun he => hx (by rw [error_bind] at he; cases he; rfl), rfl⟩
  | ok a => exact h a rfl

theorem Settled.bind_walk (w w2 : WalkResult) (hw : Settled w w2)
    (f g : Option Nat × List CInstruction × PassState → WalkResult)
    (h : ∀ a, w = .ok a → Settled (f a) (g a)) : Settled (w >>= f) (w2 >>= g) := by
  obtain ⟨h1, h2⟩ := hw
  subst h2
  exact Settled.bind_prim w2 h1 f g h

theorem Settled.closes (m : Except DecodeError PassState) (hm : m ≠ .error .outOfFuel)
    (r0 : Option Nat) (code : List CInstruction) :
    Settled (m >>= fun s => (pure (r0, code, s) : WalkResult))
      (m >>= fun s => (pure (r0, code, s) : WalkResult)) := by
  refine ⟨?_, rfl⟩
  cases m with
  | error e => exact fun he => hm (by rw [error_bind] at he; cases he; rfl)
  | ok a => intro he; cases he

theorem setTarget_noFuel (st : PassState) (ctx : Option Nat) (t : BasicBlockTarget) :
    st.setTarget ctx t ≠ .error .outOfFuel := by
  cases ctx <;> simp [PassState.setTarget]

theorem pushInstruction_noFuel (st : PassState) (ctx : Option Nat) (x : Instruction) :
    st.pushInstruction ctx x ≠ .error .outOfFuel := by
  cases ctx <;> simp [PassState.pushInstruction]

theorem insertCase_noFuel (st : PassState) (sw : Option Nat) (v : Nat) (c : Option Nat) :
    st.insertCase sw v c ≠ .error .outOfFuel := by
  cases sw <;> simp [PassState.insertCase]

theorem setDefault_noFuel (st : PassState) (sw : Option Nat) (c : Option Nat) :
    st.setDefault sw c ≠ .error .outOfFuel := by
  cases sw <;> simp [PassState.setDefault]

theorem switchTarget_noFuel (st : PassState) (sw : Option Nat) :
    st.switchTarget sw ≠ .error .outOfFuel := by
  cases sw with
  | none => simp [PassState.switchTarget]
  | some s =>
    simp only [PassState.switchTarget]
    split <;> simp

theorem DXASSERT_DXBC_noFuel (c : Bool) : DXASSERT_DXBC c ≠ .error .outOfFuel := by
  cases c <;> simp [DXASSERT_DXBC]

theorem readDeclaration_error (d : Declaration) (st : PassState) (e : DecodeError)
    (h : readDeclaration E P d st = .error e) : e = .assertionFailed := by
  cases d <;>
    simp only [readDeclaration, dclConstantBuffer, dclSampler, PassState.setSrv,
      PassState.setUav, dclThreadGroupSharedMemory, dclInputSGV, dclInput, dclInputThread,
      dclInputPSSIV, dclInputPSSGV, dclInputPS, dclOutputSIV, dclOutput, customData,
      PassState.DefineInput, PassState.DefineOutput, PassState.pushPrelogue,
      PassState.pushEpilogue, findInputElement, findOutputElement] at h <;>
    (repeat' split at h) <;> cases h <;>
    first
      | rfl
      | (rename_i heq
         split at heq <;> cases heq
         rfl)

theorem readDeclaration_noFuel (d : Declaration) (st : PassState) :
    readDeclaration E P d st ≠ .error .outOfFuel := by
  intro h
  have := readDeclaration_error E P d st _ h
  cases this

theorem bind_noFuel {α β : Type} (x : Except DecodeError α) (f : α → Except DecodeError β)
    (hx : x ≠ .error .outOfFuel) (hf : ∀ a, f a ≠ .error .outOfFuel) :
    (x >>= f) ≠ .error .outOfFuel := by
  cases x with
  | error e => exact fun he => hx (by rw [error_bind] at he; cases he; rfl)
  | ok a => exact hf a

theorem pure_noFuel {α : Type} (a : α) :
    (pure a : Except DecodeError α) ≠ .error .outOfFuel := by
  intro h
  cases h

theorem flatStep_noFuel (t : Flat) (st : PassState) (ctx cp bp rp sw : Option Nat) :
    flatStep E P t st ctx cp bp rp sw ≠ .error .outOfFuel := by
  cases t <;> simp only [flatStep, readOther] <;>
    repeat (first
      | exact pure_noFuel _
      | (refine bind_noFuel _ _ ?_ (fun _ => ?_))
      | exact setTarget_noFuel _ _ _
      | exact pushInstruction_noFuel _ _ _
      | exact insertCase_noFuel _ _ _ _
      | exact setDefault_noFuel _ _ _
      | exact DXASSERT_DXBC_noFuel _
      | exact readDeclaration_noFuel E P _ _)

theorem readControlFlow_settled :
    ∀ (fuel : Nat) (code : List CInstruction) (st : PassState)
      (ctx bae cp bp rp sw : Option Nat) (fuel2 : Nat),
      code.length < fuel → code.length < fuel2 →
      Settled (readControlFlow E P fuel code st ctx bae cp bp rp sw)
        (readControlFlow E P fuel2 code st ctx bae cp bp rp sw) := by
  intro fuel
  induction fuel with
  | zero =>
    intro code st ctx bae cp bp rp sw fuel2 h _
    omega
  | succ fuel ih =>
    intro code st ctx bae cp bp rp sw fuel2 hf hf2
    obtain ⟨m, rfl⟩ : ∃ m, fuel2 = m + 1 := ⟨fuel2 - 1, by omega⟩
    cases code with
    | nil =>
      refine ⟨?_, rfl⟩
      intro h
      cases h
    | cons Inst code =>
      simp only [List.length_cons] at hf hf2
      have flat : ∀ t : Flat, (t = .RET → bp.isSome ∨ bae.isSome) →
          Settled (readControlFlow E P (fuel + 1) (t.token :: code) st ctx bae cp bp rp sw)
            (readControlFlow E P (m + 1) (t.token :: code) st ctx bae cp bp rp sw) := by
        intro t ht
        rw [readControlFlow_flat E P t fuel code st ctx bae cp bp rp sw ht,
          readControlFlow_flat E P t m code st ctx bae cp bp rp sw ht]
        exact Settled.bind_prim _ (flatStep_noFuel E P t st ctx cp bp rp sw) _ _
          (fun r _ => ih code r.2 r.1 bae cp bp rp sw m (by omega) (by omega))
      cases Inst with
      | other inst => exact flat (.other inst) (fun h => by cases h)
      | dcl d => exact flat (.dcl d) (fun h => by cases h)
      | BREAK => exact flat .BREAK (fun h => by cases h)
      | BREAKC inst => exact flat (.BREAKC inst) (fun h => by cases h)
      | CONTINUE => exact flat .CONTINUE (fun h => by cases h)
      | CONTINUEC inst => exact flat (.CONTINUEC inst) (fun h => by cases h)
      | RETC inst => exact flat (.RETC inst) (fun h => by cases h)
      | DISCARD inst => exact flat (.DISCARD inst) (fun h => by cases h)
      | CASE O => exact flat (.CASE O) (fun h => by cases h)
      | DEFAULT => exact flat .DEFAULT (fun h => by cases h)
      | RET =>
        by_cases hsc : bp.isSome ∨ bae.isSome
        · exact flat .RET (fun _ => hsc)
        · have hbp : bp = none := by
            cases bp with
            | none => rfl
            | some x => exact absurd (Or.inl rfl) hsc
          have hbae : bae = none := by
            cases bae with
            | none => rfl
            | some x => exact absurd (Or.inr rfl) hsc
          subst hbp hbae
          simp only [readControlFlow, Option.isNone_none, Bool.and_self, if_true]
          exact Settled.closes _ (setTarget_noFuel _ _ _) _ _
      | ENDIF =>
        simp only [readControlFlow]
        refine Settled.bind_prim _ (DXASSERT_DXBC_noFuel _) _ _ (fun _ _ => ?_)
        exact Settled.closes _ (setTarget_noFuel _ _ _) _ _
      | ENDLOOP =>
        simp only [readControlFlow]
        exact Settled.closes _ (setTarget_noFuel _ _ _) _ _
      | ENDSWITCH =>
        simp only [readControlFlow]
        exact Settled.closes _ (setTarget_noFuel _ _ _) _ _
      | ELSE =>
        simp only [readControlFlow]
        refine Settled.bind_prim _ (DXASSERT_DXBC_noFuel _) _ _ (fun _ _ => ?_)
        refine Settled.bind_prim _ (setTarget_noFuel _ _ _) _ _ (fun s1 _ => ?_)
        exact ih code s1 _ _ cp bp rp sw m (by omega) (by omega)
      | IF inst =>
        simp only [readControlFlow]
        refine Settled.bind_prim _ (setTarget_noFuel _ _ _) _ _ (fun s1 _ => ?_)
        refine Settled.bind_walk _ _ (ih code s1 _ _ cp bp rp none m (by omega) (by omega)) _ _
          (fun x hx => ?_)
        obtain ⟨a, code2, s2⟩ := x
        have hc : code2.length < code.length := readControlFlow_consumes E P _ _ _ _ _ _ _ _ _
          a code2 s2 hx
        exact ih code2 s2 a bae cp bp rp sw m (by omega) (by omega)
      | LOOP =>
        simp only [readControlFlow]
        refine Settled.bind_prim _ (setTarget_noFuel _ _ _) _ _ (fun s1 _ => ?_)
        refine Settled.bind_walk _ _ (ih code s1 _ _ _ _ rp none m (by omega) (by omega)) _ _
          (fun x hx => ?_)
        obtain ⟨a, code2, s2⟩ := x
        have hc : code2.length < code.length := readControlFlow_consumes E P _ _ _ _ _ _ _ _ _
          a code2 s2 hx
        refine Settled.bind_prim _ (DXASSERT_DXBC_noFuel _) _ _ (fun _ _ => ?_)
        exact ih code2 s2 _ bae cp bp rp sw m (by omega) (by omega)
      | SWITCH =>
        simp only [readControlFlow]
        refine Settled.bind_walk _ _ (ih code _ _ _ cp _ rp _ m (by omega) (by omega)) _ _
          (fun x hx => ?_)
        obtain ⟨a, code2, s2⟩ := x
        have hc : code2.length < code.length := readControlFlow_consumes E P _ _ _ _ _ _ _ _ _
          a code2 s2 hx
        refine Settled.bind_prim _ (DXASSERT_DXBC_noFuel _) _ _ (fun _ _ => ?_)
        refine Settled.bind_prim _ (switchTarget_noFuel _ _) _ _ (fun t _ => ?_)
        refine Settled.bind_prim _ (setTarget_noFuel _ _ _) _ _ (fun s3 _ => ?_)
        exact ih code2 s3 _ bae cp bp rp sw m (by omega) (by omega)

/-- C21: on every token list, a call of `readControlFlow` with more fuel than
there are tokens never runs out of fuel: it returns a block or fails with a
decode error, and its result is the one of the call with `code.length + 1`
units of fuel, whatever larger amount it is given.  A call that returns a block
has consumed a prefix `done` of at least one token and has handled the tokens
of `done` one after the other, each once.  So `SM50Initialize` never fails for
lack of fuel. -/
theorem C21_terminates (code : List CInstruction) (fuel : Nat) (st : PassState)
    (ctx bae cp bp rp sw : Option Nat) (hf : code.length < fuel) :
    readControlFlow E P fuel code st ctx bae cp bp rp sw ≠ .error .outOfFuel ∧
    readControlFlow E P fuel code st ctx bae cp bp rp sw =
      readControlFlow E P (code.length + 1) code st ctx bae cp bp rp sw ∧
    (∀ r code1 st1, readControlFlow E P fuel code st ctx bae cp bp rp sw = .ok (r, code1, st1) →
      ∃ done, done ≠ [] ∧ code = done ++ code1 ∧
        sideFold E P done st.side = .ok st1.side) ∧
    SM50Initialize E P code ≠ .error .outOfFuel := by
  have hs := readControlFlow_settled E P fuel code st ctx bae cp bp rp sw (code.length + 1) hf
    (Nat.lt_succ_self _)
  refine ⟨hs.1, hs.2.symm, ?_, ?_⟩
  · intro r code1 st1 h
    obtain ⟨done, h1, h2, -, -⟩ := readControlFlow_facts E P _ _ _ _ _ _ _ _ _ _ _ _ h
    have hc := readControlFlow_consumes E P _ _ _ _ _ _ _ _ _ _ _ _ h
    refine ⟨done, ?_, h1, h2⟩
    intro hnil
    rw [hnil, List.nil_append] at h1
    rw [h1] at hc
    omega
  · have h0 := (readControlFlow_settled E P (code.length + 1) code PassState.initial (some 0)
      none none none (some 1) none (code.length + 1) (Nat.lt_succ_self _)
      (Nat.lt_succ_self _)).1
    simp only [SM50Initialize]
    refine bind_noFuel _ _ h0 (fun x => ?_)
    obtain ⟨r, c, s⟩ := x
    exact bind_noFuel _ _ (DXASSERT_DXBC_noFuel _) (fun _ => pure_noFuel _)

/-- Witness of C21 on `1; RET` with 5 units of fuel. -/
theorem C21_terminates_witness :
    readControlFlow sampleExternal sampleEnv 5 [.other 1, .RET] PassState.initial (some 0) none
        none none (some 1) none ≠ .error .outOfFuel :=
  (C21_terminates sampleExternal sampleEnv [.other 1, .RET] 5 PassState.initial (some 0) none
    none none (some 1) none (by decide)).1

/-! ## Declarations and the block graph -/

theorem SameGraph.rel_prim (d : Declaration) (x x2 : Except DecodeError PassState)
    (hx : PrimRel x x2) (f f2 : PassState → WalkResult)
    (h : ∀ s s2, x = .ok s → x2 = .ok s2 → s2.blocks = s.blocks → s2.switches = s.switches →
      SameGraph d (f s) (f2 s2)) :
    SameGraph d (x >>= f) (x2 >>= f2) := by
  cases x with
  | error e =>
    cases x2 with
    | error e2 => exact hx
    | ok s2 => exact hx.elim
  | ok s =>
    cases x2 with
    | error e2 => exact hx.elim
    | ok s2 => exact h s s2 rfl rfl hx.1 hx.2

theorem SameGraph.rel_same (d : Declaration) {α : Type} (x : Except DecodeError α)
    (f f2 : α → WalkResult) (h : ∀ a, x = .ok a → SameGraph d (f a) (f2 a)) :
    SameGraph d (x >>= f) (x >>= f2) := by
  cases x with
  | error e => exact rfl
  | ok a => exact h a rfl

theorem SameGraph.rel_step (d : Declaration)
    (y y2 : Except DecodeError (Option Nat × PassState)) (hy : StepRel y y2)
    (f f2 : Option Nat × PassState → WalkResult)
    (h : ∀ c s s2, y = .ok (c, s) → y2 = .ok (c, s2) → s2.blocks = s.blocks →
      s2.switches = s.switches → SameGraph d (f (c, s)) (f2 (c, s2))) :
    SameGraph d (y >>= f) (y2 >>= f2) := by
  cases y with
  | error e =>
    cases y2 with
    | error e2 => exact hy
    | ok s2 => exact hy.elim
  | ok a =>
    cases y2 with
    | error e2 => exact hy.elim
    | ok a2 =>
      obtain ⟨c, s⟩ := a
      obtain ⟨c2, s2⟩ := a2
      obtain ⟨h1, h2, h3⟩ := hy
      subst h1
      exact h c2 s s2 rfl rfl h2 h3

theorem SameGraph.rel_walk (d : Declaration) (w w2 : WalkResult) (hw : SameGraph d w w2)
    (k k2 : Option Nat × List CInstruction × PassState → WalkResult)
    (h : ∀ r c c2 s s2, w = .ok (r, c, s) → w2 = .ok (r, c2, s2) → s2.blocks = s.blocks →
      s2.switches = s.switches → (c2 = c ∨ Inserted d c c2) →
      SameGraph d (k (r, c, s)) (k2 (r, c2, s2))) :
    SameGraph d (w >>= k) (w2 >>= k2) := by
  cases w with
  | error e =>
    cases w2 with
    | error e2 => exact hw
    | ok s2 => exact hw.elim
  | ok a =>
    cases w2 with
    | error e2 => exact hw.elim
    | ok a2 =>
      obtain ⟨r, c, s⟩ := a
      obtain ⟨r2, c2, s2⟩ := a2
      obtain ⟨h1, h2, h3, h4⟩ := hw
      subst h1
      exact h r2 c c2 s s2 rfl rfl h2 h3 h4

theorem SameGraph.rel_closes (d : Declaration) (m m2 : Except DecodeError PassState)
    (hm : PrimRel m m2) (r0 : Option Nat) (code code2 : List CInstruction)
    (hR : code2 = code ∨ Inserted d code code2) :
    SameGraph d (m >>= fun s => (pure (r0, code, s) : WalkResult))
      (m2 >>= fun s => (pure (r0, code2, s) : WalkResult)) :=
  SameGraph.rel_prim d m m2 hm _ _ (fun _ _ _ _ hb hs => ⟨rfl, hb, hs, hR⟩)

theorem setTarget_rel (st st2 : PassState) (ctx : Option Nat) (t : BasicBlockTarget)
    (hb : st2.blocks = st.blocks) (hs : st2.switches = st.switches) :
    PrimRel (st.setTarget ctx t) (st2.setTarget ctx t) := by
  cases ctx with
  | none => exact rfl
  | some i => exact ⟨by simp [hb], hs⟩

theorem pushInstruction_rel (st st2 : PassState) (ctx : Option Nat) (x : Instruction)
    (hb : st2.blocks = st.blocks) (hs : st2.switches = st.switches) :
    PrimRel (st.pushInstruction ctx x) (st2.pushInstruction ctx x) := by
  cases ctx with
  | none => exact rfl
  | some i => exact ⟨by simp [hb], hs⟩

theorem insertCase_rel (st st2 : PassState) (sw : Option Nat) (v : Nat) (c : Option Nat)
    (hb : st2.blocks = st.blocks) (hs : st2.switches = st.switches) :
    PrimRel (st.insertCase sw v c) (st2.insertCase sw v c) := by
  cases sw with
  | none => exact rfl
  | some i => exact ⟨hb, by simp [hs]⟩

theorem setDefault_rel (st st2 : PassState) (sw : Option Nat) (c : Option Nat)
    (hb : st2.blocks = st.blocks) (hs : st2.switches = st.switches) :
    PrimRel (st.setDefault sw c) (st2.setDefault sw c) := by
  cases sw with
  | none => exact rfl
  | some i => exact ⟨hb, by simp [hs]⟩

theorem switchTarget_eq (st st2 : PassState) (sw : Option Nat)
    (hs : st2.switches = st.switches) : st2.switchTarget sw = st.switchTarget sw := by
  cases sw with
  | none => rfl
  | some i => simp [PassState.switchTarget, hs]

theorem readDeclaration_rel (d0 : Declaration) (st st2 : PassState)
    (hb : st2.blocks = st.blocks) (hs : st2.switches = st.switches) :
    PrimRel (readDeclaration E P d0 st) (readDeclaration E P d0 st2) := by
  have hbool := readDeclaration_toBool E P d0 st st2
  cases h1 : readDeclaration E P d0 st with
  | error e =>
    cases h2 : readDeclaration E P d0 st2 with
    | error e2 =>
      rw [readDeclaration_error E P d0 st e h1, readDeclaration_error E P d0 st2 e2 h2]
      exact rfl
    | ok s2 => simp [h1, h2, Except.toBool] at hbool
  | ok s =>
    cases h2 : readDeclaration E P d0 st2 with
    | error e2 => simp [h1, h2, Except.toBool] at hbool
    | ok s2 =>
      obtain ⟨a1, a2⟩ := readDeclaration_frame E P d0 st s h1
      obtain ⟨b1, b2⟩ := readDeclaration_frame E P d0 st2 s2 h2
      exact ⟨by rw [b1, a1, hb], by rw [b2, a2, hs]⟩

theorem flatStep_rel (hE : E.lowersAlike) (t : Flat) (st st2 : PassState)
    (ctx cp bp rp sw : Option Nat)
    (hb : st2.blocks = st.blocks) (hs : st2.switches = st.switches) :
    StepRel (flatStep E P t st ctx cp bp rp sw) (flatStep E P t st2 ctx cp bp rp sw) := by
  cases t
  case dcl d0 =>
    have h := readDeclaration_rel E P d0 st st2 hb hs
    simp only [flatStep]
    cases h1 : readDeclaration E P d0 st with
    | error e =>
      cases h2 : readDeclaration E P d0 st2 with
      | error e2 =>
        rw [h1, h2] at h
        exact h
      | ok s2 =>
        rw [h1, h2] at h
        exact h.elim
    | ok s =>
      cases h2 : readDeclaration E P d0 st2 with
      | error e2 =>
        rw [h1, h2] at h
        exact h.elim
      | ok s2 =>
        rw [h1, h2] at h
        exact ⟨rfl, h.1, h.2⟩
  case other inst =>
    simp only [flatStep, readOther]
    rw [hE inst st2.shader_info st.shader_info]
    cases ctx with
    | none => exact rfl
    | some i => exact ⟨rfl, by simp [hb], hs⟩
  all_goals
    obtain ⟨b2, s2, si2, fs2, p2, e2, mi2, mo2, tg2⟩ := st2
    simp only at hb hs
    subst hb hs
    cases ctx <;> cases sw <;>
      simp [flatStep, StepRel, PassState.setTarget, PassState.newBlock,
        PassState.pushInstruction, PassState.insertCase, PassState.setDefault, DXASSERT_DXBC,
        bind, Except.bind, pure, Except.pure] <;>
      (split_ifs <;> simp)

theorem same_head (d : Declaration) (hE : E.lowersAlike) (n : Nat)
    (IH : InsertionHolds E P d n) (tok : CInstruction) (tl tl2 : List CInstruction)
    (hR : tl2 = tl ∨ Inserted d tl tl2) (htl : tl.length ≤ n) (st st2 : PassState)
    (ctx bae cp bp rp sw : Option Nat) (g g2 : Nat)
    (hb : st2.blocks = st.blocks) (hs : st2.switches = st.switches)
    (hg : tl.length < g) (hg2 : tl2.length < g2) :
    SameGraph d (readControlFlow E P (g + 1) (tok :: tl) st ctx bae cp bp rp sw)
      (readControlFlow E P (g2 + 1) (tok :: tl2) st2 ctx bae cp bp rp sw) := by
  have flat : ∀ t : Flat, (t = .RET → bp.isSome ∨ bae.isSome) →
      SameGraph d (readControlFlow E P (g + 1) (t.token :: tl) st ctx bae cp bp rp sw)
        (readControlFlow E P (g2 + 1) (t.token :: tl2) st2 ctx bae cp bp rp sw) := by
    intro t ht
    rw [readControlFlow_flat E P t g tl st ctx bae cp bp rp sw ht,
      readControlFlow_flat E P t g2 tl2 st2 ctx bae cp bp rp sw ht]
    exact SameGraph.rel_step d _ _ (flatStep_rel E P hE t st st2 ctx cp bp rp sw hb hs) _ _
      (fun c s s2 _ _ hb1 hs1 => IH tl tl2 s s2 c bae cp bp rp sw g g2 htl hR hb1 hs1 hg hg2)
  obtain ⟨b2, s2, si2, fs2, p2, e2, mi2, mo2, tg2⟩ := st2
  simp only at hb hs
  subst hb hs
  cases tok with
  | other inst => exact flat (.other inst) (fun h => by cases h)
  | dcl d0 => exact flat (.dcl d0) (fun h => by cases h)
  | BREAK => exact flat .BREAK (fun h => by cases h)
  | BREAKC inst => exact flat (.BREAKC inst) (fun h => by cases h)
  | CONTINUE => exact flat .CONTINUE (fun h => by cases h)
  | CONTINUEC inst => exact flat (.CONTINUEC inst) (fun h => by cases h)
  | RETC inst => exact flat (.RETC inst) (fun h => by cases h)
  | DISCARD inst => exact flat (.DISCARD inst) (fun h => by cases h)
  | CASE O => exact flat (.CASE O) (fun h => by cases h)
  | DEFAULT => exact flat .DEFAULT (fun h => by cases h)
  | RET =>
    by_cases hsc : bp.isSome ∨ bae.isSome
    · exact flat .RET (fun _ => hsc)
    · have hbp : bp = none := by
        cases bp with
        | none => rfl
        | some x => exact absurd (Or.inl rfl) hsc
      have hbae : bae = none := by
        cases bae with
        | none => rfl
        | some x => exact absurd (Or.inr rfl) hsc
      subst hbp hbae
      simp only [readControlFlow, Option.isNone_none, Bool.and_self, if_true]
      exact SameGraph.rel_closes d _ _ (setTarget_rel _ _ _ _ (by rfl) (by rfl)) _ _ _ hR
  | ENDIF =>
    simp only [readControlFlow]
    refine SameGraph.rel_same d _ _ _ (fun _ _ => ?_)
    exact SameGraph.rel_closes d _ _ (setTarget_rel _ _ _ _ (by rfl) (by rfl)) _ _ _ hR
  | ENDLOOP =>
    simp only [readControlFlow]
    exact SameGraph.rel_closes d _ _ (setTarget_rel _ _ _ _ (by rfl) (by rfl)) _ _ _ hR
  | ENDSWITCH =>
    simp only [readControlFlow]
    exact SameGraph.rel_closes d _ _ (setTarget_rel _ _ _ _ (by rfl) (by rfl)) _ _ _ hR
  | ELSE =>
    simp only [readControlFlow, PassState.newBlock]
    refine SameGraph.rel_same d _ _ _ (fun _ _ => ?_)
    refine SameGraph.rel_prim d _ _ (setTarget_rel _ _ _ _ (by rfl) (by rfl)) _ _
      (fun s1 s1' _ _ hb1 hs1 => ?_)
    exact IH tl tl2 s1 s1' _ _ cp bp rp sw g g2 htl hR hb1 hs1 hg hg2
  | IF inst =>
    simp only [readControlFlow, PassState.newBlock]
    refine SameGraph.rel_prim d _ _ (setTarget_rel _ _ _ _ (by rfl) (by rfl)) _ _
      (fun s1 s1' _ _ hb1 hs1 => ?_)
    refine SameGraph.rel_walk d _ _
      (IH tl tl2 s1 s1' _ _ cp bp rp none g g2 htl hR hb1 hs1 hg hg2) _ _
      (fun r c c2 s3 s3' hw hw2 hb3 hs3 hR3 => ?_)
    have hc := readControlFlow_consumes E P _ _ _ _ _ _ _ _ _ _ _ _ hw
    have hc2 := readControlFlow_consumes E P _ _ _ _ _ _ _ _ _ _ _ _ hw2
    exact IH c c2 s3 s3' r bae cp bp rp sw g g2 (by omega) hR3 hb3 hs3 (by omega) (by omega)
  | LOOP =>
    simp only [readControlFlow, PassState.newBlock]
    refine SameGraph.rel_prim d _ _ (setTarget_rel _ _ _ _ (by rfl) (by rfl)) _ _
      (fun s1 s1' _ _ hb1 hs1 => ?_)
    refine SameGraph.rel_walk d _ _
      (IH tl tl2 s1 s1' _ _ _ _ rp none g g2 htl hR hb1 hs1 hg hg2) _ _
      (fun r c c2 s3 s3' hw hw2 hb3 hs3 hR3 => ?_)
    have hc := readControlFlow_consumes E P _ _ _ _ _ _ _ _ _ _ _ _ hw
    have hc2 := readControlFlow_consumes E P _ _ _ _ _ _ _ _ _ _ _ _ hw2
    refine SameGraph.rel_same d _ _ _ (fun _ _ => ?_)
    exact IH c c2 s3 s3' _ bae cp bp rp sw g g2 (by omega) hR3 hb3 hs3 (by omega) (by omega)
  | SWITCH =>
    simp only [readControlFlow, PassState.newBlock, PassState.newSwitch]
    refine SameGraph.rel_walk d _ _
      (IH tl tl2 _ _ _ _ cp _ rp _ g g2 htl hR (by rfl) (by rfl) hg hg2) _ _
      (fun r c c2 s3 s3' hw hw2 hb3 hs3 hR3 => ?_)
    have hc := readControlFlow_consumes E P _ _ _ _ _ _ _ _ _ _ _ _ hw
    have hc2 := readControlFlow_consumes E P _ _ _ _ _ _ _ _ _ _ _ _ hw2
    refine SameGraph.rel_same d _ _ _ (fun _ _ => ?_)
    simp only []
    rw [switchTarget_eq s3 s3' _ hs3]
    refine SameGraph.rel_same d _ _ _ (fun t _ => ?_)
    refine SameGraph.rel_prim d _ _ (setTarget_rel _ _ _ _ hb3 hs3) _ _
      (fun s4 s4' _ _ hb4 hs4 => ?_)
    exact IH c c2 s4 s4' _ bae cp bp rp sw g g2 (by omega) hR3 hb4 hs4 (by omega) (by omega)

theorem readDeclaration_accepted (d : Declaration)
    (hd : (readDeclaration E P d PassState.initial).toBool = true) (st : PassState) :
    ∃ st1, readDeclaration E P d st = .ok st1 ∧ st1.blocks = st.blocks ∧
      st1.switches = st.switches := by
  have hbool := readDeclaration_toBool E P d st PassState.initial
  rw [hd] at hbool
  cases h1 : readDeclaration E P d st with
  | error e => simp [h1, Except.toBool] at hbool
  | ok s =>
    obtain ⟨a1, a2⟩ := readDeclaration_frame E P d st s h1
    exact ⟨s, rfl, a1, a2⟩

theorem readControlFlow_inserted (d : Declaration)
    (hd : (readDeclaration E P d PassState.initial).toBool = true) (hE : E.lowersAlike) :
    ∀ n, InsertionHolds E P d n := by
  have here : ∀ (code : List CInstruction),
      (∀ (st st2 : PassState) (ctx bae cp bp rp sw : Option Nat) (f f2 : Nat),
        st2.blocks = st.blocks → st2.switches = st.switches → code.length < f →
        code.length < f2 →
        SameGraph d (readControlFlow E P f code st ctx bae cp bp rp sw)
          (readControlFlow E P f2 code st2 ctx bae cp bp rp sw)) →
      ∀ (st st2 : PassState) (ctx bae cp bp rp sw : Option Nat) (f f2 : Nat),
        st2.blocks = st.blocks → st2.switches = st.switches → code.length < f →
        (CInstruction.dcl d :: code).length < f2 →
        SameGraph d (readControlFlow E P f code st ctx bae cp bp rp sw)
          (readControlFlow E P f2 (.dcl d :: code) st2 ctx bae cp bp rp sw) := by
    intro code hsame st st2 ctx bae cp bp rp sw f f2 hb hs hf hf2
    obtain ⟨g2, rfl⟩ : ∃ g2, f2 = g2 + 1 := ⟨f2 - 1, by omega⟩
    simp only [List.length_cons] at hf2
    obtain ⟨s1, h1, b1, b2⟩ := readDeclaration_accepted E P d hd st2
    rw [readControlFlow_dcl, h1, ok_bind]
    exact hsame st s1 ctx bae cp bp rp sw f g2 (by rw [b1, hb]) (by rw [b2, hs]) hf (by omega)
  have nil : ∀ (st st2 : PassState) (ctx bae cp bp rp sw : Option Nat) (f f2 : Nat),
      st2.blocks = st.blocks → st2.switches = st.switches → ([] : List CInstruction).length < f →
      ([] : List CInstruction).length < f2 →
      SameGraph d (readControlFlow E P f [] st ctx bae cp bp rp sw)
        (readControlFlow E P f2 [] st2 ctx bae cp bp rp sw) := by
    intro st st2 ctx bae cp bp rp sw f f2 _ _ hf hf2
    obtain ⟨g, rfl⟩ : ∃ g, f = g + 1 := ⟨f - 1, by simp at hf; omega⟩
    obtain ⟨g2, rfl⟩ : ∃ g2, f2 = g2 + 1 := ⟨f2 - 1, by simp at hf2; omega⟩
    exact rfl
  have step : ∀ n, InsertionHolds E P d n →
      ∀ (code code2 : List CInstruction) (st st2 : PassState)
        (ctx bae cp bp rp sw : Option Nat) (f f2 : Nat),
        code.length ≤ n + 1 → (code2 = code ∨ Inserted d code code2) →
        st2.blocks = st.blocks → st2.switches = st.switches →
        code.length < f → code2.length < f2 →
        SameGraph d (readControlFlow E P f code st ctx bae cp bp rp sw)
          (readControlFlow E P f2 code2 st2 ctx bae cp bp rp sw) := by
    intro n IH code code2 st st2 ctx bae cp bp rp sw f f2 hlen hR hb hs hf hf2
    have hsame : ∀ (st st2 : PassState) (ctx bae cp bp rp sw : Option Nat) (f f2 : Nat),
        st2.blocks = st.blocks → st2.switches = st.switches → code.length < f →
        code.length < f2 →
        SameGraph d (readControlFlow E P f code st ctx bae cp bp rp sw)
          (readControlFlow E P f2 code st2 ctx bae cp bp rp sw) := by
      cases code with
      | nil => exact nil
      | cons tok tl =>
        intro st st2 ctx bae cp bp rp sw f f2 hb hs hf hf2
        simp only [List.length_cons] at hlen hf hf2
        obtain ⟨g, rfl⟩ : ∃ g, f = g + 1 := ⟨f - 1, by omega⟩
        obtain ⟨g2, rfl⟩ : ∃ g2, f2 = g2 + 1 := ⟨f2 - 1, by omega⟩
        exact same_head E P d hE n IH tok tl tl (Or.inl rfl) (by omega) st st2 ctx bae cp bp rp
          sw g g2 hb hs (by omega) (by omega)
    rcases hR with rfl | hI
    · exact hsame st st2 ctx bae cp bp rp sw f f2 hb hs hf hf2
    · cases hI with
      | here _ => exact here code hsame st st2 ctx bae cp bp rp sw f f2 hb hs hf hf2
      | later tok tl tl2 hI2 =>
        simp only [List.length_cons] at hlen hf hf2
        obtain ⟨g, rfl⟩ : ∃ g, f = g + 1 := ⟨f - 1, by omega⟩
        obtain ⟨g2, rfl⟩ : ∃ g2, f2 = g2 + 1 := ⟨f2 - 1, by omega⟩
        exact same_head E P d hE n IH tok tl tl2 (Or.inr hI2) (by omega) st st2 ctx bae cp bp rp
          sw g g2 hb hs (by omega) (by omega)
  intro n
  induction n with
  | zero =>
    intro code code2 st st2 ctx bae cp bp rp sw f f2 hlen hR hb hs hf hf2
    have hnil : code = [] := List.length_eq_zero.1 (by omega)
    subst hnil
    rcases hR with rfl | hI
    · exact nil st st2 ctx bae cp bp rp sw f f2 hb hs hf hf2
    · cases hI with
      | here _ => exact here [] nil st st2 ctx bae cp bp rp sw f f2 hb hs hf hf2
  | succ n ih => exact step n ih

theorem Inserted.append (d : Declaration) (pre post : List CInstruction) :
    Inserted d (pre ++ post) (pre ++ .dcl d :: post) := by
  induction pre with
  | nil => exact Inserted.here post
  | cons tok pre ih => exact Inserted.later tok _ _ ih

/-- C25 (counterexample): the stream `ret` builds, but with the declaration
`dcl_tgsm_raw g0, 6` inserted before the RET the build fails. -/
theorem C25_counterexample :
    (SM50Initialize sampleExternal sampleEnv [.RET]).toBool = true ∧
    (SM50Initialize sampleExternal sampleEnv
      [.dcl (.DCL_THREAD_GROUP_SHARED_MEMORY_RAW (resourceOperand .INDEX_1D 0 0 0) 6),
       .RET]).toBool = false := by
  decide

/-- C25 (amended): let `readInstruction` return an instruction that does not
depend on the `ShaderInfo` it is given, and let `d` be a declaration the walk
accepts.  If a stream builds, then the stream with `d` inserted at any position
builds too, and with the same block graph: the same blocks with the same
instruction lists and terminators, the same entry and return block.  The
declaration is handled by the activation that meets it: the walk goes on with
the next token in the same current block and with the same targets, and the
state it goes on with has the same block and switch objects. -/
theorem C25_declaration_frame (d : Declaration) (pre post : List CInstruction)
    (sm : SM50ShaderInternal) (hE : E.lowersAlike)
    (hd : (readDeclaration E P d PassState.initial).toBool = true)
    (h : SM50Initialize E P (pre ++ post) = .ok sm) :
    (∃ sm2, SM50Initialize E P (pre ++ .dcl d :: post) = .ok sm2 ∧ sm2.blocks = sm.blocks ∧
      sm2.entry = sm.entry ∧ sm2.return_point = sm.return_point) ∧
    (∀ (fuel : Nat) (code : List CInstruction) (st : PassState)
      (ctx bae cp bp rp sw : Option Nat),
      readControlFlow E P (fuel + 1) (.dcl d :: code) st ctx bae cp bp rp sw =
        (readDeclaration E P d st >>= fun st1 =>
          readControlFlow E P fuel code st1 ctx bae cp bp rp sw)) ∧
    (∀ st, ∃ st1, readDeclaration E P d st = .ok st1 ∧ st1.blocks = st.blocks ∧
      st1.switches = st.switches) := by
  refine ⟨?_, fun fuel code st ctx bae cp bp rp sw => readControlFlow_dcl E P d fuel code st ctx
    bae cp bp rp sw, readDeclaration_accepted E P d hd⟩
  obtain ⟨code1, st, hw, hsm⟩ := SM50Initialize_ok E P _ sm h
  have hsg := readControlFlow_inserted E P d hd hE (pre ++ post).length (pre ++ post)
    (pre ++ .dcl d :: post) PassState.initial PassState.initial (some 0) none none none (some 1)
    none ((pre ++ post).length + 1) ((pre ++ .dcl d :: post).length + 1) (Nat.le_refl _)
    (Or.inr (Inserted.append d pre post)) rfl rfl (Nat.lt_succ_self _) (Nat.lt_succ_self _)
  rw [hw] at hsg
  cases h2 : readControlFlow E P ((pre ++ .dcl d :: post).length + 1) (pre ++ .dcl d :: post)
      PassState.initial (some 0) none none none (some 1) none with
  | error e =>
    rw [h2] at hsg
    exact hsg.elim
  | ok x =>
    obtain ⟨r2, c2, s2⟩ := x
    rw [h2] at hsg
    obtain ⟨hr, hb, -, -⟩ := hsg
    subst hr
    refine ⟨{ shader_info := s2.shader_info
              func_signature := s2.func_signature
              entry := some 0
              return_point := some 1
              blocks := s2.blocks
              prelogue_ := s2.prelogue_
              epilogue_ := s2.epilogue_
              shader_type := P.ShaderType
              max_input_register := s2.max_input_register
              max_output_register := s2.max_output_register
              args_reflection := args_reflection s2.shader_info
              threadgroup_size := s2.threadgroup_size }, ?_, ?_, ?_, ?_⟩
    · simp only [SM50Initialize, h2, ok_bind, DXASSERT_DXBC, beq_self_eq_true, if_true]
      rfl
    · rw [hsm]
      exact hb
    · rw [hsm]
    · rw [hsm]

/-- Witness of C25 (amended): `dcl_temps 4` inserted into `1; ret` after the
first token. -/
theorem C25_declaration_frame_witness :
    ∃ sm sm2, SM50Initialize sampleExternal sampleEnv ([.other 1] ++ [.RET]) = .ok sm ∧
      SM50Initialize sampleExternal sampleEnv ([.other 1] ++ .dcl (.DCL_TEMPS 4) :: [.RET]) =
        .ok sm2 ∧
      sm2.blocks = sm.blocks := by
  have hok : (SM50Initialize sampleExternal sampleEnv ([.other 1] ++ [.RET])).toBool = true := by
    decide
  cases h : SM50Initialize sampleExternal sampleEnv ([.other 1] ++ [.RET]) with
  | error e =>
    rw [h] at hok
    cases hok
  | ok sm =>
    obtain ⟨⟨sm2, h2, hb, -, -⟩, -, -⟩ := C25_declaration_frame sampleExternal sampleEnv
      (.DCL_TEMPS 4) [.other 1] [.RET] sm (fun _ _ _ => rfl) (by decide) h
    exact ⟨sm, sm2, rfl, h2, hb⟩

/-- The cases of `DCL_INPUT_SGV`, `DCL_INPUT_PS_SIV` and `DCL_INPUT_PS_SGV` push
an effect that stores to input register `reg`, and leave `max_input_register`
as it is. -/
theorem input_sv_keeps_max_input_register (op0 : COperandBase) (Name : SystemName)
    (InterpolationMode : Nat) (st st1 : PassState) (d : Declaration)
    (hd : d = .DCL_INPUT_SGV op0 Name ∨ d = .DCL_INPUT_PS_SIV op0 Name InterpolationMode ∨
      d = .DCL_INPUT_PS_SGV op0 Name InterpolationMode)
    (h : readDeclaration E P d st = .ok st1) :
    st1.max_input_register = st.max_input_register ∧
    st1.prelogue_.length = st.prelogue_.length + 1 := by
  rcases hd with rfl | rfl | rfl <;>
    simp only [readDeclaration, dclInputSGV, dclInputPSSIV, dclInputPSSGV,
      PassState.DefineInput, PassState.pushPrelogue] at h <;>
    (repeat' split at h) <;> cases h <;> simp

/-! ## LOOP scopes -/

theorem target_push (xs : List Instruction) (l : List BasicBlock) (b i : Nat) :
    ((updateAt (BasicBlock.push xs) l b)[i]?).map (fun blk => blk.target) =
      (l[i]?).map (fun blk => blk.target) := by
  by_cases h : i = b
  · subst h
    rw [updateAt_getElem?_eq]
    cases l[i]? <;> simp [BasicBlock.push]
  · rw [updateAt_getElem?_ne _ _ _ _ h]

theorem target_fresh (l : List BasicBlock) (n : BlockName) (k : List BasicBlock) :
    ((l ++ { debug_name := n, instructions := [], target := .undefined } :: k)[l.length]?).map
      (fun blk => blk.target) = some .undefined := by
  rw [List.getElem?_append_right (Nat.le_refl _)]
  simp

theorem target_fresh_two (l : List BasicBlock) (a : BasicBlock) (n : BlockName) :
    ((l ++ [a, { debug_name := n, instructions := [], target := .undefined }])[l.length + 1]?).map
      (fun blk => blk.target) = some .undefined := by
  rw [List.getElem?_append_right (by omega)]
  simp

theorem flatStep_open (t : Flat) (st : PassState) (b : Nat) (cp bp rp sw : Option Nat)
    (hb : b < st.blocks.length)
    (ho : (st.blocks[b]?).map (fun blk => blk.target) = some .undefined)
    (b1 : Nat) (st1 : PassState)
    (h : flatStep E P t st (some b) cp bp rp sw = .ok (some b1, st1)) :
    (st1.blocks[b1]?).map (fun blk => blk.target) = some .undefined := by
  cases t
  case dcl d =>
    simp only [flatStep] at h
    obtain ⟨s, hs, he⟩ := bind_eq_ok _ _ _ h
    cases he
    rw [(readDeclaration_frame E P d st _ hs).1]
    exact ho
  case other inst =>
    simp only [flatStep, readOther, PassState.pushInstruction, ok_bind] at h
    cases h
    simp only [target_push]
    exact ho
  case CASE O =>
    simp only [flatStep, PassState.setTarget, PassState.newBlock, ok_bind] at h
    obtain ⟨_, _, h⟩ := bind_eq_ok _ _ _ h
    obtain ⟨s, hs, he⟩ := bind_eq_ok _ _ _ h
    cases he
    cases sw with
    | none => cases hs
    | some j =>
      cases hs
      simp only []
      rw [updateAt_getElem?_ne _ _ _ _ (by omega)]
      simp
  case DEFAULT =>
    simp only [flatStep, PassState.setTarget, PassState.newBlock, ok_bind] at h
    obtain ⟨s, hs, he⟩ := bind_eq_ok _ _ _ h
    cases he
    cases sw with
    | none => cases hs
    | some j =>
      cases hs
      simp [updateAt_length]
  all_goals
    simp only [flatStep, PassState.setTarget, PassState.newBlock,
      PassState.pushInstruction, ok_bind, pure, Except.pure] at h
    cases h
    simp only []
    first
      | (rw [updateAt_getElem?_ne _ _ _ _ (by omega)]; simp)
      | (simp [updateAt_length]; done)
      | (simp only [updateAt_length, List.length_append, List.length_singleton, List.append_assoc,
           List.singleton_append]
         rw [target_push, updateAt_getElem?_ne _ _ _ _ (by omega),
           updateAt_getElem?_ne _ _ _ _ (by omega)]
         exact target_fresh_two _ _ _)


theorem target_set_ne (t : BasicBlockTarget) (l : List BasicBlock) (c i : Nat) (h : i ≠ c)
    (ho : (l[i]?).map (fun blk => blk.target) = some .undefined) :
    ((updateAt (BasicBlock.setTarget t) l c)[i]?).map (fun blk => blk.target) =
      some .undefined := by
  rw [updateAt_getElem?_ne _ _ _ _ h]
  exact ho

theorem run_open (p : Prog) :
    ∀ (st : PassState) (b : Nat) (bae cp bp rp sw : Option Nat),
      b < st.blocks.length → (∀ s, sw = some s → s < st.switches.length) →
      p.wf E P sw.isSome = true →
      (st.blocks[b]?).map (fun blk => blk.target) = some .undefined →
      ∀ b1 st1, run E P p st (some b) bae cp bp rp sw = .ok (some b1, st1) →
        (st1.blocks[b1]?).map (fun blk => blk.target) = some .undefined := by
  induction p with
  | done =>
    intro st b bae cp bp rp sw _ _ _ ho b1 st1 h
    cases h
    exact ho
  | flat t k ih =>
    intro st b bae cp bp rp sw hb hsw hwf ho b1 st1 h
    simp only [Prog.wf, Bool.and_eq_true] at hwf
    simp only [run] at h
    obtain ⟨c1, s1, hr, hv, hf, hon⟩ := flatStep_ok E P t st b cp bp rp sw hb hsw hwf.1
    rw [hr] at h
    exact ih s1 c1 bae cp bp rp sw hv (fun s hs => Nat.lt_of_lt_of_le (hsw s hs) hon.2.1) hwf.2
      (flatStep_open E P t st b cp bp rp sw hb ho c1 s1 hr) b1 st1 h
  | ifThen inst a k _ ihk =>
    intro st b bae cp bp rp sw hb hsw hwf ho b1 st1 h
    simp only [Prog.wf, Bool.and_eq_true] at hwf
    simp only [run, PassState.setTarget, ok_bind, newBlock_fst] at h
    obtain ⟨⟨c, s3⟩, hs, he⟩ := bind_eq_ok _ _ _ h
    obtain ⟨c1, rfl, hv, hf, hon⟩ := run_ok_of_eq E P a _ _ _ _ _ _ none _ _ hs
      (by simp only [updateAt_length, newBlock_length]; omega) (by simp) hwf.1
    have l3 := hon.1
    simp only [updateAt_length, newBlock_length, ok_bind] at hf hv l3 he
    refine ihk _ _ _ _ _ _ _ ?_ ?_ hwf.2 ?_ b1 st1 he
    · simp only [updateAt_length]; omega
    · intro s hs
      exact Nat.lt_of_lt_of_le (hsw s hs) hon.2.1
    · apply target_set_ne _ _ _ _ (by omega)
      rw [hon.2.2.1 _ (by simp only [updateAt_length, newBlock_length]; omega) (by omega)]
      rw [updateAt_getElem?_ne _ _ _ _ (by omega)]
      simp only [PassState.newBlock, List.append_assoc, List.singleton_append]
      exact target_fresh_two _ _ _
  | ifElse inst a b2 k _ _ ihk =>
    intro st b bae cp bp rp sw hb hsw hwf ho b1 st1 h
    simp only [Prog.wf, Bool.and_eq_true] at hwf
    simp only [run, PassState.setTarget, ok_bind, newBlock_fst] at h
    obtain ⟨⟨c, s3⟩, hs, he⟩ := bind_eq_ok _ _ _ h
    obtain ⟨c1, rfl, hv, hf, hon⟩ := run_ok_of_eq E P a _ _ _ _ _ _ none _ _ hs
      (by simp only [updateAt_length, newBlock_length]; omega) (by simp) hwf.1.1
    have l3 := hon.1
    simp only [updateAt_length, newBlock_length, ok_bind] at hf hv l3 he
    obtain ⟨⟨c', s5⟩, hs2, he2⟩ := bind_eq_ok _ _ _ he
    obtain ⟨c2, rfl, hv2, hf2, hon2⟩ := run_ok_of_eq E P b2 _ _ _ _ _ _ none _ _ hs2
      (by simp only [updateAt_length, newBlock_length]; omega) (by simp) hwf.1.2
    have l5 := hon2.1
    simp only [updateAt_length, newBlock_length, ok_bind] at hf2 hv2 l5 he2
    refine ihk _ _ _ _ _ _ _ ?_ ?_ hwf.2 ?_ b1 st1 he2
    · simp only [updateAt_length]; omega
    · intro s hs
      exact Nat.lt_of_lt_of_le (hsw s hs) (Nat.le_trans hon.2.1 hon2.2.1)
    · apply target_set_ne _ _ _ _ (by omega)
      rw [hon2.2.2.1 _ (by simp only [updateAt_length, newBlock_length]; omega) (by omega)]
      rw [updateAt_getElem?_ne _ _ _ _ (by omega)]
      simp only [PassState.newBlock, List.append_assoc, List.singleton_append]
      exact target_fresh _ _ []
  | loop body k _ ihk =>
    intro st b bae cp bp rp sw hb hsw hwf ho b1 st1 h
    simp only [Prog.wf, Bool.and_eq_true] at hwf
    simp only [run, PassState.setTarget, ok_bind, newBlock_fst] at h
    obtain ⟨⟨c, s3⟩, hs, he⟩ := bind_eq_ok _ _ _ h
    obtain ⟨c1, rfl, hv, hf, hon⟩ := run_ok_of_eq E P body _ _ _ _ _ _ none _ _ hs
      (by simp only [updateAt_length, newBlock_length]; omega) (by simp) hwf.1
    have l3 := hon.1
    simp only [updateAt_length, newBlock_length, ok_bind] at hf hv l3 he
    refine ihk _ _ _ _ _ _ _ ?_ ?_ hwf.2 ?_ b1 st1 he
    · simp only [updateAt_length]; omega
    · intro s hs
      exact Nat.lt_of_lt_of_le (hsw s hs) hon.2.1
    · apply target_set_ne _ _ _ _ (by omega)
      rw [hon.2.2.1 _ (by simp only [updateAt_length, newBlock_length]; omega) (by omega)]
      rw [updateAt_getElem?_ne _ _ _ _ (by omega)]
      simp only [PassState.newBlock, List.append_assoc, List.singleton_append]
      exact target_fresh_two _ _ _
  | switch body k _ ihk =>
    intro st b bae cp bp rp sw hb hsw hwf ho b1 st1 h
    simp only [Prog.wf, Bool.and_eq_true] at hwf
    simp only [run, newBlock_fst, newSwitch_fst] at h
    obtain ⟨⟨c, s3⟩, hs, he⟩ := bind_eq_ok _ _ _ h
    obtain ⟨c1, rfl, hv, hf, hon⟩ := run_ok_of_eq E P body _ _ _ _ _ _ (some _) _ _ hs
      (by simp only [newBlock_length, newSwitch_blocks]; omega)
      (by
        intro s hs
        simp only [Option.some.injEq, newBlock_switches] at hs
        simp only [newBlock_switches, newSwitch_length]
        omega) hwf.1
    have l3 := hon.1
    have l3s := hon.2.1
    simp only [updateAt_length, newBlock_length, newSwitch_blocks, newBlock_switches,
      newSwitch_length, PassState.setTarget, ok_bind] at hf hv l3 l3s he
    obtain ⟨cc, _, hc⟩ := switchTarget_ok s3 st.switches.length (by omega)
    rw [switchTarget_blocks, hc] at he
    simp only [ok_bind] at he
    refine ihk _ _ _ _ _ _ _ ?_ ?_ hwf.2 ?_ b1 st1 he
    · simp only [updateAt_length]; omega
    · intro s hs
      simp only []
      have := hsw s hs
      omega
    · apply target_set_ne _ _ _ _ (by omega)
      apply target_set_ne _ _ _ _ (by omega)
      rw [hon.2.2.1 _ (by simp only [newBlock_length, newSwitch_blocks]; omega)
        (by simp only [newBlock_length, newSwitch_blocks]; omega)]
      simp only [PassState.newBlock, PassState.newSwitch, List.append_assoc,
        List.singleton_append]
      exact target_fresh _ _ [_]

theorem current_block_unique (st_b st_c : PassState) (b c : Nat) (bae cp bp rp sw : Option Nat)
    (f1 f2 : Nat) (hf1 : 1 ≤ f1) (hf2 : 2 ≤ f2)
    (hob : (st_b.blocks[b]?).map (fun blk => blk.target) = some .undefined)
    (hoc : (st_c.blocks[c]?).map (fun blk => blk.target) = some .undefined)
    (h1 : readControlFlow E P f1 [.ENDLOOP] st_b (some b) bae cp bp rp sw =
      readControlFlow E P f1 [.ENDLOOP] st_c (some c) bae cp bp rp sw)
    (h2 : readControlFlow E P f2 [.other 0, .ENDLOOP] st_b (some b) bae cp bp rp sw =
      readControlFlow E P f2 [.other 0, .ENDLOOP] st_c (some c) bae cp bp rp sw) :
    b = c ∧ st_b = st_c := by
  obtain ⟨m, rfl⟩ : ∃ m, f1 = m + 1 := ⟨f1 - 1, by omega⟩
  obtain ⟨n, rfl⟩ : ∃ n, f2 = n + 2 := ⟨f2 - 2, by omega⟩
  simp only [readControlFlow, readOther, PassState.pushInstruction, PassState.setTarget, ok_bind,
    pure, Except.pure, Except.ok.injEq, Prod.mk.injEq, true_and] at h1 h2
  obtain ⟨bs, sws, si, fs, pl, el, mi, mo, tg⟩ := st_b
  obtain ⟨bs', sws', si', fs', pl', el', mi', mo', tg'⟩ := st_c
  simp only [PassState.mk.injEq] at h1 h2 hob hoc ⊢
  obtain ⟨e1, rfl, rfl, rfl, rfl, rfl, rfl, rfl, rfl⟩ := h1
  obtain ⟨e2, -⟩ := h2
  have hlen : bs.length = bs'.length := by
    have := congrArg List.length e1
    simpa [updateAt_length] using this
  have hbc : b = c := by
    by_contra hne
    have a1 := congrArg (fun l => l[b]?) e1
    have a2 := congrArg (fun l => l[b]?) e2
    simp only [updateAt_getElem?_eq, updateAt_getElem?_ne _ _ _ _ hne] at a1 a2
    rw [← a1] at a2
    cases hx : bs[b]? with
    | none => simp [hx] at hob
    | some x =>
      simp only [hx, Option.map_some', Option.some.injEq] at a2
      have := congrArg (fun y => y.instructions.length) a2
      simp [BasicBlock.setTarget, BasicBlock.push] at this
  subst hbc
  refine ⟨rfl, ?_, rfl, rfl, rfl, rfl, rfl, rfl, rfl, rfl⟩
  apply List.ext_getElem?
  intro i
  by_cases hi : i = b
  · subst hi
    have a1 := congrArg (fun l => l[i]?) e1
    simp only [updateAt_getElem?_eq] at a1
    cases hx : bs[i]? with
    | none => simp [hx] at hob
    | some x =>
      cases hy : bs'[i]? with
      | none => simp [hy] at hoc
      | some y =>
        simp only [hx, hy, Option.map_some', Option.some.injEq] at a1 hob hoc
        obtain ⟨n1, i1, t1⟩ := x
        obtain ⟨n2, i2, t2⟩ := y
        simp only [BasicBlock.setTarget, BasicBlock.mk.injEq, Option.some.injEq] at a1 hob hoc ⊢
        exact ⟨a1.1, a1.2.1, hob.trans hoc.symm⟩
  · have a1 := congrArg (fun l => l[i]?) e1
    simp only [updateAt_getElem?_ne _ _ _ _ hi] at a1
    exact a1

/-- C4: for `LOOP; body; ENDLOOP` with a well-nested body, parsed from an open
block `B`.  With `loop_entry` and `after_loop` the two blocks LOOP makes, there
is a block `b` and a state `st_b` such that:
(1) `b` is the block being appended to when the token after the body is
reached: whatever tokens follow the body, the walk over the body under the
loop's own context (no merge target, continue target `loop_entry`, break target
`after_loop`) goes on at those tokens on block `b` in state `st_b`;
(2) in `st_b` block `b` has no terminator yet, and `b` is `loop_entry` or a
block made inside the body, so neither the pre-loop block `B` nor `after_loop`;
(3) ENDLOOP gives exactly block `b` the back-edge `Unconditional(loop_entry)`,
and the parse of the body returns `after_loop` with the tokens after ENDLOOP;
(4) the walk resumes at `after_loop` with the caller's merge, continue and
break targets;
(5) afterwards `b` ends with `Unconditional(loop_entry)`, and so does `B`;
(6) `b` and `st_b` are the only block and state with properties (1) and (2). -/
theorem C4_loop_back_edge (body : Prog) (rest : List CInstruction) (st : PassState) (B : Nat)
    (bae cp bp rp sw : Option Nat) (fuel : Nat)
    (hB : B < st.blocks.length) (hwf : body.wf E P false = true)
    (hfuel : (flatten body).length + 1 ≤ fuel) :
    let loop_entry := st.blocks.length
    let after_loop := st.blocks.length + 1
    let made : List BasicBlock :=
      [{ debug_name := .loop_entrance, instructions := [], target := .undefined },
       { debug_name := .endloop, instructions := [], target := .undefined }]
    let jump := BasicBlock.setTarget (.unconditional (some loop_entry))
    let st1 : PassState := { st with blocks := updateAt jump (st.blocks ++ made) B }
    ∃ (b : Nat) (st_b : PassState),
      b < st_b.blocks.length ∧
      (∀ (tail : List CInstruction) (f : Nat), (flatten body).length ≤ f →
        readControlFlow E P f (flatten body ++ tail) st1
            (some loop_entry) none (some loop_entry) (some after_loop) rp none =
          readControlFlow E P (f - body.ntop) tail st_b
            (some b) none (some loop_entry) (some after_loop) rp none) ∧
      (st_b.blocks[b]?).map (fun blk => blk.target) = some .undefined ∧
      b ≠ B ∧ (b = loop_entry ∨ after_loop < b) ∧
      readControlFlow E P fuel (flatten body ++ CInstruction.ENDLOOP :: rest) st1
          (some loop_entry) none (some loop_entry) (some after_loop) rp none =
        .ok (some after_loop, rest,
          { st_b with blocks := updateAt jump st_b.blocks b }) ∧
      readControlFlow E P (fuel + 1)
          (CInstruction.LOOP :: (flatten body ++ CInstruction.ENDLOOP :: rest))
          st (some B) bae cp bp rp sw =
        readControlFlow E P fuel rest
          { st_b with blocks := updateAt jump st_b.blocks b }
          (some after_loop) bae cp bp rp sw ∧
      ((updateAt jump st_b.blocks b)[b]?).map (fun blk => blk.target) =
        some (.unconditional (some loop_entry)) ∧
      ((updateAt jump st_b.blocks b)[B]?).map (fun blk => blk.target) =
        some (.unconditional (some loop_entry)) ∧
      (∀ (b2 : Nat) (st2 : PassState),
        (st2.blocks[b2]?).map (fun blk => blk.target) = some .undefined →
        (∀ (tail : List CInstruction) (f : Nat), (flatten body).length ≤ f →
          readControlFlow E P f (flatten body ++ tail) st1
              (some loop_entry) none (some loop_entry) (some after_loop) rp none =
            readControlFlow E P (f - body.ntop) tail st2
              (some b2) none (some loop_entry) (some after_loop) rp none) →
        b2 = b ∧ st2 = st_b) := by
  intro loop_entry after_loop made jump st1
  have hlen1 : st1.blocks.length = st.blocks.length + 2 := by
    simp [st1, made, updateAt_length]
  obtain ⟨b, st_b, hrun, hv, hf, ho⟩ :=
    run_ok E P body st1 loop_entry none (some loop_entry) (some after_loop) rp none
      (by rw [hlen1]; omega) (by simp) hwf
  have hna := ntop_le_length body
  have hany : ∀ (tail : List CInstruction) (f : Nat), (flatten body).length ≤ f →
      readControlFlow E P f (flatten body ++ tail) st1
          (some loop_entry) none (some loop_entry) (some after_loop) rp none =
        readControlFlow E P (f - body.ntop) tail st_b
          (some b) none (some loop_entry) (some after_loop) rp none := by
    intro tail f hf1
    have h := readControlFlow_flatten E P body f tail st1
      (some loop_entry) none (some loop_entry) (some after_loop) rp none hf1 (Or.inl rfl)
    rw [hrun, ok_bind] at h
    exact h
  have hflat := hany (CInstruction.ENDLOOP :: rest) fuel (by omega)
  have hend := readControlFlow_ENDLOOP E P (fuel - body.ntop) rest st_b (some b) none
    (some loop_entry) (some after_loop) rp none (by omega)
  simp only [PassState.setTarget, ok_bind, pure, Except.pure] at hend
  have hBb : B ≠ b := by
    rcases hf with rfl | hf
    · simp only [loop_entry]; omega
    · rw [hlen1] at hf; omega
  have hopen : (st_b.blocks[b]?).map (fun blk => blk.target) = some .undefined := by
    refine run_open E P body st1 loop_entry none (some loop_entry) (some after_loop) rp none
      (by rw [hlen1]; omega) (by simp) hwf ?_ b st_b hrun
    simp only [st1, made, loop_entry]
    rw [updateAt_getElem?_ne _ _ _ _ (by omega)]
    exact target_fresh _ _ [_]
  refine ⟨b, st_b, hv, hany, hopen, fun h => hBb h.symm, ?_, hflat.trans hend, ?_, ?_, ?_, ?_⟩
  · rcases hf with rfl | hf
    · exact Or.inl rfl
    · rw [hlen1] at hf
      exact Or.inr (by simp only [after_loop]; omega)
  · have h := hflat.trans hend
    simp only [readControlFlow, PassState.newBlock, PassState.setTarget, ok_bind,
      List.append_assoc, List.singleton_append, List.length_append, List.length_singleton]
    simp only [st1, made, jump, loop_entry, after_loop] at h
    rw [h]
    simp only [ok_bind, DXASSERT_DXBC, beq_self_eq_true, if_true]
  · rw [updateAt_getElem?_eq]
    simp [List.getElem?_eq_getElem hv, jump, BasicBlock.setTarget]
  · rw [updateAt_getElem?_ne _ _ _ _ hBb, ho.2.2.1 B (by rw [hlen1]; omega)
      (by simp only [loop_entry]; omega)]
    simp only [st1, made]
    rw [updateAt_append_left _ _ _ _ hB, List.getElem?_append_left (by simpa [updateAt_length] using hB),
      updateAt_getElem?_eq]
    simp [List.getElem?_eq_getElem hB, jump, BasicBlock.setTarget]
  · intro b2 st2 hopen2 hany2
    have h1 := (hany2 [CInstruction.ENDLOOP] ((flatten body).length + 1) (by omega)).symm.trans
      (hany [CInstruction.ENDLOOP] ((flatten body).length + 1) (by omega))
    have h2 := (hany2 [CInstruction.other 0, CInstruction.ENDLOOP] ((flatten body).length + 2)
      (by omega)).symm.trans
      (hany [CInstruction.other 0, CInstruction.ENDLOOP] ((flatten body).length + 2) (by omega))
    exact current_block_unique E P st2 st_b b2 b none (some loop_entry) (some after_loop) rp none
      _ _ (by omega) (by omega) hopen2 hopen h1 h2

/-- Witness of C4 on `LOOP; 1; BREAKC 5; ENDLOOP; RET` parsed from the entry
block. -/
theorem C4_loop_back_edge_witness :
    0 < PassState.initial.blocks.length ∧
    (Prog.flat (.other 1) (.flat (.BREAKC 5) .done)).wf sampleExternal sampleEnv false = true ∧
    (flatten (Prog.flat (.other 1) (.flat (.BREAKC 5) .done))).length + 1 ≤ 3 ∧
    (let loop_entry := PassState.initial.blocks.length
     let after_loop := PassState.initial.blocks.length + 1
     let made : List BasicBlock :=
       [{ debug_name := .loop_entrance, instructions := [], target := .undefined },
        { debug_name := .endloop, instructions := [], target := .undefined }]
     let jump := BasicBlock.setTarget (.unconditional (some loop_entry))
     let st1 : PassState :=
       { PassState.initial with blocks := updateAt jump (PassState.initial.blocks ++ made) 0 }
     ∃ (b : Nat) (st_b : PassState),
       b < st_b.blocks.length ∧
       (∀ (tail : List CInstruction) (f : Nat),
         (flatten (Prog.flat (.other 1) (.flat (.BREAKC 5) .done))).length ≤ f →
         readControlFlow sampleExternal sampleEnv f
             (flatten (Prog.flat (.other 1) (.flat (.BREAKC 5) .done)) ++ tail) st1
             (some loop_entry) none (some loop_entry) (some after_loop) (some 1) none =
           readControlFlow sampleExternal sampleEnv
             (f - (Prog.flat (.other 1) (.flat (.BREAKC 5) .done)).ntop) tail st_b
             (some b) none (some loop_entry) (some after_loop) (some 1) none) ∧
       (st_b.blocks[b]?).map (fun blk => blk.target) = some .undefined ∧
       b ≠ 0 ∧ (b = loop_entry ∨ after_loop < b) ∧
       readControlFlow sampleExternal sampleEnv 3
           (flatten (Prog.flat (.other 1) (.flat (.BREAKC 5) .done)) ++
             CInstruction.ENDLOOP :: [CInstruction.RET]) st1
           (some loop_entry) none (some loop_entry) (some after_loop) (some 1) none =
         .ok (some after_loop, [CInstruction.RET],
           { st_b with blocks := updateAt jump st_b.blocks b }) ∧
       readControlFlow sampleExternal sampleEnv (3 + 1)
           (CInstruction.LOOP :: (flatten (Prog.flat (.other 1) (.flat (.BREAKC 5) .done)) ++
             CInstruction.ENDLOOP :: [CInstruction.RET]))
           PassState.initial (some 0) none none none (some 1) none =
         readControlFlow sampleExternal sampleEnv 3 [CInstruction.RET]
           { st_b with blocks := updateAt jump st_b.blocks b }
           (some after_loop) none none none (some 1) none ∧
       ((updateAt jump st_b.blocks b)[b]?).map (fun blk => blk.target) =
         some (.unconditional (some loop_entry)) ∧
       ((updateAt jump st_b.blocks b)[0]?).map (fun blk => blk.target) =
         some (.unconditional (some loop_entry)) ∧
       (∀ (b2 : Nat) (st2 : PassState),
         (st2.blocks[b2]?).map (fun blk => blk.target) = some .undefined →
         (∀ (tail : List CInstruction) (f : Nat),
           (flatten (Prog.flat (.other 1) (.flat (.BREAKC 5) .done))).length ≤ f →
           readControlFlow sampleExternal sampleEnv f
               (flatten (Prog.flat (.other 1) (.flat (.BREAKC 5) .done)) ++ tail) st1
               (some loop_entry) none (some loop_entry) (some after_loop) (some 1) none =
             readControlFlow sampleExternal sampleEnv
               (f - (Prog.flat (.other 1) (.flat (.BREAKC 5) .done)).ntop) tail st2
               (some b2) none (some loop_entry) (some after_loop) (some 1) none) →
         b2 = b ∧ st2 = st_b)) :=
  ⟨by decide, by decide, by decide,
    C4_loop_back_edge sampleExternal sampleEnv (Prog.flat (.other 1) (.flat (.BREAKC 5) .done))
      [CInstruction.RET] PassState.initial 0 none none none (some 1) none 3
      (by decide) (by decide) (by decide)⟩

/-- The graph of `LOOP; 1; BREAKC 5; ENDLOOP; RET`: the block open at ENDLOOP
is `after_breakc` (4), and it carries the back-edge to `loop_entrance` (2). -/
theorem loop_sample_graph :
    (SM50Initialize E P [.LOOP, .other 1, .BREAKC 5, .ENDLOOP, .RET]).toOption.map
      (fun sm => sm.blocks.map (fun b => (b.debug_name, b.target))) =
    some [(.entrybb, .unconditional (some 2)), (.returnbb, .ret),
          (.loop_entrance, .conditional (E.readCondition 5) (some 3) (some 4)),
          (.endloop, .unconditional (some 1)),
          (.after_breakc, .unconditional (some 2))] := by
  rfl

end Walk

end Dxmt
